import Mathlib

/-!
# CrashCatcher core: a shallow embedding of `Core/src/CrashCatcher.c`

The dump engine runs inside the HardFault handler of a Cortex-M part.  It reads the
registers saved by the fault handler, rebuilds the stack pointer the program had before
the fault, and hands a fixed sequence of memory blocks to three externally supplied
routines (`CrashCatcher_DumpStart`, `CrashCatcher_DumpMemory`, `CrashCatcher_DumpEnd`).

Conventions of the embedding:

* data memory is a function from pointers to bytes; `uint32_t` objects are stored
  little-endian (the Cortex-M data layout, also presupposed by `byteSwap` in
  `HexDump/tests/HexDumpTests.cpp`);
* `uint32_t` arithmetic is arithmetic on `Nat` reduced modulo `2 ^ 32`;
* the externally supplied routines are a record of functions over a machine state, so
  that they may change the first word of `g_crashCatcherStack` and their own state;
* every call of a dump routine is recorded in an event log.
-/

namespace CrashCatcher

/-! ## Machine words and byte memory -/

/-- Reduction of a natural number to the range of `uint32_t`. -/
def u32 (n : Nat) : Nat := n % 2 ^ 32

/-- Subtraction of two `uint32_t` values, wrapping as C unsigned arithmetic does. -/
def sub32 (a b : Nat) : Nat := (a + 2 ^ 32 - b) % 2 ^ 32

/-- The byte stored at pointer `p`. -/
def readByte (mem : Nat → Nat) (p : Nat) : Nat := mem p % 256

/-- The `n` bytes stored from pointer `p` on, in address order (what `memcpy` would copy). -/
def readBytes (mem : Nat → Nat) (p : Nat) : Nat → List Nat
  | 0 => []
  | n + 1 => readByte mem p :: readBytes mem (p + 1) n

/-- Little-endian load of the `uint32_t` object stored at pointer `p`. -/
def read32 (mem : Nat → Nat) (p : Nat) : Nat :=
  readByte mem p + 256 * readByte mem (p + 1) + 65536 * readByte mem (p + 2)
    + 16777216 * readByte mem (p + 3)

/-- The four bytes of a `uint32_t` object, in address order (little-endian). -/
def wordBytes (w : Nat) : List Nat :=
  [w % 256, w / 256 % 256, w / 65536 % 256, w / 16777216 % 256]

/-! ## Constants and structure layouts of `CrashCatcherPriv.h` -/

/-- Bit in LR telling that PSP was used for the automatic stacking: `(1 << 2)`. -/
def LR_PSP : Nat := 1 <<< 2

/-- Bit in the stacked xPSR telling that the stack was force-aligned: `(1 << 9)`. -/
def PSR_STACK_ALIGN : Nat := 1 <<< 9

/-- Magic value kept in the bottom word of the dump stack. -/
def STACK_SENTINEL : Nat := 0xACCE55ED

/-- Byte offsets of the fields of `CrashCatcherStackedRegisters` (eight `uint32_t`). -/
structure StackedRegistersLayout where
  r0 : Nat := 0
  r1 : Nat := 4
  r2 : Nat := 8
  r3 : Nat := 12
  r12 : Nat := 16
  lr : Nat := 20
  pc : Nat := 24
  psr : Nat := 28

/-- Byte offsets of the fields of `CrashCatcherExceptionRegisters` (twelve `uint32_t`). -/
structure ExceptionRegistersLayout where
  exceptionPSR : Nat := 0
  psp : Nat := 4
  msp : Nat := 8
  r4 : Nat := 12
  r5 : Nat := 16
  r6 : Nat := 20
  r7 : Nat := 24
  r8 : Nat := 28
  r9 : Nat := 32
  r10 : Nat := 36
  r11 : Nat := 40
  exceptionLR : Nat := 44

/-- The layout of `CrashCatcherStackedRegisters`. -/
def stacked : StackedRegistersLayout := {}

/-- The layout of `CrashCatcherExceptionRegisters`. -/
def saved : ExceptionRegistersLayout := {}

/-! ## Declarations of the public header `CrashCatcher.h` -/

/-- Modelled from the spec: the header `CrashCatcher.h` with `CrashCatcherElementSizes`
is not among the sources; the spec gives the element sizes as 1, 2 and 4 bytes, and the
mock multiplies the enumerator by the element count to get a byte length. -/
inductive CrashCatcherElementSizes
  | CRASH_CATCHER_BYTE
  | CRASH_CATCHER_HALFWORD
  | CRASH_CATCHER_WORD
  deriving DecidableEq

open CrashCatcherElementSizes

/-- The integer value of an element-size enumerator: its width in bytes. -/
def CrashCatcherElementSizes.toNat : CrashCatcherElementSizes → Nat
  | CRASH_CATCHER_BYTE => 1
  | CRASH_CATCHER_HALFWORD => 2
  | CRASH_CATCHER_WORD => 4

/-- Modelled from the spec: the header `CrashCatcher.h` with `CrashCatcherReturnCodes`
is not among the sources; the spec names the two results of closing a session,
`TryAgain` and `Exit`. -/
inductive CrashCatcherReturnCodes
  | CRASH_CATCHER_TRY_AGAIN
  | CRASH_CATCHER_EXIT
  deriving DecidableEq

open CrashCatcherReturnCodes

/-- Modelled from the spec: the header `CrashCatcher.h` with the signature constants is
not among the sources; the spec says two magic bytes, then major and minor version, and
`HexDumpTests.cpp` expects the line `63430100` for them. -/
def CRASH_CATCHER_SIGNATURE_BYTE0 : Nat := 0x63

/-- Modelled from the spec: second magic byte of the signature, see
`CRASH_CATCHER_SIGNATURE_BYTE0`. -/
def CRASH_CATCHER_SIGNATURE_BYTE1 : Nat := 0x43

/-- Modelled from the spec: major format version, see `CRASH_CATCHER_SIGNATURE_BYTE0`. -/
def CRASH_CATCHER_VERSION_MAJOR : Nat := 0x01

/-- Modelled from the spec: minor format version, see `CRASH_CATCHER_SIGNATURE_BYTE0`. -/
def CRASH_CATCHER_VERSION_MINOR : Nat := 0x00

/-- Modelled from the spec: the declaration of `CrashCatcherMemoryRegion` in
`CrashCatcher.h` is not among the sources; the spec gives it as two `uint32` addresses
and an element size, and these are the fields `dumpMemoryRegions` and the tests use. -/
structure CrashCatcherMemoryRegion where
  startAddress : Nat
  endAddress : Nat
  elementSize : CrashCatcherElementSizes
  deriving DecidableEq

/-- The bytes of a region descriptor as it lies in memory: both addresses, then the
element size (taken as a four-byte enumeration; `dumpMemoryRegions` reads the first eight
bytes only). -/
def CrashCatcherMemoryRegion.bytes (r : CrashCatcherMemoryRegion) : List Nat :=
  wordBytes r.startAddress ++ wordBytes r.endAddress ++ wordBytes r.elementSize.toNat

/-! ## The dump routines supplied from outside, and the machine they act on -/

/-- One recorded `CrashCatcher_DumpMemory` call, as `DumpMocks.c` stores it: a copy of
the `elementSize * elementCount` bytes found at the pointer, the element size and the
element count. -/
structure DumpMemoryItem where
  pvMemory : List Nat
  elementSize : CrashCatcherElementSizes
  elementCount : Nat
  deriving DecidableEq

/-- The state the engine and the dump routines share: data memory, the first word of
`g_crashCatcherStack`, and whatever the dump routines keep for themselves. -/
structure Machine (β : Type) where
  mem : Nat → Nat
  g_crashCatcherStack0 : Nat
  backend : β

/-- The externally supplied routines.  `CrashCatcher_GetMemoryRegions` yields `none` for
a NULL pointer and otherwise the array the pointer leads to. -/
structure Hooks (β : Type) where
  DumpStart : Machine β → Machine β
  GetMemoryRegions : Machine β → Option (List CrashCatcherMemoryRegion)
  DumpMemory : DumpMemoryItem → Machine β → Machine β
  DumpEnd : Machine β → CrashCatcherReturnCodes × Machine β

/-- What the engine does that can be seen from outside: its store to
`g_crashCatcherStack[0]` and its calls of the three dump routines (the call of
`CrashCatcher_GetMemoryRegions`, which only hands back a pointer, is not logged).  A
`DumpStart` event also keeps the value `g_crashCatcherStack[0]` had when the call was
made. -/
inductive Event
  | storeStack0 (value : Nat)
  | DumpStart (stackWord : Nat)
  | DumpMemory (item : DumpMemoryItem)
  | DumpEnd (result : CrashCatcherReturnCodes)
  deriving DecidableEq

/-- A machine together with the events recorded so far. -/
structure Run (β : Type) where
  machine : Machine β
  calls : List Event

/-- Where a pointer handed to `CrashCatcher_DumpMemory` leads: into data memory, or to an
object that is not part of data memory in this embedding (a static or automatic object
of the engine, or an entry of the region array) and holds the given bytes. -/
inductive Pointer
  | address (p : Nat)
  | object (bytes : List Nat)

/-- The first `n` bytes found at a pointer. -/
def Pointer.load (mem : Nat → Nat) : Pointer → Nat → List Nat
  | Pointer.address p, n => readBytes mem p n
  | Pointer.object bytes, n => bytes.take n

/-- Ways in which an execution yields no result. -/
inductive Fault
  | outOfBounds
  | outOfFuel
  deriving DecidableEq

/-- The globals of `CrashCatcher.c` other than the dump stack, and the pointer width of
the machine the code is compiled for (`sizeof(uint32_t*)`). -/
structure Globals where
  pointerSize : Nat
  g_crashCatcherTestBaseAddress : Nat
  g_pCrashCatcherCpuId : Nat
  g_pCrashCatcherFaultStatusRegisters : Nat

/-- The globals as initialised for the Cortex-M target. -/
def targetGlobals : Globals :=
  { pointerSize := 4
    g_crashCatcherTestBaseAddress := 0
    g_pCrashCatcherCpuId := 0xE000ED00
    g_pCrashCatcherFaultStatusRegisters := 0xE000ED28 }

/-- The local `Object` of `CrashCatcher.c`. -/
structure Object where
  pExceptionRegisters : Nat
  pSP : Nat
  sp : Nat
  deriving DecidableEq

/-! ## The functions of `CrashCatcher.c` -/

/-- Call of the supplied `CrashCatcher_DumpStart`. -/
def CrashCatcher_DumpStart {β : Type} (H : Hooks β) (r : Run β) : Run β :=
  { machine := H.DumpStart r.machine
    calls := r.calls ++ [Event.DumpStart r.machine.g_crashCatcherStack0] }

/-- Call of the supplied `CrashCatcher_DumpMemory(pvMemory, elementSize, elementCount)`. -/
def CrashCatcher_DumpMemory {β : Type} (H : Hooks β) (pvMemory : Pointer)
    (elementSize : CrashCatcherElementSizes) (elementCount : Nat) (r : Run β) : Run β :=
  let item : DumpMemoryItem :=
    { pvMemory := pvMemory.load r.machine.mem (elementSize.toNat * elementCount)
      elementSize := elementSize
      elementCount := elementCount }
  { machine := H.DumpMemory item r.machine
    calls := r.calls ++ [Event.DumpMemory item] }

/-- Call of the supplied `CrashCatcher_DumpEnd`. -/
def CrashCatcher_DumpEnd {β : Type} (H : Hooks β) (r : Run β) :
    CrashCatcherReturnCodes × Run β :=
  ((H.DumpEnd r.machine).1,
    { machine := (H.DumpEnd r.machine).2
      calls := r.calls ++ [Event.DumpEnd (H.DumpEnd r.machine).1] })

/-- The C function `getAddressOfExceptionStack`. -/
def getAddressOfExceptionStack (mem : Nat → Nat) (pExceptionRegisters : Nat) : Nat :=
  if read32 mem (pExceptionRegisters + saved.exceptionLR) &&& LR_PSP ≠ 0 then
    read32 mem (pExceptionRegisters + saved.psp)
  else
    read32 mem (pExceptionRegisters + saved.msp)

/-- The C function `uint32AddressToPointer`. -/
def uint32AddressToPointer (g : Globals) (address : Nat) : Nat :=
  if g.pointerSize = 8 then
    address ||| g.g_crashCatcherTestBaseAddress
  else
    address

/-- The C function `initStackPointers`. -/
def initStackPointers (g : Globals) (mem : Nat → Nat) (pExceptionRegisters : Nat) : Object :=
  let sp := getAddressOfExceptionStack mem pExceptionRegisters
  { pExceptionRegisters := pExceptionRegisters
    sp := sp
    pSP := uint32AddressToPointer g sp }

/-- The C function `advanceStackPointerToValueBeforeException`. -/
def advanceStackPointerToValueBeforeException (mem : Nat → Nat) (object : Object) : Object :=
  let sp1 := u32 (object.sp + 8 * 4)
  let sp2 := sp1 ||| (if read32 mem (object.pSP + stacked.psr) &&& PSR_STACK_ALIGN ≠ 0 then 4 else 0)
  { object with sp := sp2 }

/-- The C function `setStackSentinel`. -/
def setStackSentinel {β : Type} (r : Run β) : Run β :=
  { machine := { r.machine with g_crashCatcherStack0 := STACK_SENTINEL }
    calls := r.calls ++ [Event.storeStack0 STACK_SENTINEL] }

/-- The static array `signature` of `dumpSignature`. -/
def signature : List Nat :=
  [CRASH_CATCHER_SIGNATURE_BYTE0, CRASH_CATCHER_SIGNATURE_BYTE1,
   CRASH_CATCHER_VERSION_MAJOR, CRASH_CATCHER_VERSION_MINOR]

/-- The C function `dumpSignature`. -/
def dumpSignature {β : Type} (H : Hooks β) (_object : Object) (r : Run β) : Run β :=
  CrashCatcher_DumpMemory H (Pointer.object signature) CRASH_CATCHER_BYTE signature.length r

/-- The C function `dumpR0toR3`. -/
def dumpR0toR3 {β : Type} (H : Hooks β) (object : Object) (r : Run β) : Run β :=
  CrashCatcher_DumpMemory H (Pointer.address (object.pSP + stacked.r0)) CRASH_CATCHER_BYTE (4 * 4) r

/-- The C function `dumpR4toR11`. -/
def dumpR4toR11 {β : Type} (H : Hooks β) (object : Object) (r : Run β) : Run β :=
  CrashCatcher_DumpMemory H (Pointer.address (object.pExceptionRegisters + saved.r4))
    CRASH_CATCHER_BYTE ((11 - 4 + 1) * 4) r

/-- The C function `dumpR12`. -/
def dumpR12 {β : Type} (H : Hooks β) (object : Object) (r : Run β) : Run β :=
  CrashCatcher_DumpMemory H (Pointer.address (object.pSP + stacked.r12)) CRASH_CATCHER_BYTE 4 r

/-- The C function `dumpSP`. -/
def dumpSP {β : Type} (H : Hooks β) (object : Object) (r : Run β) : Run β :=
  CrashCatcher_DumpMemory H (Pointer.object (wordBytes object.sp)) CRASH_CATCHER_BYTE 4 r

/-- The C function `dumpLR_PC_PSR`. -/
def dumpLR_PC_PSR {β : Type} (H : Hooks β) (object : Object) (r : Run β) : Run β :=
  CrashCatcher_DumpMemory H (Pointer.address (object.pSP + stacked.lr)) CRASH_CATCHER_BYTE (3 * 4) r

/-- The C function `dumpExceptionPSR`. -/
def dumpExceptionPSR {β : Type} (H : Hooks β) (object : Object) (r : Run β) : Run β :=
  CrashCatcher_DumpMemory H (Pointer.address (object.pExceptionRegisters + saved.exceptionPSR))
    CRASH_CATCHER_BYTE 4 r

/-- The loop of `dumpMemoryRegions` for a non-NULL `pRegion`, the list being the array
from `pRegion` on.  Leaving the array without having met an entry whose start address is
`0xFFFFFFFF` is a read outside the array and yields `Fault.outOfBounds`. -/
def dumpMemoryRegionsFrom {β : Type} (H : Hooks β) (g : Globals) :
    List CrashCatcherMemoryRegion → Run β → Except Fault (Run β)
  | [], _ => Except.error Fault.outOfBounds
  | pRegion :: rest, r =>
    if pRegion.startAddress ≠ 0xFFFFFFFF then
      let r1 := CrashCatcher_DumpMemory H (Pointer.object pRegion.bytes) CRASH_CATCHER_BYTE (2 * 4) r
      let r2 := CrashCatcher_DumpMemory H
        (Pointer.address (uint32AddressToPointer g pRegion.startAddress))
        pRegion.elementSize
        (sub32 pRegion.endAddress pRegion.startAddress / pRegion.elementSize.toNat) r1
      dumpMemoryRegionsFrom H g rest r2
    else
      Except.ok r

/-- The C function `dumpMemoryRegions`. -/
def dumpMemoryRegions {β : Type} (H : Hooks β) (g : Globals) :
    Option (List CrashCatcherMemoryRegion) → Run β → Except Fault (Run β)
  | none, r => Except.ok r
  | some regions, r => dumpMemoryRegionsFrom H g regions r

/-- The bytes of the local array `value` of `checkStackSentinelForStackOverflow`. -/
def overflowValue : List Nat := [0xAC, 0xCE, 0x55, 0xED]

/-- The C function `checkStackSentinelForStackOverflow`. -/
def checkStackSentinelForStackOverflow {β : Type} (H : Hooks β) (r : Run β) : Run β :=
  if r.machine.g_crashCatcherStack0 ≠ STACK_SENTINEL then
    CrashCatcher_DumpMemory H (Pointer.object overflowValue) CRASH_CATCHER_BYTE overflowValue.length r
  else
    r

/-- The C function `isCortexM0Device`. -/
def isCortexM0Device (g : Globals) (mem : Nat → Nat) : Bool :=
  let partNumberCortexM0 := 0xC200
  let cpuId := read32 mem g.g_pCrashCatcherCpuId
  let partNumber := cpuId &&& 0xFFF0
  partNumber == partNumberCortexM0

/-- The local array `faultStatusRegion` of `dumpFaultStatusRegisters`. -/
def faultStatusRegion (g : Globals) : List CrashCatcherMemoryRegion :=
  let faultStatusRegistersAddress := u32 g.g_pCrashCatcherFaultStatusRegisters
  [ { startAddress := faultStatusRegistersAddress
      endAddress := u32 (faultStatusRegistersAddress + 5 * 4)
      elementSize := CRASH_CATCHER_WORD },
    { startAddress := 0xFFFFFFFF, endAddress := 0xFFFFFFFF, elementSize := CRASH_CATCHER_BYTE } ]

/-- The C function `dumpFaultStatusRegisters`. -/
def dumpFaultStatusRegisters {β : Type} (H : Hooks β) (g : Globals) (r : Run β) :
    Except Fault (Run β) :=
  dumpMemoryRegions H g (some (faultStatusRegion g)) r

/-- The seven register dumps of the loop body of `CrashCatcher_Entry`, in program order. -/
def dumpRegisters {β : Type} (H : Hooks β) (object : Object) (r : Run β) : Run β :=
  let r := dumpSignature H object r
  let r := dumpR0toR3 H object r
  let r := dumpR4toR11 H object r
  let r := dumpR12 H object r
  let r := dumpSP H object r
  let r := dumpLR_PC_PSR H object r
  dumpExceptionPSR H object r

/-- The loop body of `CrashCatcher_Entry` from `setStackSentinel` up to, and excluding,
`checkStackSentinelForStackOverflow`. -/
def dumpBeforeCheck {β : Type} (H : Hooks β) (g : Globals) (object : Object) (m : Machine β) :
    Except Fault (Run β) :=
  let r := setStackSentinel { machine := m, calls := [] }
  let r := CrashCatcher_DumpStart H r
  let r := dumpRegisters H object r
  match dumpMemoryRegions H g (H.GetMemoryRegions r.machine) r with
  | Except.error e => Except.error e
  | Except.ok r =>
    if ¬ isCortexM0Device g r.machine.mem then
      dumpFaultStatusRegisters H g r
    else
      Except.ok r

/-- One pass: the body of the `do ... while` loop of `CrashCatcher_Entry` followed by the
call of `CrashCatcher_DumpEnd` in the loop condition.  The events are those of this pass. -/
def dumpPass {β : Type} (H : Hooks β) (g : Globals) (object : Object) (m : Machine β) :
    Except Fault (CrashCatcherReturnCodes × Run β) :=
  match dumpBeforeCheck H g object m with
  | Except.error e => Except.error e
  | Except.ok r =>
    let r := checkStackSentinelForStackOverflow H r
    Except.ok (CrashCatcher_DumpEnd H r)

/-- The `do ... while` loop of `CrashCatcher_Entry`, with a bound on the number of passes.
The result is the final machine and the events of each pass, first pass first. -/
def dumpLoop {β : Type} (H : Hooks β) (g : Globals) (object : Object) :
    Nat → Machine β → Except Fault (Machine β × List (List Event))
  | 0, _ => Except.error Fault.outOfFuel
  | fuel + 1, m =>
    match dumpPass H g object m with
    | Except.error e => Except.error e
    | Except.ok (code, r) =>
      if code = CRASH_CATCHER_TRY_AGAIN then
        match dumpLoop H g object fuel r.machine with
        | Except.error e => Except.error e
        | Except.ok (m', passes) => Except.ok (m', r.calls :: passes)
      else
        Except.ok (r.machine, [r.calls])

/-- The object `CrashCatcher_Entry` builds before its loop. -/
def entryObject (g : Globals) (mem : Nat → Nat) (pExceptionRegisters : Nat) : Object :=
  let object := initStackPointers g mem pExceptionRegisters
  advanceStackPointerToValueBeforeException mem object

/-- The C function `CrashCatcher_Entry`; `fuel` bounds the number of passes. -/
def CrashCatcher_Entry {β : Type} (H : Hooks β) (g : Globals) (fuel : Nat)
    (pExceptionRegisters : Nat) (m : Machine β) :
    Except Fault (Machine β × List (List Event)) :=
  dumpLoop H g (entryObject g m.mem pExceptionRegisters) fuel m

/-! ## Reading an event log -/

/-- The `CrashCatcher_DumpMemory` items of a log, in call order. -/
def items : List Event → List DumpMemoryItem
  | [] => []
  | Event.DumpMemory item :: rest => item :: items rest
  | _ :: rest => items rest

/-- Number of `CrashCatcher_DumpStart` calls in a log. -/
def startCount : List Event → Nat
  | [] => 0
  | Event.DumpStart _ :: rest => startCount rest + 1
  | _ :: rest => startCount rest

/-- Number of `CrashCatcher_DumpEnd` calls in a log. -/
def endCount : List Event → Nat
  | [] => 0
  | Event.DumpEnd _ :: rest => endCount rest + 1
  | _ :: rest => endCount rest

/-- The events of a pass, when the pass runs to its end. -/
def passEvents {β : Type} (x : Except Fault (CrashCatcherReturnCodes × Run β)) :
    Option (List Event) :=
  match x with
  | Except.ok (_, r) => some r.calls
  | Except.error _ => none

/-- The events of each pass of an invocation, when the invocation returns. -/
def entryEvents {β : Type} (x : Except Fault (Machine β × List (List Event))) :
    Option (List (List Event)) :=
  match x with
  | Except.ok (_, passes) => some passes
  | Except.error _ => none

/-! ## The mock dump routines of `Core/mocks/DumpMocks.c` and test fixtures -/

/-- The static variables of `DumpMocks.c`. -/
structure DumpMocks where
  g_dumpStartCallCount : Nat
  g_dumpEndCallCount : Nat
  g_pDumpMemoryItems : List DumpMemoryItem
  g_pRegions : Option (List CrashCatcherMemoryRegion)

/-- The C function `DumpMocks_Init`. -/
def DumpMocks_Init : DumpMocks :=
  { g_dumpStartCallCount := 0
    g_dumpEndCallCount := 0
    g_pDumpMemoryItems := []
    g_pRegions := none }

/-- The C function `DumpMocks_SetMemoryRegions`. -/
def DumpMocks_SetMemoryRegions (pRegions : Option (List CrashCatcherMemoryRegion))
    (s : DumpMocks) : DumpMocks :=
  { s with g_pRegions := pRegions }

/-- The mock implementations of the `CrashCatcher_Dump*` routines in `DumpMocks.c`. -/
def mockHooks : Hooks DumpMocks :=
  { DumpStart := fun m =>
      { m with backend := { m.backend with
          g_dumpStartCallCount := u32 (m.backend.g_dumpStartCallCount + 1) } }
    GetMemoryRegions := fun m => m.backend.g_pRegions
    DumpMemory := fun item m =>
      { m with backend := { m.backend with
          g_pDumpMemoryItems := m.backend.g_pDumpMemoryItems ++ [item] } }
    DumpEnd := fun m =>
      (CRASH_CATCHER_EXIT,
        { m with backend := { m.backend with
            g_dumpEndCallCount := u32 (m.backend.g_dumpEndCallCount + 1) } }) }

/-- Dump routines that keep a counter of retries still to be asked for: what the test
`DumpEndReturnTryAgainOnce_ShouldDumpTwice` sets up with `DumpMocks_SetDumpEndLoops`
(that routine is not in the `DumpMocks.c` at hand).  `regions` is the region array. -/
def loopHooks (regions : Option (List CrashCatcherMemoryRegion)) : Hooks Nat :=
  { DumpStart := fun m => m
    GetMemoryRegions := fun _ => regions
    DumpMemory := fun _ m => m
    DumpEnd := fun m =>
      if m.backend = 0 then (CRASH_CATCHER_EXIT, m)
      else (CRASH_CATCHER_TRY_AGAIN, { m with backend := m.backend - 1 }) }

/-- Dump routines whose `CrashCatcher_DumpMemory` runs so deep into the dump stack that
it overwrites `g_crashCatcherStack[0]`, but only while their counter is not zero; every
`CrashCatcher_DumpEnd` asks for a retry while the counter is not zero and decrements it. -/
def overflowHooks : Hooks Nat :=
  { DumpStart := fun m => m
    GetMemoryRegions := fun _ => none
    DumpMemory := fun _ m =>
      if m.backend = 0 then m else { m with g_crashCatcherStack0 := 0 }
    DumpEnd := fun m =>
      if m.backend = 0 then (CRASH_CATCHER_EXIT, m)
      else (CRASH_CATCHER_TRY_AGAIN, { m with backend := m.backend - 1 }) }

/-- Memory holding the given words: `(p, w)` stores the `uint32_t` value `w` at pointer
`p`, little-endian; every other byte is zero.  An earlier pair wins over a later one. -/
def memoryOfWords : List (Nat × Nat) → Nat → Nat
  | [], _ => 0
  | (p, w) :: rest, q =>
    if p ≤ q ∧ q < p + 4 then (wordBytes w).getD (q - p) 0 else memoryOfWords rest q

/-- The register fixture of `CrashCatcherTests.cpp`, laid out on a 32-bit machine: the
exception registers at `0x1000`, the emulated PSP frame at `0x20000100`, the emulated MSP
frame at `0x20000200`, `m_memory` at `0x20000300`, a Cortex-M0 CPU ID; `lr` is the `exceptionLR` value and `psr` the
word stored as `m_emulatedMSP[7]`. -/
def testMemory (lr psr : Nat) : Nat → Nat :=
  memoryOfWords
    [ (0x1000, 0), (0x1004, 0x20000100), (0x1008, 0x20000200),
      (0x100C, 0x44444444), (0x1010, 0x55555555), (0x1014, 0x66666666), (0x1018, 0x77777777),
      (0x101C, 0x88888888), (0x1020, 0x99999999), (0x1024, 0xAAAAAAAA), (0x1028, 0xBBBBBBBB),
      (0x102C, lr),
      (0x20000100, 0xFFFF0000), (0x20000104, 0xFFFF1111), (0x20000108, 0xFFFF2222),
      (0x2000010C, 0xFFFF3333), (0x20000110, 0xFFFF4444), (0x20000114, 0xFFFF5555),
      (0x20000118, 0xFFFF6666), (0x2000011C, 0),
      (0x20000200, 0x0000FFFF), (0x20000204, 0x1111FFFF), (0x20000208, 0x2222FFFF),
      (0x2000020C, 0x3333FFFF), (0x20000210, 0x4444FFFF), (0x20000214, 0x5555FFFF),
      (0x20000218, 0x6666FFFF), (0x2000021C, psr),
      (0x20000300, 0x03020100), (0x20000304, 0x07060504), (0x20000308, 0x0B0A0908),
      (0x2000030C, 0x0F0E0D0C), (0x20000310, 0x13121110),
      (0xE000ED00, 0x410CC200) ]

/-- A machine over the mock routines with the given memory and region array. -/
def mockMachine (mem : Nat → Nat) (regions : Option (List CrashCatcherMemoryRegion)) :
    Machine DumpMocks :=
  { mem := mem
    g_crashCatcherStack0 := 0
    backend := DumpMocks_SetMemoryRegions regions DumpMocks_Init }

/-- Memory for a fault taken on a frame whose base has bit 2 set: `exceptionLR` selects
MSP, MSP is `0x20000204`, and the stacked `psr` has the alignment bit set. -/
def oddFrameMemory : Nat → Nat :=
  memoryOfWords
    [ (0x1004, 0x20000100), (0x1008, 0x20000204), (0x102C, 0xFFFFFFF1),
      (0x20000220, 0x200), (0xE000ED00, 0x410CC200) ]

/-! ## Vocabulary of the statements -/

/-- Element size and element count of an item. -/
def DumpMemoryItem.shape (item : DumpMemoryItem) : CrashCatcherElementSizes × Nat :=
  (item.elementSize, item.elementCount)

/-- The dump routines leave data memory as it is. -/
def Hooks.KeepsMemory {β : Type} (H : Hooks β) : Prop :=
  (∀ m, (H.DumpStart m).mem = m.mem) ∧
  (∀ item m, (H.DumpMemory item m).mem = m.mem) ∧
  (∀ m, (H.DumpEnd m).2.mem = m.mem)

/-- The machine after `CrashCatcher_DumpMemory` has been called with each item in turn. -/
def feed {β : Type} (H : Hooks β) : List DumpMemoryItem → Machine β → Machine β
  | [], m => m
  | item :: rest, m => feed H rest (H.DumpMemory item m)

/-- The run in which the loop body of `CrashCatcher_Entry` has gone through
`setStackSentinel`, `CrashCatcher_DumpStart` and the seven register dumps. -/
def registerRun {β : Type} (H : Hooks β) (object : Object) (m : Machine β) : Run β :=
  dumpRegisters H object (CrashCatcher_DumpStart H (setStackSentinel { machine := m, calls := [] }))

/-- The seven register items a pass is expected to hand over, for a given memory. -/
def expectedRegisterItems (mem : Nat → Nat) (object : Object) : List DumpMemoryItem :=
  [ { pvMemory := signature, elementSize := CRASH_CATCHER_BYTE, elementCount := 4 },
    { pvMemory := readBytes mem object.pSP 16, elementSize := CRASH_CATCHER_BYTE, elementCount := 16 },
    { pvMemory := readBytes mem (object.pExceptionRegisters + 12) 32,
      elementSize := CRASH_CATCHER_BYTE, elementCount := 32 },
    { pvMemory := readBytes mem (object.pSP + 16) 4, elementSize := CRASH_CATCHER_BYTE, elementCount := 4 },
    { pvMemory := wordBytes object.sp, elementSize := CRASH_CATCHER_BYTE, elementCount := 4 },
    { pvMemory := readBytes mem (object.pSP + 20) 12, elementSize := CRASH_CATCHER_BYTE, elementCount := 12 },
    { pvMemory := readBytes mem object.pExceptionRegisters 4,
      elementSize := CRASH_CATCHER_BYTE, elementCount := 4 } ]

/-- The pair of items a region is expected to give rise to, for a given memory: the
descriptor with both addresses, then the contents read from the start address. -/
def expectedRegionItems (g : Globals) (mem : Nat → Nat) (region : CrashCatcherMemoryRegion) :
    List DumpMemoryItem :=
  [ { pvMemory := wordBytes region.startAddress ++ wordBytes region.endAddress
      elementSize := CRASH_CATCHER_BYTE
      elementCount := 8 },
    { pvMemory := readBytes mem (uint32AddressToPointer g region.startAddress)
        (region.elementSize.toNat *
          (sub32 region.endAddress region.startAddress / region.elementSize.toNat))
      elementSize := region.elementSize
      elementCount := sub32 region.endAddress region.startAddress / region.elementSize.toNat } ]

/-- The overflow marker item. -/
def overflowItem : DumpMemoryItem :=
  { pvMemory := [0xAC, 0xCE, 0x55, 0xED], elementSize := CRASH_CATCHER_BYTE, elementCount := 4 }

/-- The events of one pass of the mock routines on the 32-bit target, with the exception
registers at `0x1000`; the empty list when the pass does not come to an end. -/
def mockPassEvents (mem : Nat → Nat) (regions : Option (List CrashCatcherMemoryRegion)) :
    List Event :=
  (passEvents (dumpPass mockHooks targetGlobals (entryObject targetGlobals mem 0x1000)
    (mockMachine mem regions))).getD []

/-- The region array of the test `DumpMultipleRegions`, with `m_memory` at `0x20000300`. -/
def testRegions : List CrashCatcherMemoryRegion :=
  [ { startAddress := 0x20000300, endAddress := 0x20000301, elementSize := CRASH_CATCHER_BYTE },
    { startAddress := 0x20000301, endAddress := 0x20000303, elementSize := CRASH_CATCHER_HALFWORD },
    { startAddress := 0x20000303, endAddress := 0x20000307, elementSize := CRASH_CATCHER_WORD } ]

/-- The entry that ends a region array in the tests and samples. -/
def testSentinel : CrashCatcherMemoryRegion :=
  { startAddress := 0xFFFFFFFF, endAddress := 0xFFFFFFFF, elementSize := CRASH_CATCHER_BYTE }

/-- A run of the mock routines that has not logged anything yet. -/
def mockRun (mem : Nat → Nat) : Run DumpMocks :=
  { machine := mockMachine mem none, calls := [] }

/-- The entries of a region array that `dumpMemoryRegions` walks: those before the first
entry whose start address is `0xFFFFFFFF`. -/
def walked (regions : List CrashCatcherMemoryRegion) : List CrashCatcherMemoryRegion :=
  regions.takeWhile fun x => decide (x.startAddress ≠ 0xFFFFFFFF)

/-- The items the walk over a region array is expected to hand over, for a given memory. -/
def expectedWalkItems (g : Globals) (mem : Nat → Nat) :
    Option (List CrashCatcherMemoryRegion) → List DumpMemoryItem
  | none => []
  | some regions => ((walked regions).map (expectedRegionItems g mem)).flatten

/-- The items a pass is expected to hand over before the sentinel check, for a given
memory and region array: registers, the caller's regions, and the fault status registers
unless the CPU ID has the Cortex-M0 part number. -/
def expectedPassItems (g : Globals) (mem : Nat → Nat) (object : Object)
    (table : Option (List CrashCatcherMemoryRegion)) : List DumpMemoryItem :=
  expectedRegisterItems mem object ++ expectedWalkItems g mem table ++
    (if isCortexM0Device g mem = true then []
     else expectedWalkItems g mem (some (faultStatusRegion g)))

/-- The events of one pass of `overflowHooks` on the test fixture, the routines being set
to overwrite the sentinel (counter 1); the globals are those of the target. -/
def overflowPassEvents : List Event :=
  (passEvents (dumpPass overflowHooks targetGlobals
    (entryObject targetGlobals (testMemory 0xFFFFFFF1 0) 0x1000)
    { mem := testMemory 0xFFFFFFF1 0, g_crashCatcherStack0 := 0, backend := 1 })).getD []

/-- The test fixture with another CPU ID: a Cortex-M3 (`0x412FC230`). -/
def cortexM3Memory : Nat → Nat :=
  memoryOfWords [(0xE000ED00, 0x412FC230), (0xE000ED28, 0x00020000),
    (0x1008, 0x20000200), (0x102C, 0xFFFFFFF1)]

/-- The value `CrashCatcher_DumpEnd` returns on its call number `k + 1`, when passes are
run one after the other from machine `m`, each to its end; `none` when one of these
passes does not come to an end. -/
def passResult {β : Type} (H : Hooks β) (g : Globals) (object : Object) :
    Nat → Machine β → Option CrashCatcherReturnCodes
  | 0, m =>
    match dumpPass H g object m with
    | Except.ok (code, _) => some code
    | Except.error _ => none
  | k + 1, m =>
    match dumpPass H g object m with
    | Except.ok (_, r) => passResult H g object k r.machine
    | Except.error _ => none

/-- The region array the dump routines hand out does not depend on the machine state. -/
def Hooks.KeepsRegions {β : Type} (H : Hooks β) : Prop :=
  ∀ m m', H.GetMemoryRegions m = H.GetMemoryRegions m'

/-- The routines called between the store of the sentinel and its check leave the first
word of `g_crashCatcherStack` as it is. -/
def Hooks.KeepsStack0 {β : Type} (H : Hooks β) : Prop :=
  (∀ m, (H.DumpStart m).g_crashCatcherStack0 = m.g_crashCatcherStack0) ∧
  (∀ item m, (H.DumpMemory item m).g_crashCatcherStack0 = m.g_crashCatcherStack0)

/-- The passes of an invocation with `loopHooks none`, one retry to be asked for. -/
def loopEntryPasses : List (List Event) :=
  (entryEvents (CrashCatcher_Entry (loopHooks none) targetGlobals 2 0x1000
    { mem := testMemory 0xFFFFFFF1 0, g_crashCatcherStack0 := 0, backend := 1 })).getD []

/-- The passes of an invocation with `overflowHooks`, which overwrite the sentinel in the
first pass only and ask for one retry. -/
def overflowEntryPasses : List (List Event) :=
  (entryEvents (CrashCatcher_Entry overflowHooks targetGlobals 2 0x1000
    { mem := testMemory 0xFFFFFFF1 0, g_crashCatcherStack0 := 0, backend := 1 })).getD []

/-- Checks that a log is a sequence of sessions: the store of the sentinel happens
outside a session, `CrashCatcher_DumpStart` opens a session only outside one,
`CrashCatcher_DumpMemory` and `CrashCatcher_DumpEnd` are called only inside one, and the
log ends outside.  The flag says whether a session is open. -/
def bracketed : Bool → List Event → Bool
  | inside, [] => !inside
  | inside, Event.storeStack0 _ :: rest => !inside && bracketed false rest
  | inside, Event.DumpStart _ :: rest => !inside && bracketed true rest
  | inside, Event.DumpMemory _ :: rest => inside && bracketed true rest
  | inside, Event.DumpEnd _ :: rest => inside && bracketed false rest

/-- A machine over the mocks with a Cortex-M3 CPU ID and the region array of the test
`DumpMultipleRegions`. -/
def mockRegionsMachine : Machine DumpMocks :=
  mockMachine cortexM3Memory (some (testRegions ++ [testSentinel]))

/-- The passes of an invocation of the mocks on `mockRegionsMachine`. -/
def mockEntryPasses : List (List Event) :=
  (entryEvents (CrashCatcher_Entry mockHooks targetGlobals 1 0x1000 mockRegionsMachine)).getD []

/-- The passes of an invocation of the mocks on the test fixture, PSP in use, the region
array being the sentinel alone: the test `DumpRegistersOnly_PSP_StackAlignmentNotNeeded`. -/
def mockSentinelOnlyPasses : List (List Event) :=
  (entryEvents (CrashCatcher_Entry mockHooks targetGlobals 1 0x1000
    (mockMachine (testMemory 0xFFFFFFFD 0) (some [testSentinel])))).getD []

/-- The events of one pass of the mocks on the test fixture with a Cortex-M0 CPU ID, the
region array being the regions of `DumpMultipleRegions`, then the fault status registers
as one more region, then the sentinel. -/
def mockExtraRegionEvents : List Event :=
  (passEvents (dumpPass mockHooks targetGlobals
    (entryObject targetGlobals (testMemory 0xFFFFFFF1 0) 0x1000)
    (mockMachine (testMemory 0xFFFFFFF1 0)
      (some (testRegions ++
        [{ startAddress := 0xE000ED28, endAddress := 0xE000ED3C,
           elementSize := CRASH_CATCHER_WORD }, testSentinel]))))).getD []

/-- The globals of the target with the CPU ID pointer moved to `0x20000300`, where the
test fixture holds `m_memory` and not a Cortex-M0 part number. -/
def altCpuGlobals : Globals :=
  { targetGlobals with g_pCrashCatcherCpuId := 0x20000300 }

/-- The events of one pass of the mocks on the same memory and the regions of
`DumpMultipleRegions`, the CPU ID being read at `0x20000300`. -/
def mockFaultStatusEvents : List Event :=
  (passEvents (dumpPass mockHooks altCpuGlobals
    (entryObject altCpuGlobals (testMemory 0xFFFFFFF1 0) 0x1000)
    (mockMachine (testMemory 0xFFFFFFF1 0) (some (testRegions ++ [testSentinel]))))).getD []

/-- The items in the log of a walk, when the walk comes to an end. -/
def walkItems {β : Type} (x : Except Fault (Run β)) : Option (List DumpMemoryItem) :=
  match x with
  | Except.ok r => some (items r.calls)
  | Except.error _ => none

/-- A region array whose first entry has start address `0xFFFFFFFF` and another end
address, followed by a region of one byte and the sentinel. -/
def oddSentinelRegions : List CrashCatcherMemoryRegion :=
  [ { startAddress := 0xFFFFFFFF, endAddress := 0x20000301, elementSize := CRASH_CATCHER_BYTE },
    { startAddress := 0x20000300, endAddress := 0x20000301, elementSize := CRASH_CATCHER_BYTE },
    testSentinel ]

/-- The region array of the test `DumpOneDoubleByteRegion`, with `m_memory` at
`0x20000300`. -/
def doubleByteRegions : List CrashCatcherMemoryRegion :=
  [ { startAddress := 0x20000300, endAddress := 0x20000302, elementSize := CRASH_CATCHER_BYTE },
    testSentinel ]

/-! ## The Hex-Interactive backend -/

/-- Modelled from the spec: `HexDump.c` is not among the sources, only its tests are.
The state of the backend and of its character channel: the characters written so far,
the characters waiting to be read, the region array the test mock hands out, and the
global `g_crashCatcherDumpEndReturn` that `HexDumpTests.cpp` declares and its `setup()`
sets to `CRASH_CATCHER_EXIT`. -/
structure HexDump where
  putcData : List Char
  getcData : List Char
  g_pRegions : Option (List CrashCatcherMemoryRegion)
  g_crashCatcherDumpEndReturn : CrashCatcherReturnCodes

/-- The line ending of the backend. -/
def CRLF : List Char := "\r\n".toList

/-- Modelled from the spec: one uppercase hexadecimal digit. -/
def hexDigit (n : Nat) : Char :=
  if n < 10 then Char.ofNat (48 + n) else Char.ofNat (55 + n)

/-- Modelled from the spec: every byte becomes two uppercase hexadecimal digits. -/
def hexByte (b : Nat) : List Char := [hexDigit (b / 16 % 16), hexDigit (b % 16)]

/-- Modelled from the spec: bytes written one after the other, no separators. -/
def hexBytes : List Nat → List Char
  | [] => []
  | b :: rest => hexByte b ++ hexBytes rest

/-- Modelled from the spec: the hard wrap every 16 source bytes; `fuel` bounds the number
of lines. -/
def contentLines : Nat → List Nat → List (List Nat)
  | 0, _ => []
  | fuel + 1, bytes =>
    if bytes = [] then [] else bytes.take 16 :: contentLines fuel (bytes.drop 16)

/-- The lines, of at most 16 bytes each, in which a block of bytes is written. -/
def hexLines (bytes : List Nat) : List (List Nat) := contentLines bytes.length bytes

/-- Modelled from the spec: what `write(pointer, elementSize, count)` of the
Hex-Interactive backend prints for one element: the bytes in the order they lie in
memory, a line break after every 16 bytes and after a trailing partial line.  The wrap is
applied to every element, register groups included, as the expected output of
`setExpectedRegisterOutput` in `HexDumpTests.cpp` has it (r4..r11 on two lines). -/
def hexElement (item : DumpMemoryItem) : List Char :=
  ((hexLines item.pvMemory).map fun line => hexBytes line ++ CRLF).flatten

/-- Modelled from the spec: the fixed banner of `start()`, as the tests expect it. -/
def hexBanner : List Char :=
  "\r\n\r\nCRASH ENCOUNTERED\r\nEnable logging and then press any key to start dump.\r\n".toList

/-- Modelled from the spec: the fixed trailing line of `end()`, as the tests expect it. -/
def hexTrailer : List Char := "\r\nEnd of dump\r\n".toList

/-- Modelled from the spec: the three routines of the Hex-Interactive backend (`HexDump.c`
is not among the sources).  `start()` prints the banner, takes one character from the
input and prints a line break (the wait for the key press is not modelled); `write`
prints `hexElement`; `end()` prints the trailer and always returns `Done`
(`CRASH_CATCHER_EXIT`), whatever the state: the interactive backend never asks for a
retry. -/
def hexHooks : Hooks HexDump :=
  { DumpStart := fun m =>
      { m with backend := { m.backend with
          putcData := m.backend.putcData ++ hexBanner ++ CRLF
          getcData := m.backend.getcData.tail } }
    GetMemoryRegions := fun m => m.backend.g_pRegions
    DumpMemory := fun item m =>
      { m with backend := { m.backend with
          putcData := m.backend.putcData ++ hexElement item } }
    DumpEnd := fun m =>
      (CRASH_CATCHER_EXIT,
        { m with backend := { m.backend with
            putcData := m.backend.putcData ++ hexTrailer } }) }

/-- What the Hex-Interactive backend prints for a log of calls. -/
def render : List Event → List Char
  | [] => []
  | Event.storeStack0 _ :: rest => render rest
  | Event.DumpStart _ :: rest => hexBanner ++ CRLF ++ render rest
  | Event.DumpMemory item :: rest => hexElement item ++ render rest
  | Event.DumpEnd _ :: rest => hexTrailer ++ render rest

/-- The characters written when an invocation has returned. -/
def entryOutput (x : Except Fault (Machine HexDump × List (List Event))) : Option (List Char) :=
  match x with
  | Except.ok (m, _) => some m.backend.putcData
  | Except.error _ => none

/-- The characters written when a pass has come to its end. -/
def passOutput (x : Except Fault (CrashCatcherReturnCodes × Run HexDump)) :
    Option (List Char) :=
  match x with
  | Except.ok (_, r) => some r.machine.backend.putcData
  | Except.error _ => none

/-! ## The fixture of `HexDump/tests/HexDumpTests.cpp` -/

/-- A machine over the Hex-Interactive backend as `setup()` of the tests leaves it: the
key press `'\n'` waiting, nothing written, `g_crashCatcherDumpEndReturn` as given
(`setup()` assigns `CRASH_CATCHER_EXIT`). -/
def hexMachine (mem : Nat → Nat) (regions : Option (List CrashCatcherMemoryRegion))
    (dumpEndReturn : CrashCatcherReturnCodes) : Machine HexDump :=
  { mem := mem
    g_crashCatcherStack0 := 0
    backend :=
      { putcData := []
        getcData := ['\n']
        g_pRegions := regions
        g_crashCatcherDumpEndReturn := dumpEndReturn } }

/-- The C++ function `byteSwap` of the tests. -/
def byteSwap (val : Nat) : Nat :=
  u32 (val <<< 24) ||| ((val <<< 8) &&& 0x00FF0000) ||| ((val >>> 8) &&& 0x0000FF00)
    ||| (val >>> 24)

/-- The `printf` conversion `%08X` for a value below `2 ^ 32`. -/
def format08X (v : Nat) : List Char :=
  [hexDigit (v / 0x10000000 % 16), hexDigit (v / 0x1000000 % 16), hexDigit (v / 0x100000 % 16),
   hexDigit (v / 0x10000 % 16), hexDigit (v / 0x1000 % 16), hexDigit (v / 0x100 % 16),
   hexDigit (v / 0x10 % 16), hexDigit (v % 16)]

/-- The `printf` conversion `%02X` for a value below 256. -/
def format02X (v : Nat) : List Char := [hexDigit (v / 16 % 16), hexDigit (v % 16)]

/-- The words of `m_emulatedMSP` in the test fixture, the last one being the stacked psr. -/
def m_emulatedMSP : List Nat :=
  [0x0000FFFF, 0x1111FFFF, 0x2222FFFF, 0x3333FFFF, 0x4444FFFF, 0x5555FFFF, 0x6666FFFF, 0]

/-- The values r4..r11 of `m_exceptionRegisters` in the test fixture. -/
def m_savedRegisters : List Nat :=
  [0x44444444, 0x55555555, 0x66666666, 0x77777777, 0x88888888, 0x99999999, 0xAAAAAAAA,
   0xBBBBBBBB]

/-- The C++ function `setExpectedRegisterOutput` of the tests, for the fixture laid out
as in `testMemory` (MSP frame at `0x20000200`, so `m_expectedSP` is `0x20000220`, and
`exceptionPSR` zero). -/
def setExpectedRegisterOutput : List Char :=
  hexBanner ++ CRLF ++ "63430100\r\n".toList ++
  ((m_emulatedMSP.take 4).map fun v => format08X (byteSwap v)).flatten ++ CRLF ++
  ((m_savedRegisters.take 4).map fun v => format08X (byteSwap v)).flatten ++ CRLF ++
  ((m_savedRegisters.drop 4).map fun v => format08X (byteSwap v)).flatten ++ CRLF ++
  format08X (byteSwap (m_emulatedMSP.getD 4 0)) ++ CRLF ++
  format08X (byteSwap 0x20000220) ++ CRLF ++
  (((m_emulatedMSP.drop 5).take 3).map fun v => format08X (byteSwap v)).flatten ++ CRLF ++
  format08X (byteSwap 0) ++ CRLF

/-- The C++ function `appendExpectedMemoryOutput` of the tests: the header of a region,
then the data lines given by the caller's format. -/
def appendExpectedMemoryOutput (expected : List Char) (region : CrashCatcherMemoryRegion)
    (dataLines : List Char) : List Char :=
  expected ++ format08X (byteSwap region.startAddress) ++
    format08X (byteSwap region.endAddress) ++ CRLF ++ dataLines

/-- The C++ function `appendExpectedTrailerOutput` of the tests. -/
def appendExpectedTrailerOutput (expected : List Char) : List Char :=
  expected ++ "\r\nEnd of dump\r\n".toList

/-- The region array of the tests `Dump16Bytes..`, `Dump17Bytes..`, `Dump5Words..`:
one region of `n` bytes at `m_memory` with the given element size. -/
def hexTestRegions (n : Nat) (elementSize : CrashCatcherElementSizes) :
    Option (List CrashCatcherMemoryRegion) :=
  some [ { startAddress := 0x20000300, endAddress := 0x20000300 + n, elementSize := elementSize },
         testSentinel ]

/-- A region array on which the walk comes to an end: a NULL pointer, or an array that
holds an entry with start address `0xFFFFFFFF`. -/
def TableEnds (table : Option (List CrashCatcherMemoryRegion)) : Prop :=
  table = none ∨
  ∃ (rs : List CrashCatcherMemoryRegion) (s : CrashCatcherMemoryRegion)
    (rest : List CrashCatcherMemoryRegion),
    table = some (rs ++ s :: rest) ∧ (∀ x ∈ rs, x.startAddress ≠ 0xFFFFFFFF) ∧
    s.startAddress = 0xFFFFFFFF

/-- The events of one pass through the Hex-Interactive backend on the test fixture,
without regions. -/
def hexPassEvents : List Event :=
  (passEvents (dumpPass hexHooks targetGlobals
    (entryObject targetGlobals (testMemory 0xFFFFFFF1 0) 0x1000)
    (hexMachine (testMemory 0xFFFFFFF1 0) none CRASH_CATCHER_EXIT))).getD []

/-- The characters written by one pass through the Hex-Interactive backend on the test
fixture, without regions. -/
def hexPassOutput : List Char :=
  (passOutput (dumpPass hexHooks targetGlobals
    (entryObject targetGlobals (testMemory 0xFFFFFFF1 0) 0x1000)
    (hexMachine (testMemory 0xFFFFFFF1 0) none CRASH_CATCHER_EXIT))).getD []

/-- The test fixture with the CPU ID of a Cortex-M0+ (`0x410CC600`, part number `0xC60`). -/
def cortexM0PlusMemory : Nat → Nat :=
  memoryOfWords [(0xE000ED00, 0x410CC600), (0xE000ED28, 0x00020000),
    (0x1008, 0x20000200), (0x102C, 0xFFFFFFF1)]

/-- The region array of `DumpMultipleRegions` with entries placed after the sentinel: an
entry with a huge range and the sentinel once more. -/
def trailingRegions : List CrashCatcherMemoryRegion :=
  testRegions ++ testSentinel ::
    [ { startAddress := 0, endAddress := 0xFFFFFFFE, elementSize := CRASH_CATCHER_BYTE },
      testSentinel ]

/-- A region array whose only region has an end address that is not a whole number of
elements after its start address: three bytes at `m_memory`, dumped as half words. -/
def raggedRegions : List CrashCatcherMemoryRegion :=
  [ { startAddress := 0x20000300, endAddress := 0x20000303, elementSize := CRASH_CATCHER_HALFWORD },
    testSentinel ]

/-- A region whose end address lies four bytes before its start address. -/
def backwardRegion : CrashCatcherMemoryRegion :=
  { startAddress := 0x20000304, endAddress := 0x20000300, elementSize := CRASH_CATCHER_WORD }

/-- The machine an invocation leaves behind, when the invocation returns. -/
def entryMachine {β : Type} (x : Except Fault (Machine β × List (List Event))) :
    Option (Machine β) :=
  match x with
  | Except.ok (m, _) => some m
  | Except.error _ => none

/-- The machine after the logged steps have been made again, one after the other: the
engine's store to `g_crashCatcherStack[0]`, and the calls of the dump routines, which
may change whatever they like.  Nothing else is done to the machine. -/
def replay {β : Type} (H : Hooks β) : List Event → Machine β → Machine β
  | [], m => m
  | Event.storeStack0 v :: rest, m => replay H rest { m with g_crashCatcherStack0 := v }
  | Event.DumpStart _ :: rest, m => replay H rest (H.DumpStart m)
  | Event.DumpMemory item :: rest, m => replay H rest (H.DumpMemory item m)
  | Event.DumpEnd _ :: rest, m => replay H rest (H.DumpEnd m).2

/-- The dump routines change nothing at all. -/
def Hooks.Inert {β : Type} (H : Hooks β) : Prop :=
  (∀ m, H.DumpStart m = m) ∧ (∀ item m, H.DumpMemory item m = m) ∧ (∀ m, (H.DumpEnd m).2 = m)

/-- Dump routines that change nothing, for a given region array; `CrashCatcher_DumpEnd`
does not ask for a retry. -/
def inertHooks (regions : Option (List CrashCatcherMemoryRegion)) : Hooks Unit :=
  { DumpStart := fun m => m
    GetMemoryRegions := fun _ => regions
    DumpMemory := fun _ m => m
    DumpEnd := fun m => (CRASH_CATCHER_EXIT, m) }

/-- The passes of an invocation with `inertHooks` on the test fixture and the region
array of `DumpMultipleRegions`. -/
def inertEntryPasses : List (List Event) :=
  (entryEvents (CrashCatcher_Entry (inertHooks (some (testRegions ++ [testSentinel])))
    targetGlobals 1 0x1000
    { mem := testMemory 0xFFFFFFF1 0, g_crashCatcherStack0 := 0, backend := () })).getD []

/-! # Theorems -/

/-! ## Bits of machine words -/

theorem and_two_pow_ne_zero (x i : Nat) : x &&& 2 ^ i ≠ 0 ↔ x.testBit i = true := by
  constructor
  · intro h
    by_contra hb
    apply h
    apply Nat.eq_of_testBit_eq
    intro j
    simp only [Nat.testBit_and, Nat.testBit_two_pow, Nat.zero_testBit]
    by_cases hij : i = j
    · subst hij; simp [hb]
    · simp [hij]
  · intro h h0
    have h1 := congrArg (fun y => y.testBit i) h0
    simp [h, Nat.testBit_two_pow_self] at h1

theorem and_LR_PSP_ne_zero (x : Nat) : x &&& LR_PSP ≠ 0 ↔ x.testBit 2 = true :=
  and_two_pow_ne_zero x 2

theorem and_PSR_STACK_ALIGN_ne_zero (x : Nat) : x &&& PSR_STACK_ALIGN ≠ 0 ↔ x.testBit 9 = true :=
  and_two_pow_ne_zero x 9

theorem or_four_of_bit_clear (x : Nat) (h : x.testBit 2 = false) : x ||| 4 = x + 4 := by
  have hb : x % 8 < 4 := by
    rw [Nat.testBit_to_div_mod] at h
    simp at h
    omega
  have hx : x = 2 ^ 3 * (x / 8) + x % 8 := by omega
  have h1 : x % 8 ||| 4 = x % 8 + 4 := by
    interval_cases (x % 8) <;> rfl
  have h2 : 2 ^ 3 * (x / 8) + (x % 8 + 4) = 2 ^ 3 * (x / 8) ||| (x % 8 + 4) :=
    Nat.mul_add_lt_is_or (by omega) _
  have h3 : 2 ^ 3 * (x / 8) + x % 8 = 2 ^ 3 * (x / 8) ||| x % 8 :=
    Nat.mul_add_lt_is_or (by omega) _
  calc x ||| 4 = (2 ^ 3 * (x / 8) ||| x % 8) ||| 4 := by rw [← h3, ← hx]
    _ = 2 ^ 3 * (x / 8) ||| (x % 8 ||| 4) := by rw [Nat.or_assoc]
    _ = 2 ^ 3 * (x / 8) + (x % 8 + 4) := by rw [h1, ← h2]
    _ = x + 4 := by omega

theorem or_four_of_bit_set (x : Nat) (h : x.testBit 2 = true) : x ||| 4 = x := by
  apply Nat.eq_of_testBit_eq
  intro j
  have h4 : (4 : Nat) = 2 ^ 2 := rfl
  rw [Nat.testBit_or, h4, Nat.testBit_two_pow]
  by_cases hj : 2 = j
  · subst hj; simp [h]
  · simp [hj]

theorem testBit_two_u32_add_32 (x : Nat) : (u32 (x + 8 * 4)).testBit 2 = x.testBit 2 := by
  simp only [Nat.testBit_to_div_mod, u32]
  congr 1
  apply propext
  omega

theorem u32_lt (x : Nat) : u32 x < 2 ^ 32 := Nat.mod_lt _ (by decide)

/-! ## The stack context -/

theorem getAddressOfExceptionStack_eq (mem : Nat → Nat) (p : Nat) :
    getAddressOfExceptionStack mem p =
      if (read32 mem (p + saved.exceptionLR)).testBit 2 then read32 mem (p + saved.psp)
      else read32 mem (p + saved.msp) := by
  unfold getAddressOfExceptionStack
  by_cases h : (read32 mem (p + saved.exceptionLR)).testBit 2 = true
  · rw [if_pos ((and_LR_PSP_ne_zero _).2 h), if_pos h]
  · rw [if_neg (fun hc => h ((and_LR_PSP_ne_zero _).1 hc)), if_neg h]

theorem entryObject_pSP (g : Globals) (mem : Nat → Nat) (p : Nat) :
    (entryObject g mem p).pSP = uint32AddressToPointer g (getAddressOfExceptionStack mem p) := rfl

theorem entryObject_pExceptionRegisters (g : Globals) (mem : Nat → Nat) (p : Nat) :
    (entryObject g mem p).pExceptionRegisters = p := rfl

theorem entryObject_sp (g : Globals) (mem : Nat → Nat) (p : Nat) :
    (entryObject g mem p).sp =
      u32 (getAddressOfExceptionStack mem p + 8 * 4) |||
        (if (read32 mem (uint32AddressToPointer g (getAddressOfExceptionStack mem p)
              + stacked.psr)).testBit 9 then 4 else 0) := by
  show u32 (getAddressOfExceptionStack mem p + 8 * 4) ||| _ = _
  congr 1
  by_cases h : (read32 mem (uint32AddressToPointer g (getAddressOfExceptionStack mem p)
      + stacked.psr)).testBit 9 = true
  · rw [if_pos h]
    exact if_pos ((and_PSR_STACK_ALIGN_ne_zero _).2 h)
  · rw [if_neg h]
    exact if_neg (fun hc => h ((and_PSR_STACK_ALIGN_ne_zero _).1 hc))

theorem entryObject_sp_lt (g : Globals) (mem : Nat → Nat) (p : Nat) :
    (entryObject g mem p).sp < 2 ^ 32 := by
  rw [entryObject_sp]
  apply Nat.or_lt_two_pow (u32_lt _)
  split <;> decide

/-- When does the rebuilt stack pointer equal the plain sum: exactly when the OR of bit 2
adds four, that is when bit 2 of the frame base is clear, or nothing is to be added. -/
theorem entryObject_sp_eq_sum_iff (g : Globals) (mem : Nat → Nat) (p : Nat) :
    (entryObject g mem p).sp =
        u32 (getAddressOfExceptionStack mem p + 32 +
          (if (read32 mem (uint32AddressToPointer g (getAddressOfExceptionStack mem p)
              + stacked.psr)).testBit 9 then 4 else 0))
      ↔ ((getAddressOfExceptionStack mem p).testBit 2 = false ∨
          (read32 mem (uint32AddressToPointer g (getAddressOfExceptionStack mem p)
              + stacked.psr)).testBit 9 = false) := by
  rw [entryObject_sp]
  generalize getAddressOfExceptionStack mem p = fb
  generalize (read32 mem (uint32AddressToPointer g fb + stacked.psr)).testBit 9 = pad
  have hbit : (u32 (fb + 32)).testBit 2 = fb.testBit 2 := testBit_two_u32_add_32 fb
  show u32 (fb + 32) ||| (if pad = true then 4 else 0) = _ ↔ _
  cases pad
  · simp
  · simp only [if_true, Bool.true_eq_false, or_false]
    cases hfb : fb.testBit 2
    · rw [hfb] at hbit
      rw [or_four_of_bit_clear _ hbit]
      simp only [iff_true]
      have h8 : fb % 8 < 4 := by
        rw [Nat.testBit_to_div_mod] at hfb
        simp at hfb
        omega
      simp only [u32]
      omega
    · rw [hfb] at hbit
      rw [or_four_of_bit_set _ hbit]
      simp only [Bool.true_eq_false, iff_false]
      have h8 : 4 ≤ fb % 8 := by
        rw [Nat.testBit_to_div_mod] at hfb
        simp at hfb
        omega
      simp only [u32]
      omega

/-! ## Event logs -/

@[simp] theorem items_nil : items [] = [] := rfl

@[simp] theorem items_cons_DumpMemory (item : DumpMemoryItem) (l : List Event) :
    items (Event.DumpMemory item :: l) = item :: items l := rfl

@[simp] theorem items_cons_storeStack0 (v : Nat) (l : List Event) :
    items (Event.storeStack0 v :: l) = items l := rfl

@[simp] theorem items_cons_DumpStart (v : Nat) (l : List Event) :
    items (Event.DumpStart v :: l) = items l := rfl

@[simp] theorem items_cons_DumpEnd (c : CrashCatcherReturnCodes) (l : List Event) :
    items (Event.DumpEnd c :: l) = items l := rfl

@[simp] theorem items_append (a b : List Event) : items (a ++ b) = items a ++ items b := by
  induction a with
  | nil => rfl
  | cons e a ih => cases e <;> simp [ih]

@[simp] theorem items_map_DumpMemory (l : List DumpMemoryItem) :
    items (l.map Event.DumpMemory) = l := by
  induction l with
  | nil => rfl
  | cons x l ih => simp [ih]

@[simp] theorem startCount_nil : startCount [] = 0 := rfl

@[simp] theorem startCount_cons_DumpMemory (item : DumpMemoryItem) (l : List Event) :
    startCount (Event.DumpMemory item :: l) = startCount l := rfl

@[simp] theorem startCount_cons_storeStack0 (v : Nat) (l : List Event) :
    startCount (Event.storeStack0 v :: l) = startCount l := rfl

@[simp] theorem startCount_cons_DumpStart (v : Nat) (l : List Event) :
    startCount (Event.DumpStart v :: l) = startCount l + 1 := rfl

@[simp] theorem startCount_cons_DumpEnd (c : CrashCatcherReturnCodes) (l : List Event) :
    startCount (Event.DumpEnd c :: l) = startCount l := rfl

@[simp] theorem startCount_append (a b : List Event) :
    startCount (a ++ b) = startCount a + startCount b := by
  induction a with
  | nil => simp
  | cons e a ih =>
    cases e <;> simp [ih]
    omega

@[simp] theorem startCount_map_DumpMemory (l : List DumpMemoryItem) :
    startCount (l.map Event.DumpMemory) = 0 := by
  induction l with
  | nil => rfl
  | cons x l ih => simp [ih]

@[simp] theorem endCount_nil : endCount [] = 0 := rfl

@[simp] theorem endCount_cons_DumpMemory (item : DumpMemoryItem) (l : List Event) :
    endCount (Event.DumpMemory item :: l) = endCount l := rfl

@[simp] theorem endCount_cons_storeStack0 (v : Nat) (l : List Event) :
    endCount (Event.storeStack0 v :: l) = endCount l := rfl

@[simp] theorem endCount_cons_DumpStart (v : Nat) (l : List Event) :
    endCount (Event.DumpStart v :: l) = endCount l := rfl

@[simp] theorem endCount_cons_DumpEnd (c : CrashCatcherReturnCodes) (l : List Event) :
    endCount (Event.DumpEnd c :: l) = endCount l + 1 := rfl

@[simp] theorem endCount_append (a b : List Event) :
    endCount (a ++ b) = endCount a + endCount b := by
  induction a with
  | nil => simp
  | cons e a ih =>
    cases e <;> simp [ih]
    omega

@[simp] theorem endCount_map_DumpMemory (l : List DumpMemoryItem) :
    endCount (l.map Event.DumpMemory) = 0 := by
  induction l with
  | nil => rfl
  | cons x l ih => simp [ih]

/-! ## Single calls -/

@[simp] theorem CrashCatcher_DumpMemory_calls {β : Type} (H : Hooks β) (p : Pointer)
    (s : CrashCatcherElementSizes) (c : Nat) (r : Run β) :
    (CrashCatcher_DumpMemory H p s c r).calls =
      r.calls ++ [Event.DumpMemory
        { pvMemory := p.load r.machine.mem (s.toNat * c), elementSize := s, elementCount := c }] :=
  rfl

@[simp] theorem CrashCatcher_DumpMemory_machine {β : Type} (H : Hooks β) (p : Pointer)
    (s : CrashCatcherElementSizes) (c : Nat) (r : Run β) :
    (CrashCatcher_DumpMemory H p s c r).machine =
      H.DumpMemory
        { pvMemory := p.load r.machine.mem (s.toNat * c), elementSize := s, elementCount := c }
        r.machine :=
  rfl

@[simp] theorem load_address (mem : Nat → Nat) (p n : Nat) :
    (Pointer.address p).load mem n = readBytes mem p n := rfl

@[simp] theorem load_object (mem : Nat → Nat) (bytes : List Nat) (n : Nat) :
    (Pointer.object bytes).load mem n = bytes.take n := rfl

@[simp] theorem feed_nil {β : Type} (H : Hooks β) (m : Machine β) : feed H [] m = m := rfl

@[simp] theorem feed_cons {β : Type} (H : Hooks β) (item : DumpMemoryItem)
    (l : List DumpMemoryItem) (m : Machine β) :
    feed H (item :: l) m = feed H l (H.DumpMemory item m) := rfl

theorem feed_append {β : Type} (H : Hooks β) (a b : List DumpMemoryItem) (m : Machine β) :
    feed H (a ++ b) m = feed H b (feed H a m) := by
  induction a generalizing m with
  | nil => rfl
  | cons x a ih => simp [ih]

theorem feed_mem {β : Type} (H : Hooks β) (hH : H.KeepsMemory) (l : List DumpMemoryItem)
    (m : Machine β) : (feed H l m).mem = m.mem := by
  induction l generalizing m with
  | nil => rfl
  | cons x l ih => simp [ih, hH.2.1]

theorem wordBytes_length (w : Nat) : (wordBytes w).length = 4 := rfl

theorem readBytes_length (mem : Nat → Nat) (p n : Nat) : (readBytes mem p n).length = n := by
  induction n generalizing p with
  | zero => rfl
  | succ n ih => simp [readBytes, ih]

theorem readBytes_add (mem : Nat → Nat) (p a b : Nat) :
    readBytes mem p (a + b) = readBytes mem p a ++ readBytes mem (p + a) b := by
  induction a generalizing p with
  | zero => simp [readBytes]
  | succ a ih =>
    have e : a + 1 + b = (a + b) + 1 := by omega
    rw [e]
    simp only [readBytes, List.cons_append, ih]
    congr 3
    omega

/-! ## The register dumps -/

theorem registerRun_calls {β : Type} (H : Hooks β) (object : Object) (m : Machine β) :
    (registerRun H object m).calls =
      Event.storeStack0 STACK_SENTINEL :: Event.DumpStart STACK_SENTINEL ::
        (items (registerRun H object m).calls).map Event.DumpMemory := by
  simp [registerRun, dumpRegisters, dumpSignature, dumpR0toR3, dumpR4toR11, dumpR12, dumpSP,
    dumpLR_PC_PSR, dumpExceptionPSR, CrashCatcher_DumpStart, setStackSentinel]

theorem registerRun_shapes {β : Type} (H : Hooks β) (object : Object) (m : Machine β) :
    (items (registerRun H object m).calls).map DumpMemoryItem.shape =
      [(CRASH_CATCHER_BYTE, 4), (CRASH_CATCHER_BYTE, 16), (CRASH_CATCHER_BYTE, 32),
       (CRASH_CATCHER_BYTE, 4), (CRASH_CATCHER_BYTE, 4), (CRASH_CATCHER_BYTE, 12),
       (CRASH_CATCHER_BYTE, 4)] := by
  simp [registerRun, dumpRegisters, dumpSignature, dumpR0toR3, dumpR4toR11, dumpR12, dumpSP,
    dumpLR_PC_PSR, dumpExceptionPSR, CrashCatcher_DumpStart, setStackSentinel,
    DumpMemoryItem.shape, signature]

theorem registerRun_fifth {β : Type} (H : Hooks β) (object : Object) (m : Machine β) :
    (items (registerRun H object m).calls)[4]? =
      some { pvMemory := wordBytes object.sp, elementSize := CRASH_CATCHER_BYTE,
             elementCount := 4 } := by
  simp [registerRun, dumpRegisters, dumpSignature, dumpR0toR3, dumpR4toR11, dumpR12, dumpSP,
    dumpLR_PC_PSR, dumpExceptionPSR, CrashCatcher_DumpStart, setStackSentinel,
    CrashCatcherElementSizes.toNat, wordBytes]

theorem registerRun_items {β : Type} (H : Hooks β) (hH : H.KeepsMemory) (object : Object)
    (m : Machine β) :
    items (registerRun H object m).calls = expectedRegisterItems m.mem object := by
  simp [registerRun, dumpRegisters, dumpSignature, dumpR0toR3, dumpR4toR11, dumpR12, dumpSP,
    dumpLR_PC_PSR, dumpExceptionPSR, CrashCatcher_DumpStart, setStackSentinel,
    CrashCatcherElementSizes.toNat, wordBytes, expectedRegisterItems, hH.1, hH.2.1, signature,
    stacked, saved]

theorem registerRun_machine {β : Type} (H : Hooks β) (object : Object) (m : Machine β) :
    (registerRun H object m).machine =
      feed H (items (registerRun H object m).calls)
        (H.DumpStart { m with g_crashCatcherStack0 := STACK_SENTINEL }) := by
  simp [registerRun, dumpRegisters, dumpSignature, dumpR0toR3, dumpR4toR11, dumpR12, dumpSP,
    dumpLR_PC_PSR, dumpExceptionPSR, CrashCatcher_DumpStart, setStackSentinel]

theorem registerRun_mem {β : Type} (H : Hooks β) (hH : H.KeepsMemory) (object : Object)
    (m : Machine β) : (registerRun H object m).machine.mem = m.mem := by
  rw [registerRun_machine, feed_mem H hH, hH.1]

/-! ## The region walk -/

/-- Whatever the array, a walk that comes to an end has only added
`CrashCatcher_DumpMemory` calls to the log. -/
theorem dumpMemoryRegionsFrom_calls {β : Type} (H : Hooks β) (g : Globals)
    (regions : List CrashCatcherMemoryRegion) (r r' : Run β)
    (h : dumpMemoryRegionsFrom H g regions r = Except.ok r') :
    ∃ new : List DumpMemoryItem,
      r'.calls = r.calls ++ new.map Event.DumpMemory ∧ r'.machine = feed H new r.machine := by
  induction regions generalizing r with
  | nil => simp [dumpMemoryRegionsFrom] at h
  | cons x rest ih =>
    unfold dumpMemoryRegionsFrom at h
    by_cases hx : x.startAddress = 0xFFFFFFFF
    · simp only [hx, ne_eq, not_true_eq_false, if_false, Except.ok.injEq] at h
      subst h
      exact ⟨[], by simp⟩
    · simp only [hx, ne_eq, not_false_eq_true, if_true] at h
      obtain ⟨new, hc, hm⟩ := ih _ h
      refine ⟨(items (CrashCatcher_DumpMemory H
            (Pointer.address (uint32AddressToPointer g x.startAddress)) x.elementSize
            (sub32 x.endAddress x.startAddress / x.elementSize.toNat)
            (CrashCatcher_DumpMemory H (Pointer.object x.bytes) CRASH_CATCHER_BYTE (2 * 4)
              { machine := r.machine, calls := [] })).calls) ++ new, ?_, ?_⟩
      · rw [hc]
        simp
      · rw [hm]
        simp

theorem dumpMemoryRegions_calls {β : Type} (H : Hooks β) (g : Globals)
    (table : Option (List CrashCatcherMemoryRegion)) (r r' : Run β)
    (h : dumpMemoryRegions H g table r = Except.ok r') :
    ∃ new : List DumpMemoryItem,
      r'.calls = r.calls ++ new.map Event.DumpMemory ∧ r'.machine = feed H new r.machine := by
  cases table with
  | none =>
    simp only [dumpMemoryRegions, Except.ok.injEq] at h
    subst h
    exact ⟨[], by simp⟩
  | some regions => exact dumpMemoryRegionsFrom_calls H g regions r r' h

/-- Shapes of the items of a walk over `rs ++ s :: rest`, where `s` is the first entry
with start address `0xFFFFFFFF`: no assumption on the dump routines. -/
theorem dumpMemoryRegionsFrom_shapes {β : Type} (H : Hooks β) (g : Globals)
    (rs : List CrashCatcherMemoryRegion) (s : CrashCatcherMemoryRegion)
    (rest : List CrashCatcherMemoryRegion) (r : Run β)
    (hrs : ∀ x ∈ rs, x.startAddress ≠ 0xFFFFFFFF) (hs : s.startAddress = 0xFFFFFFFF) :
    ∃ (r' : Run β) (new : List DumpMemoryItem),
      dumpMemoryRegionsFrom H g (rs ++ s :: rest) r = Except.ok r' ∧
      r'.calls = r.calls ++ new.map Event.DumpMemory ∧
      r'.machine = feed H new r.machine ∧
      new.map DumpMemoryItem.shape =
        (rs.map fun x =>
          [(CRASH_CATCHER_BYTE, 8),
           (x.elementSize, sub32 x.endAddress x.startAddress / x.elementSize.toNat)]).flatten := by
  induction rs generalizing r with
  | nil =>
    refine ⟨r, [], ?_, by simp, rfl, rfl⟩
    simp [dumpMemoryRegionsFrom, hs]
  | cons x rs ih =>
    have hx : x.startAddress ≠ 0xFFFFFFFF := hrs x (List.mem_cons_self _ _)
    obtain ⟨r', new, hok, hc, hm, hshape⟩ :=
      ih (CrashCatcher_DumpMemory H
            (Pointer.address (uint32AddressToPointer g x.startAddress)) x.elementSize
            (sub32 x.endAddress x.startAddress / x.elementSize.toNat)
            (CrashCatcher_DumpMemory H (Pointer.object x.bytes) CRASH_CATCHER_BYTE (2 * 4) r))
        (fun y hy => hrs y (List.mem_cons_of_mem _ hy))
    refine ⟨r', (items (CrashCatcher_DumpMemory H
            (Pointer.address (uint32AddressToPointer g x.startAddress)) x.elementSize
            (sub32 x.endAddress x.startAddress / x.elementSize.toNat)
            (CrashCatcher_DumpMemory H (Pointer.object x.bytes) CRASH_CATCHER_BYTE (2 * 4)
              { machine := r.machine, calls := [] })).calls) ++ new, ?_, ?_, ?_, ?_⟩
    · rw [List.cons_append, dumpMemoryRegionsFrom, if_pos hx]
      exact hok
    · rw [hc]
      simp
    · rw [hm]
      simp
    · simp [hshape, DumpMemoryItem.shape]

theorem descriptor_bytes (x : CrashCatcherMemoryRegion) :
    x.bytes.take (CRASH_CATCHER_BYTE.toNat * (2 * 4)) =
      wordBytes x.startAddress ++ wordBytes x.endAddress := by
  simp [CrashCatcherMemoryRegion.bytes, wordBytes, CrashCatcherElementSizes.toNat]

theorem descriptor_bytes_eight (x : CrashCatcherMemoryRegion) :
    x.bytes.take (CRASH_CATCHER_BYTE.toNat * 8) =
      wordBytes x.startAddress ++ wordBytes x.endAddress :=
  descriptor_bytes x

/-- Items of a walk over `rs ++ s :: rest`, where `s` is the first entry with start
address `0xFFFFFFFF`, when the dump routines leave data memory alone. -/
theorem dumpMemoryRegionsFrom_items {β : Type} (H : Hooks β) (hH : H.KeepsMemory) (g : Globals)
    (rs : List CrashCatcherMemoryRegion) (s : CrashCatcherMemoryRegion)
    (rest : List CrashCatcherMemoryRegion) (r : Run β)
    (hrs : ∀ x ∈ rs, x.startAddress ≠ 0xFFFFFFFF) (hs : s.startAddress = 0xFFFFFFFF) :
    ∃ r' : Run β,
      dumpMemoryRegionsFrom H g (rs ++ s :: rest) r = Except.ok r' ∧
      r'.calls = r.calls ++
        ((rs.map (expectedRegionItems g r.machine.mem)).flatten).map Event.DumpMemory ∧
      r'.machine = feed H ((rs.map (expectedRegionItems g r.machine.mem)).flatten) r.machine := by
  induction rs generalizing r with
  | nil =>
    refine ⟨r, ?_, by simp, rfl⟩
    simp [dumpMemoryRegionsFrom, hs]
  | cons x rs ih =>
    have hx : x.startAddress ≠ 0xFFFFFFFF := hrs x (List.mem_cons_self _ _)
    obtain ⟨r', hok, hc, hm⟩ :=
      ih (CrashCatcher_DumpMemory H
            (Pointer.address (uint32AddressToPointer g x.startAddress)) x.elementSize
            (sub32 x.endAddress x.startAddress / x.elementSize.toNat)
            (CrashCatcher_DumpMemory H (Pointer.object x.bytes) CRASH_CATCHER_BYTE (2 * 4) r))
        (fun y hy => hrs y (List.mem_cons_of_mem _ hy))
    refine ⟨r', ?_, ?_, ?_⟩
    · rw [List.cons_append, dumpMemoryRegionsFrom, if_pos hx]
      exact hok
    · rw [hc]
      simp only [CrashCatcher_DumpMemory_calls, CrashCatcher_DumpMemory_machine, hH.2.1,
        List.append_assoc, List.map_cons, List.flatten_cons, expectedRegionItems, load_object,
        load_address, descriptor_bytes, List.cons_append, List.nil_append,
        List.singleton_append, List.map_append]
    · rw [hm]
      simp only [CrashCatcher_DumpMemory_calls, CrashCatcher_DumpMemory_machine, hH.2.1,
        List.map_cons, List.flatten_cons, expectedRegionItems, load_object,
        load_address, descriptor_bytes, List.cons_append, List.nil_append, feed_cons]

/-! ## One pass -/

theorem checkStackSentinelForStackOverflow_calls {β : Type} (H : Hooks β) (r : Run β) :
    (checkStackSentinelForStackOverflow H r).calls =
      r.calls ++ (if r.machine.g_crashCatcherStack0 ≠ STACK_SENTINEL
        then [Event.DumpMemory overflowItem] else []) := by
  unfold checkStackSentinelForStackOverflow
  split
  · simp [overflowItem, overflowValue, CrashCatcherElementSizes.toNat]
  · simp

theorem checkStackSentinelForStackOverflow_machine {β : Type} (H : Hooks β) (r : Run β) :
    (checkStackSentinelForStackOverflow H r).machine =
      (if r.machine.g_crashCatcherStack0 ≠ STACK_SENTINEL
        then H.DumpMemory overflowItem r.machine else r.machine) := by
  unfold checkStackSentinelForStackOverflow
  split
  · simp [overflowItem, overflowValue, CrashCatcherElementSizes.toNat]
  · rfl

/-- A pass that comes to an end went through `dumpBeforeCheck`, the sentinel check and
`CrashCatcher_DumpEnd`. -/
theorem dumpPass_ok {β : Type} (H : Hooks β) (g : Globals) (object : Object) (m : Machine β)
    (code : CrashCatcherReturnCodes) (r' : Run β)
    (h : dumpPass H g object m = Except.ok (code, r')) :
    ∃ r : Run β, dumpBeforeCheck H g object m = Except.ok r ∧
      code = (H.DumpEnd (checkStackSentinelForStackOverflow H r).machine).1 ∧
      r'.machine = (H.DumpEnd (checkStackSentinelForStackOverflow H r).machine).2 ∧
      r'.calls = (checkStackSentinelForStackOverflow H r).calls ++ [Event.DumpEnd code] := by
  unfold dumpPass at h
  split at h
  · simp at h
  · rename_i r hr
    simp only [CrashCatcher_DumpEnd, Except.ok.injEq, Prod.mk.injEq] at h
    obtain ⟨hc, hr'⟩ := h
    subst hr'
    exact ⟨r, hr, hc.symm, rfl, by rw [hc]⟩

theorem passEvents_eq_some {β : Type} (x : Except Fault (CrashCatcherReturnCodes × Run β))
    (evs : List Event) (h : passEvents x = some evs) :
    ∃ code r', x = Except.ok (code, r') ∧ r'.calls = evs := by
  unfold passEvents at h
  split at h
  · rename_i code r'
    exact ⟨code, r', rfl, by simpa using h⟩
  · simp at h

/-- The part of a pass before the sentinel check: the register dumps, then the walk over
the caller's regions, then the fault status registers unless the part is a Cortex-M0. -/
theorem dumpBeforeCheck_ok {β : Type} (H : Hooks β) (g : Globals) (object : Object)
    (m : Machine β) (r : Run β) (h : dumpBeforeCheck H g object m = Except.ok r) :
    ∃ r1 : Run β,
      dumpMemoryRegions H g (H.GetMemoryRegions (registerRun H object m).machine)
        (registerRun H object m) = Except.ok r1 ∧
      (if isCortexM0Device g r1.machine.mem = true then Except.ok r1
        else dumpFaultStatusRegisters H g r1) = Except.ok r := by
  unfold dumpBeforeCheck at h
  simp only at h
  split at h
  · simp at h
  · rename_i r1 hr1
    refine ⟨r1, hr1, ?_⟩
    by_cases hc : isCortexM0Device g r1.machine.mem = true
    · simpa [hc] using h
    · simpa [hc] using h

/-- The log of a pass that comes to an end: the store of the sentinel, the start call,
the seven register items, further items, and the end call. -/
theorem pass_structure {β : Type} (H : Hooks β) (g : Globals) (object : Object)
    (m : Machine β) (evs : List Event)
    (hpass : passEvents (dumpPass H g object m) = some evs) :
    ∃ (r1 : Run β) (regionItems later : List DumpMemoryItem) (code : CrashCatcherReturnCodes),
      dumpMemoryRegions H g (H.GetMemoryRegions (registerRun H object m).machine)
        (registerRun H object m) = Except.ok r1 ∧
      r1.calls = (registerRun H object m).calls ++ regionItems.map Event.DumpMemory ∧
      evs = (registerRun H object m).calls ++ regionItems.map Event.DumpMemory ++
        later.map Event.DumpMemory ++ [Event.DumpEnd code] := by
  obtain ⟨code, r', hok, hcalls⟩ := passEvents_eq_some _ _ hpass
  obtain ⟨r, hr, -, -, hr'⟩ := dumpPass_ok H g object m code r' hok
  obtain ⟨r1, hr1, hfs⟩ := dumpBeforeCheck_ok H g object m r hr
  obtain ⟨regionItems, hc1, -⟩ := dumpMemoryRegions_calls H g _ _ r1 hr1
  have hlater : ∃ fs : List DumpMemoryItem, r.calls = r1.calls ++ fs.map Event.DumpMemory := by
    by_cases hc : isCortexM0Device g r1.machine.mem = true
    · rw [if_pos hc] at hfs
      simp only [Except.ok.injEq] at hfs
      subst hfs
      exact ⟨[], by simp⟩
    · rw [if_neg hc] at hfs
      obtain ⟨fs, hfs1, -⟩ := dumpMemoryRegions_calls H g _ _ r hfs
      exact ⟨fs, hfs1⟩
  obtain ⟨fs, hfs1⟩ := hlater
  refine ⟨r1, regionItems,
    fs ++ (if r.machine.g_crashCatcherStack0 ≠ STACK_SENTINEL then [overflowItem] else []),
    code, hr1, hc1, ?_⟩
  rw [← hcalls, hr', checkStackSentinelForStackOverflow_calls, hfs1, hc1]
  split <;> simp

theorem registerRun_items_length {β : Type} (H : Hooks β) (object : Object) (m : Machine β) :
    (items (registerRun H object m).calls).length = 7 := by
  have h := congrArg List.length (registerRun_shapes H object m)
  simpa using h

/-- The first seven items of a pass that comes to an end are those of the register dumps. -/
theorem pass_take_seven {β : Type} (H : Hooks β) (g : Globals) (object : Object)
    (m : Machine β) (evs : List Event)
    (hpass : passEvents (dumpPass H g object m) = some evs) :
    (items evs).take 7 = items (registerRun H object m).calls := by
  obtain ⟨r1, regionItems, later, code, -, -, hevs⟩ := pass_structure H g object m evs hpass
  rw [hevs]
  simp only [items_append, items_map_DumpMemory, items_cons_DumpEnd, items_nil,
    List.append_nil, List.append_assoc]
  rw [List.take_append_of_le_length (by rw [registerRun_items_length])]
  rw [List.take_of_length_le (by rw [registerRun_items_length])]

/-! ## Claims on the register part of a pass -/

theorem mockHooks_keepsMemory : mockHooks.KeepsMemory :=
  ⟨fun _ => rfl, fun _ _ => rfl, fun _ => rfl⟩

/-- C1: in a pass of `CrashCatcher_Entry` the bytes of the first seven items are, in this
order, the signature, the 16 bytes at offsets 0..15 of the hardware frame (r0-r3), the 32
bytes of the saved r4..r11, the 4 bytes at frame offset 16 (r12), the 4 bytes of the
rebuilt stack pointer, the 12 bytes at frame offsets 20..31 (lr, pc, psr) and the 4 bytes
of the saved exceptionPSR; the three frame pieces make up the 32 bytes of the frame, each
byte once.  The dump routines are taken not to write to data memory. -/
theorem C1_register_bytes_in_order {β : Type} (H : Hooks β) (hH : H.KeepsMemory) (g : Globals)
    (p : Nat) (m : Machine β) (evs : List Event)
    (hpass : passEvents (dumpPass H g (entryObject g m.mem p) m) = some evs) :
    ((items evs).take 7).map DumpMemoryItem.pvMemory =
      [ [CRASH_CATCHER_SIGNATURE_BYTE0, CRASH_CATCHER_SIGNATURE_BYTE1,
          CRASH_CATCHER_VERSION_MAJOR, CRASH_CATCHER_VERSION_MINOR],
        readBytes m.mem
          (uint32AddressToPointer g (getAddressOfExceptionStack m.mem p) + stacked.r0) 16,
        readBytes m.mem (p + saved.r4) 32,
        readBytes m.mem
          (uint32AddressToPointer g (getAddressOfExceptionStack m.mem p) + stacked.r12) 4,
        wordBytes (entryObject g m.mem p).sp,
        readBytes m.mem
          (uint32AddressToPointer g (getAddressOfExceptionStack m.mem p) + stacked.lr) 12,
        readBytes m.mem (p + saved.exceptionPSR) 4 ] ∧
    readBytes m.mem (uint32AddressToPointer g (getAddressOfExceptionStack m.mem p) + stacked.r0) 16
        ++ readBytes m.mem
          (uint32AddressToPointer g (getAddressOfExceptionStack m.mem p) + stacked.r12) 4
        ++ readBytes m.mem
          (uint32AddressToPointer g (getAddressOfExceptionStack m.mem p) + stacked.lr) 12 =
      readBytes m.mem (uint32AddressToPointer g (getAddressOfExceptionStack m.mem p)) 32 := by
  constructor
  · rw [pass_take_seven H g _ m evs hpass, registerRun_items H hH]
    simp [expectedRegisterItems, signature, entryObject_pSP, entryObject_pExceptionRegisters,
      stacked, saved]
  · generalize uint32AddressToPointer g (getAddressOfExceptionStack m.mem p) = f
    have h1 : (32 : Nat) = 16 + (4 + 12) := rfl
    rw [h1, readBytes_add, readBytes_add]
    simp [stacked, Nat.add_assoc]

/-- Witness of C1: the register fixture of the unit tests, MSP entry, through the mocks. -/
theorem C1_register_bytes_in_order_witness :
    mockHooks.KeepsMemory ∧
    passEvents (dumpPass mockHooks targetGlobals
        (entryObject targetGlobals (mockMachine (testMemory 0xFFFFFFF1 0) none).mem 0x1000)
        (mockMachine (testMemory 0xFFFFFFF1 0) none)) =
      some (mockPassEvents (testMemory 0xFFFFFFF1 0) none) ∧
    ((items (mockPassEvents (testMemory 0xFFFFFFF1 0) none)).take 7).map
        DumpMemoryItem.pvMemory =
      [ [0x63, 0x43, 0x01, 0x00],
        [0xFF, 0xFF, 0x00, 0x00, 0xFF, 0xFF, 0x11, 0x11, 0xFF, 0xFF, 0x22, 0x22,
         0xFF, 0xFF, 0x33, 0x33],
        [0x44, 0x44, 0x44, 0x44, 0x55, 0x55, 0x55, 0x55, 0x66, 0x66, 0x66, 0x66,
         0x77, 0x77, 0x77, 0x77, 0x88, 0x88, 0x88, 0x88, 0x99, 0x99, 0x99, 0x99,
         0xAA, 0xAA, 0xAA, 0xAA, 0xBB, 0xBB, 0xBB, 0xBB],
        [0xFF, 0xFF, 0x44, 0x44],
        [0x20, 0x02, 0x00, 0x20],
        [0xFF, 0xFF, 0x55, 0x55, 0xFF, 0xFF, 0x66, 0x66, 0x00, 0x00, 0x00, 0x00],
        [0x00, 0x00, 0x00, 0x00] ] :=
  ⟨mockHooks_keepsMemory, by decide,
    (C1_register_bytes_in_order mockHooks mockHooks_keepsMemory targetGlobals 0x1000
      (mockMachine (testMemory 0xFFFFFFF1 0) none) (mockPassEvents (testMemory 0xFFFFFFF1 0) none)
      (by decide)).1.trans (by decide)⟩

/-- C2: every pass that comes to an end starts with the store of the sentinel and the
start call, followed by exactly seven `CrashCatcher_DumpMemory` calls of element size BYTE
and counts 4, 16, 32, 4, 4, 12, 4 (76 bytes); the walk over the caller's regions is run
on the log holding exactly these seven items, and its items come right after them.
Nothing is assumed about the dump routines, the region array, the CPU ID or the stack
pointer in use. -/
theorem C2_seven_register_elements_first {β : Type} (H : Hooks β) (g : Globals) (p : Nat)
    (m : Machine β) (evs : List Event)
    (hpass : passEvents (dumpPass H g (entryObject g m.mem p) m) = some evs) :
    ((items evs).take 7).map DumpMemoryItem.shape =
      [(CRASH_CATCHER_BYTE, 4), (CRASH_CATCHER_BYTE, 16), (CRASH_CATCHER_BYTE, 32),
       (CRASH_CATCHER_BYTE, 4), (CRASH_CATCHER_BYTE, 4), (CRASH_CATCHER_BYTE, 12),
       (CRASH_CATCHER_BYTE, 4)] ∧
    (((items evs).take 7).map fun item => item.elementSize.toNat * item.elementCount).sum = 76 ∧
    ∃ (r1 : Run β) (regionItems later : List DumpMemoryItem) (code : CrashCatcherReturnCodes),
      dumpMemoryRegions H g
          (H.GetMemoryRegions (registerRun H (entryObject g m.mem p) m).machine)
          (registerRun H (entryObject g m.mem p) m) = Except.ok r1 ∧
      (registerRun H (entryObject g m.mem p) m).calls =
        Event.storeStack0 STACK_SENTINEL :: Event.DumpStart STACK_SENTINEL ::
          ((items evs).take 7).map Event.DumpMemory ∧
      r1.calls = (registerRun H (entryObject g m.mem p) m).calls ++
        regionItems.map Event.DumpMemory ∧
      evs = Event.storeStack0 STACK_SENTINEL :: Event.DumpStart STACK_SENTINEL ::
        (((items evs).take 7).map Event.DumpMemory ++ regionItems.map Event.DumpMemory ++
          later.map Event.DumpMemory ++ [Event.DumpEnd code]) := by
  have h7 := pass_take_seven H g _ m evs hpass
  have hshape := registerRun_shapes H (entryObject g m.mem p) m
  refine ⟨by rw [h7, hshape], ?_, ?_⟩
  · have hs := congrArg (fun l : List (CrashCatcherElementSizes × Nat) =>
        (l.map fun x => x.1.toNat * x.2).sum) hshape
    rw [h7]
    simpa [DumpMemoryItem.shape, CrashCatcherElementSizes.toNat, Function.comp_def] using hs
  · obtain ⟨r1, regionItems, later, code, hr1, hc1, hevs⟩ := pass_structure H g _ m evs hpass
    refine ⟨r1, regionItems, later, code, hr1, ?_, hc1, ?_⟩
    · rw [h7]
      exact registerRun_calls H _ m
    · rw [h7, ← List.cons_append, ← List.cons_append, ← List.cons_append, ← List.cons_append,
        ← List.cons_append, ← List.cons_append, ← registerRun_calls]
      exact hevs

/-- Witness of C2: the test `DumpOneWordRegion`, one word region at `0x20000300`. -/
theorem C2_seven_register_elements_first_witness :
    passEvents (dumpPass mockHooks targetGlobals
        (entryObject targetGlobals
          (mockMachine (testMemory 0xFFFFFFF1 0)
            (some [⟨0x20000300, 0x20000304, CRASH_CATCHER_WORD⟩,
                   ⟨0xFFFFFFFF, 0xFFFFFFFF, CRASH_CATCHER_BYTE⟩])).mem 0x1000)
        (mockMachine (testMemory 0xFFFFFFF1 0)
          (some [⟨0x20000300, 0x20000304, CRASH_CATCHER_WORD⟩,
                 ⟨0xFFFFFFFF, 0xFFFFFFFF, CRASH_CATCHER_BYTE⟩]))) =
      some (mockPassEvents (testMemory 0xFFFFFFF1 0)
        (some [⟨0x20000300, 0x20000304, CRASH_CATCHER_WORD⟩,
               ⟨0xFFFFFFFF, 0xFFFFFFFF, CRASH_CATCHER_BYTE⟩])) ∧
    ((items (mockPassEvents (testMemory 0xFFFFFFF1 0)
        (some [⟨0x20000300, 0x20000304, CRASH_CATCHER_WORD⟩,
               ⟨0xFFFFFFFF, 0xFFFFFFFF, CRASH_CATCHER_BYTE⟩]))).take 7).map
        DumpMemoryItem.shape =
      [(CRASH_CATCHER_BYTE, 4), (CRASH_CATCHER_BYTE, 16), (CRASH_CATCHER_BYTE, 32),
       (CRASH_CATCHER_BYTE, 4), (CRASH_CATCHER_BYTE, 4), (CRASH_CATCHER_BYTE, 12),
       (CRASH_CATCHER_BYTE, 4)] :=
  ⟨by decide,
    (C2_seven_register_elements_first mockHooks targetGlobals 0x1000
      (mockMachine (testMemory 0xFFFFFFF1 0)
        (some [⟨0x20000300, 0x20000304, CRASH_CATCHER_WORD⟩,
               ⟨0xFFFFFFFF, 0xFFFFFFFF, CRASH_CATCHER_BYTE⟩])) _ (by decide)).1⟩

/-- Counterexample to C3 as stated: MSP frame at `0x20000204` (bit 2 set) with the
alignment bit set in the stacked psr.  The fifth item holds `0x20000224`, the OR of
`0x20000224` with 4, and not the sum `0x20000204 + 32 + 4 = 0x20000228`. -/
theorem C3_counterexample :
    passEvents (dumpPass mockHooks targetGlobals
        (entryObject targetGlobals oddFrameMemory 0x1000) (mockMachine oddFrameMemory none)) =
      some (mockPassEvents oddFrameMemory none) ∧
    getAddressOfExceptionStack oddFrameMemory 0x1000 = 0x20000204 ∧
    (read32 oddFrameMemory (uint32AddressToPointer targetGlobals 0x20000204 + stacked.psr)).testBit 9
      = true ∧
    (items (mockPassEvents oddFrameMemory none))[4]? =
      some { pvMemory := wordBytes 0x20000224, elementSize := CRASH_CATCHER_BYTE,
             elementCount := 4 } ∧
    (items (mockPassEvents oddFrameMemory none))[4]? ≠
      some { pvMemory := wordBytes (u32 (0x20000204 + 32 + 4)), elementSize := CRASH_CATCHER_BYTE,
             elementCount := 4 } := by
  decide

/-- C3, amended: the fifth item of a pass is the rebuilt stack pointer, a 32-bit value
stored in four bytes, and this value equals frame_base + 32 + (4 if bit 9 of the stacked
psr is set, else 0) in 32-bit arithmetic exactly when bit 2 of the frame base is clear or
bit 9 of the stacked psr is clear; frame_base is the selected stack pointer, PSP or MSP. -/
theorem C3_reconstructed_stack_pointer {β : Type} (H : Hooks β) (g : Globals) (p : Nat)
    (m : Machine β) (evs : List Event)
    (hpass : passEvents (dumpPass H g (entryObject g m.mem p) m) = some evs) :
    (items evs)[4]? =
      some { pvMemory := wordBytes (entryObject g m.mem p).sp, elementSize := CRASH_CATCHER_BYTE,
             elementCount := 4 } ∧
    (entryObject g m.mem p).sp < 2 ^ 32 ∧
    ((entryObject g m.mem p).sp =
        u32 (getAddressOfExceptionStack m.mem p + 32 +
          (if (read32 m.mem (uint32AddressToPointer g (getAddressOfExceptionStack m.mem p)
              + stacked.psr)).testBit 9 then 4 else 0))
      ↔ ((getAddressOfExceptionStack m.mem p).testBit 2 = false ∨
          (read32 m.mem (uint32AddressToPointer g (getAddressOfExceptionStack m.mem p)
              + stacked.psr)).testBit 9 = false)) := by
  refine ⟨?_, entryObject_sp_lt g m.mem p, entryObject_sp_eq_sum_iff g m.mem p⟩
  have h5 := registerRun_fifth H (entryObject g m.mem p) m
  rw [← pass_take_seven H g _ m evs hpass, List.getElem?_take] at h5
  simpa using h5

/-- Witness of C3: the test `DumpRegistersOnly_MSP_StackAlignmentNeeded`, MSP frame at
`0x20000200` with stacked psr `0x200`; the fifth item holds `0x20000224`. -/
theorem C3_reconstructed_stack_pointer_witness :
    passEvents (dumpPass mockHooks targetGlobals
        (entryObject targetGlobals (mockMachine (testMemory 0xFFFFFFF1 0x200) none).mem 0x1000)
        (mockMachine (testMemory 0xFFFFFFF1 0x200) none)) =
      some (mockPassEvents (testMemory 0xFFFFFFF1 0x200) none) ∧
    (items (mockPassEvents (testMemory 0xFFFFFFF1 0x200) none))[4]? =
      some { pvMemory := wordBytes (0x20000200 + 32 + 4), elementSize := CRASH_CATCHER_BYTE,
             elementCount := 4 } :=
  ⟨by decide,
    (C3_reconstructed_stack_pointer mockHooks targetGlobals 0x1000
      (mockMachine (testMemory 0xFFFFFFF1 0x200) none) _ (by decide)).1.trans (by decide)⟩

/-- C4: the hardware frame `CrashCatcher_Entry` reads lies at psp when bit 2 (`LR_PSP`) of
exceptionLR is set and at msp otherwise; memories that agree on this bit, on psp and on
msp give the same frame address, whatever else they hold; exceptionLR `0xFFFFFFF1`
selects msp and `0xFFFFFFFD` selects psp. -/
theorem C4_frame_address_selected_by_LR_PSP (g : Globals) (mem : Nat → Nat) (p : Nat) :
    (entryObject g mem p).pSP =
      uint32AddressToPointer g
        (if (read32 mem (p + saved.exceptionLR)).testBit 2 then read32 mem (p + saved.psp)
         else read32 mem (p + saved.msp)) ∧
    (∀ mem' : Nat → Nat,
      (read32 mem' (p + saved.exceptionLR)).testBit 2 =
        (read32 mem (p + saved.exceptionLR)).testBit 2 →
      read32 mem' (p + saved.psp) = read32 mem (p + saved.psp) →
      read32 mem' (p + saved.msp) = read32 mem (p + saved.msp) →
      (entryObject g mem' p).pSP = (entryObject g mem p).pSP) ∧
    (read32 mem (p + saved.exceptionLR) = 0xFFFFFFF1 →
      (entryObject g mem p).pSP = uint32AddressToPointer g (read32 mem (p + saved.msp))) ∧
    (read32 mem (p + saved.exceptionLR) = 0xFFFFFFFD →
      (entryObject g mem p).pSP = uint32AddressToPointer g (read32 mem (p + saved.psp))) := by
  refine ⟨?_, ?_, ?_, ?_⟩
  · rw [entryObject_pSP, getAddressOfExceptionStack_eq]
  · intro mem' hb hp hm
    rw [entryObject_pSP, entryObject_pSP, getAddressOfExceptionStack_eq,
      getAddressOfExceptionStack_eq, hb, hp, hm]
  · intro h
    rw [entryObject_pSP, getAddressOfExceptionStack_eq, h]
    rfl
  · intro h
    rw [entryObject_pSP, getAddressOfExceptionStack_eq, h]
    rfl

/-- Witness of C4: the two entries the unit tests emulate, and two memories that differ
in other bits of exceptionLR and in the stacked psr. -/
theorem C4_frame_address_selected_by_LR_PSP_witness :
    (read32 (testMemory 0xFFFFFFF1 0) (0x1000 + saved.exceptionLR) = 0xFFFFFFF1 ∧
      (entryObject targetGlobals (testMemory 0xFFFFFFF1 0) 0x1000).pSP =
        uint32AddressToPointer targetGlobals
          (read32 (testMemory 0xFFFFFFF1 0) (0x1000 + saved.msp))) ∧
    (read32 (testMemory 0xFFFFFFFD 0) (0x1000 + saved.exceptionLR) = 0xFFFFFFFD ∧
      (entryObject targetGlobals (testMemory 0xFFFFFFFD 0) 0x1000).pSP =
        uint32AddressToPointer targetGlobals
          (read32 (testMemory 0xFFFFFFFD 0) (0x1000 + saved.psp))) ∧
    (entryObject targetGlobals (testMemory 0xFFFFFFE9 0x200) 0x1000).pSP =
      (entryObject targetGlobals (testMemory 0xFFFFFFF1 0) 0x1000).pSP :=
  ⟨⟨by decide,
      (C4_frame_address_selected_by_LR_PSP targetGlobals (testMemory 0xFFFFFFF1 0) 0x1000).2.2.1
        (by decide)⟩,
    ⟨by decide,
      (C4_frame_address_selected_by_LR_PSP targetGlobals (testMemory 0xFFFFFFFD 0) 0x1000).2.2.2
        (by decide)⟩,
    (C4_frame_address_selected_by_LR_PSP targetGlobals (testMemory 0xFFFFFFF1 0) 0x1000).2.1
      (testMemory 0xFFFFFFE9 0x200) (by decide) (by decide) (by decide)⟩

/-! ## Claims on the region walk -/

theorem sub32_of_le (a b : Nat) (hab : a ≤ b) (hb : b < 2 ^ 32) : sub32 b a = b - a := by
  unfold sub32
  omega

/-- A region that keeps the invariant `start ≤ end` of the data model and is not the
`{0xFFFFFFFF, 0xFFFFFFFF}` sentinel has a start address other than `0xFFFFFFFF`. -/
theorem startAddress_ne_of_valid (x : CrashCatcherMemoryRegion)
    (hle : x.startAddress ≤ x.endAddress) (hend : x.endAddress < 2 ^ 32)
    (hns : ¬ (x.startAddress = 0xFFFFFFFF ∧ x.endAddress = 0xFFFFFFFF)) :
    x.startAddress ≠ 0xFFFFFFFF := by
  intro h
  apply hns
  constructor
  · exact h
  · omega

theorem getElem?_flatten_pairs {α γ : Type} (a b : α → γ) (l : List α) (i : Nat)
    (hi : i < l.length) :
    ((l.map fun x => [a x, b x]).flatten)[2 * i]? = some (a (l.get ⟨i, hi⟩)) ∧
    ((l.map fun x => [a x, b x]).flatten)[2 * i + 1]? = some (b (l.get ⟨i, hi⟩)) := by
  induction l generalizing i with
  | nil => simp at hi
  | cons x l ih =>
    cases i with
    | zero => simp
    | succ i =>
      have hi2 : i < l.length := by simpa using hi
      have e1 : 2 * (i + 1) = 2 * i + 1 + 1 := by omega
      rw [e1]
      simpa using ih i hi2

theorem length_flatten_pairs {α γ : Type} (a b : α → γ) (l : List α) :
    ((l.map fun x => [a x, b x]).flatten).length = 2 * l.length := by
  induction l with
  | nil => rfl
  | cons x l ih =>
    simp only [List.map_cons, List.flatten_cons, List.length_append, ih, List.length_cons,
      List.length_nil]
    omega

/-- C5: for a region array made of `N` entries whose start address is not `0xFFFFFFFF`
followed by the sentinel, `dumpMemoryRegions` comes to an end and makes exactly `2 * N`
`CrashCatcher_DumpMemory` calls; the second call of the `i`-th pair has the element size
of the `i`-th region and the count `(end - start) / elementSize` (in 32-bit arithmetic,
which is the plain quotient when `start ≤ end`).  Nothing is assumed about the dump
routines or about what follows the sentinel. -/
theorem C5_two_elements_per_region {β : Type} (H : Hooks β) (g : Globals)
    (rs : List CrashCatcherMemoryRegion) (s : CrashCatcherMemoryRegion)
    (rest : List CrashCatcherMemoryRegion) (r : Run β)
    (hrs : ∀ x ∈ rs, x.startAddress ≠ 0xFFFFFFFF) (hs : s.startAddress = 0xFFFFFFFF) :
    ∃ (r' : Run β) (new : List DumpMemoryItem),
      dumpMemoryRegions H g (some (rs ++ s :: rest)) r = Except.ok r' ∧
      r'.calls = r.calls ++ new.map Event.DumpMemory ∧
      new.length = 2 * rs.length ∧
      ∀ (i : Nat) (hi : i < rs.length), ∃ item : DumpMemoryItem,
        new[2 * i + 1]? = some item ∧
        item.elementSize = (rs.get ⟨i, hi⟩).elementSize ∧
        item.elementCount =
          sub32 (rs.get ⟨i, hi⟩).endAddress (rs.get ⟨i, hi⟩).startAddress /
            (rs.get ⟨i, hi⟩).elementSize.toNat ∧
        ((rs.get ⟨i, hi⟩).startAddress ≤ (rs.get ⟨i, hi⟩).endAddress →
          (rs.get ⟨i, hi⟩).endAddress < 2 ^ 32 →
          item.elementCount =
            ((rs.get ⟨i, hi⟩).endAddress - (rs.get ⟨i, hi⟩).startAddress) /
              (rs.get ⟨i, hi⟩).elementSize.toNat) := by
  obtain ⟨r', new, hok, hc, -, hshape⟩ := dumpMemoryRegionsFrom_shapes H g rs s rest r hrs hs
  refine ⟨r', new, hok, hc, ?_, ?_⟩
  · have h := congrArg List.length hshape
    rw [List.length_map, length_flatten_pairs] at h
    exact h
  · intro i hi
    have h := (getElem?_flatten_pairs
      (fun _ : CrashCatcherMemoryRegion => (CRASH_CATCHER_BYTE, 8))
      (fun x : CrashCatcherMemoryRegion =>
        (x.elementSize, sub32 x.endAddress x.startAddress / x.elementSize.toNat)) rs i hi).2
    rw [← hshape, List.getElem?_map] at h
    cases hitem : new[2 * i + 1]? with
    | none => rw [hitem] at h; simp at h
    | some item =>
      rw [hitem] at h
      simp only [Option.map_some', Option.some.injEq, DumpMemoryItem.shape, Prod.mk.injEq] at h
      refine ⟨item, rfl, h.1, h.2, ?_⟩
      intro hle hend
      rw [h.2, sub32_of_le _ _ hle hend]

/-- Witness of C5: the three regions of the test `DumpMultipleRegions` and the sentinel. -/
theorem C5_two_elements_per_region_witness :
    (∀ x ∈ testRegions, x.startAddress ≠ 0xFFFFFFFF) ∧
    testSentinel.startAddress = 0xFFFFFFFF ∧
    ∃ (r' : Run DumpMocks) (new : List DumpMemoryItem),
      dumpMemoryRegions mockHooks targetGlobals (some (testRegions ++ testSentinel :: []))
        (mockRun (testMemory 0xFFFFFFF1 0)) = Except.ok r' ∧
      r'.calls = (mockRun (testMemory 0xFFFFFFF1 0)).calls ++ new.map Event.DumpMemory ∧
      new.length = 2 * testRegions.length :=
  ⟨by decide, by decide,
    match C5_two_elements_per_region mockHooks targetGlobals testRegions testSentinel []
      (mockRun (testMemory 0xFFFFFFF1 0)) (by decide) (by decide) with
    | ⟨r', new, hok, hc, hlen, _⟩ => ⟨r', new, hok, hc, hlen⟩⟩

/-- C6: for every region whose start address is not `0xFFFFFFFF`, walked before the
sentinel, the first call of its pair hands over exactly 8 bytes with element size BYTE:
the start address followed by the end address, each as the four bytes of the 32-bit
value, and nothing of the element size; the second call hands over the bytes read from
the region's start address.  The dump routines are taken not to write to data memory. -/
theorem C6_descriptor_and_payload {β : Type} (H : Hooks β) (hH : H.KeepsMemory) (g : Globals)
    (rs : List CrashCatcherMemoryRegion) (s : CrashCatcherMemoryRegion)
    (rest : List CrashCatcherMemoryRegion) (r : Run β)
    (hrs : ∀ x ∈ rs, x.startAddress ≠ 0xFFFFFFFF) (hs : s.startAddress = 0xFFFFFFFF) :
    ∃ r' : Run β,
      dumpMemoryRegions H g (some (rs ++ s :: rest)) r = Except.ok r' ∧
      r'.calls = r.calls ++ ((rs.map fun x =>
        [ Event.DumpMemory
            { pvMemory := wordBytes x.startAddress ++ wordBytes x.endAddress
              elementSize := CRASH_CATCHER_BYTE
              elementCount := 8 },
          Event.DumpMemory
            { pvMemory := readBytes r.machine.mem (uint32AddressToPointer g x.startAddress)
                (x.elementSize.toNat *
                  (sub32 x.endAddress x.startAddress / x.elementSize.toNat))
              elementSize := x.elementSize
              elementCount := sub32 x.endAddress x.startAddress / x.elementSize.toNat } ]).flatten) ∧
      (∀ x ∈ rs, (wordBytes x.startAddress ++ wordBytes x.endAddress).length = 8) := by
  obtain ⟨r', hok, hc, -⟩ := dumpMemoryRegionsFrom_items H hH g rs s rest r hrs hs
  refine ⟨r', hok, ?_, fun _ _ => rfl⟩
  rw [hc]
  congr 1
  clear hc hok hrs
  induction rs with
  | nil => rfl
  | cons x rs ih => simp [expectedRegionItems, ih]

/-- Witness of C6: the three regions of the test `DumpMultipleRegions` and the sentinel. -/
theorem C6_descriptor_and_payload_witness :
    mockHooks.KeepsMemory ∧
    (∀ x ∈ testRegions, x.startAddress ≠ 0xFFFFFFFF) ∧
    testSentinel.startAddress = 0xFFFFFFFF ∧
    ∃ r' : Run DumpMocks,
      dumpMemoryRegions mockHooks targetGlobals (some (testRegions ++ testSentinel :: []))
        (mockRun (testMemory 0xFFFFFFF1 0)) = Except.ok r' ∧
      (items r'.calls).map DumpMemoryItem.pvMemory =
        [ [0x00, 0x03, 0x00, 0x20, 0x01, 0x03, 0x00, 0x20], [0],
          [0x01, 0x03, 0x00, 0x20, 0x03, 0x03, 0x00, 0x20], [1, 2],
          [0x03, 0x03, 0x00, 0x20, 0x07, 0x03, 0x00, 0x20], [3, 4, 5, 6] ] :=
  ⟨mockHooks_keepsMemory, by decide, by decide,
    match C6_descriptor_and_payload mockHooks mockHooks_keepsMemory targetGlobals testRegions
      testSentinel [] (mockRun (testMemory 0xFFFFFFF1 0)) (by decide) (by decide) with
    | ⟨r', hok, hc, _⟩ => ⟨r', hok, by rw [hc]; decide⟩⟩

/-! ## The items of a whole pass -/

/-- Items of a walk that comes to an end, whatever the array, when the dump routines
leave data memory alone. -/
theorem dumpMemoryRegionsFrom_walked {β : Type} (H : Hooks β) (hH : H.KeepsMemory) (g : Globals)
    (regions : List CrashCatcherMemoryRegion) (r r' : Run β)
    (h : dumpMemoryRegionsFrom H g regions r = Except.ok r') :
    r'.calls = r.calls ++
      (expectedWalkItems g r.machine.mem (some regions)).map Event.DumpMemory ∧
    r'.machine = feed H (expectedWalkItems g r.machine.mem (some regions)) r.machine := by
  induction regions generalizing r with
  | nil => simp [dumpMemoryRegionsFrom] at h
  | cons x rest ih =>
    unfold dumpMemoryRegionsFrom at h
    by_cases hx : x.startAddress = 0xFFFFFFFF
    · simp only [hx, ne_eq, not_true_eq_false, if_false, Except.ok.injEq] at h
      subst h
      simp [expectedWalkItems, walked, hx]
    · simp only [hx, ne_eq, not_false_eq_true, if_true] at h
      obtain ⟨hc, hm⟩ := ih _ h
      constructor
      · rw [hc]
        simp [expectedWalkItems, walked, hx, expectedRegionItems, hH.2.1, descriptor_bytes_eight]
      · rw [hm]
        simp [expectedWalkItems, walked, hx, expectedRegionItems, hH.2.1, descriptor_bytes_eight]

theorem dumpMemoryRegions_walked {β : Type} (H : Hooks β) (hH : H.KeepsMemory) (g : Globals)
    (table : Option (List CrashCatcherMemoryRegion)) (r r' : Run β)
    (h : dumpMemoryRegions H g table r = Except.ok r') :
    r'.calls = r.calls ++ (expectedWalkItems g r.machine.mem table).map Event.DumpMemory ∧
    r'.machine = feed H (expectedWalkItems g r.machine.mem table) r.machine := by
  cases table with
  | none =>
    simp only [dumpMemoryRegions, Except.ok.injEq] at h
    subst h
    simp [expectedWalkItems]
  | some regions => exact dumpMemoryRegionsFrom_walked H hH g regions r r' h

/-- The log and the machine at the moment of the sentinel check, when the dump routines
leave data memory alone. -/
theorem dumpBeforeCheck_items {β : Type} (H : Hooks β) (hH : H.KeepsMemory) (g : Globals)
    (object : Object) (m : Machine β) (r : Run β)
    (h : dumpBeforeCheck H g object m = Except.ok r) :
    r.calls = Event.storeStack0 STACK_SENTINEL :: Event.DumpStart STACK_SENTINEL ::
      (expectedPassItems g m.mem object
        (H.GetMemoryRegions (registerRun H object m).machine)).map Event.DumpMemory ∧
    r.machine = feed H
      (expectedPassItems g m.mem object (H.GetMemoryRegions (registerRun H object m).machine))
      (H.DumpStart { m with g_crashCatcherStack0 := STACK_SENTINEL }) ∧
    r.machine.mem = m.mem := by
  obtain ⟨r1, hr1, hfs⟩ := dumpBeforeCheck_ok H g object m r h
  generalize H.GetMemoryRegions (registerRun H object m).machine = table at hr1 ⊢
  obtain ⟨hc1, hm1⟩ := dumpMemoryRegions_walked H hH g _ _ r1 hr1
  have hmem0 := registerRun_mem H hH object m
  have hmem1 : r1.machine.mem = m.mem := by rw [hm1, feed_mem H hH, hmem0]
  rw [hmem0] at hc1 hm1
  rw [registerRun_calls, registerRun_items H hH] at hc1
  rw [registerRun_machine, registerRun_items H hH, ← feed_append] at hm1
  rw [hmem1] at hfs
  by_cases hc : isCortexM0Device g m.mem = true
  · rw [if_pos hc] at hfs
    simp only [Except.ok.injEq] at hfs
    subst hfs
    refine ⟨?_, ?_, hmem1⟩
    · rw [hc1]
      simp [expectedPassItems, hc]
    · rw [hm1]
      simp [expectedPassItems, hc]
  · rw [if_neg hc] at hfs
    obtain ⟨hc2, hm2⟩ := dumpMemoryRegions_walked H hH g _ _ r hfs
    rw [hmem1] at hc2 hm2
    refine ⟨?_, ?_, ?_⟩
    · rw [hc2, hc1]
      simp [expectedPassItems, hc]
    · rw [hm2, hm1, ← feed_append]
      simp [expectedPassItems, hc]
    · rw [hm2, feed_mem H hH, hmem1]

theorem isCortexM0Device_eq (g : Globals) (mem : Nat → Nat) :
    (isCortexM0Device g mem = true) ↔ read32 mem g.g_pCrashCatcherCpuId &&& 0xFFF0 = 0xC200 := by
  simp [isCortexM0Device]

theorem sub32_add_20 (b : Nat) (hb : b < 2 ^ 32) : sub32 (u32 (b + 5 * 4)) b = 20 := by
  unfold sub32 u32
  omega

theorem expectedWalkItems_faultStatusRegion (g : Globals) (mem : Nat → Nat)
    (hbase : u32 g.g_pCrashCatcherFaultStatusRegisters ≠ 0xFFFFFFFF) :
    expectedWalkItems g mem (some (faultStatusRegion g)) =
      [ { pvMemory := wordBytes (u32 g.g_pCrashCatcherFaultStatusRegisters) ++
            wordBytes (u32 (u32 g.g_pCrashCatcherFaultStatusRegisters + 20))
          elementSize := CRASH_CATCHER_BYTE
          elementCount := 8 },
        { pvMemory := readBytes mem
            (uint32AddressToPointer g (u32 g.g_pCrashCatcherFaultStatusRegisters)) 20
          elementSize := CRASH_CATCHER_WORD
          elementCount := 5 } ] := by
  have h20 := sub32_add_20 _ (u32_lt g.g_pCrashCatcherFaultStatusRegisters)
  simp [expectedWalkItems, walked, faultStatusRegion, hbase, expectedRegionItems, h20,
    CrashCatcherElementSizes.toNat]

/-- The items of a pass that comes to an end, when the dump routines leave data memory
alone: those handed over before the sentinel check, then the overflow marker or nothing. -/
theorem pass_items {β : Type} (H : Hooks β) (hH : H.KeepsMemory) (g : Globals)
    (object : Object) (m : Machine β) (evs : List Event)
    (hpass : passEvents (dumpPass H g object m) = some evs) :
    ∃ marker : List DumpMemoryItem,
      (marker = [] ∨ marker = [overflowItem]) ∧
      items evs = expectedPassItems g m.mem object
        (H.GetMemoryRegions (registerRun H object m).machine) ++ marker := by
  obtain ⟨code, r', hok, hcalls⟩ := passEvents_eq_some _ _ hpass
  obtain ⟨r, hr, -, -, hr'⟩ := dumpPass_ok H g object m code r' hok
  obtain ⟨hc, -, -⟩ := dumpBeforeCheck_items H hH g object m r hr
  refine ⟨if r.machine.g_crashCatcherStack0 ≠ STACK_SENTINEL then [overflowItem] else [], ?_, ?_⟩
  · split <;> simp
  · rw [← hcalls, hr', checkStackSentinelForStackOverflow_calls, hc]
    split <;> simp

/-! ## Claims on the fault status registers and the overflow marker -/

/-- C7: the items of a pass are the register items, the items of the caller's regions,
then the fault-status pair exactly when the part number field `cpuId & 0xFFF0` differs
from the Cortex-M0 part number `0xC200`, then the overflow marker or nothing.  The pair
is one descriptor `{base, base + 20}` and one payload of element size WORD and count 5
read at the fault-status base address.  The dump routines are taken not to write to data
memory, and the base address, as a 32-bit value, is taken to differ from `0xFFFFFFFF`. -/
theorem C7_fault_status_region {β : Type} (H : Hooks β) (hH : H.KeepsMemory) (g : Globals)
    (hbase : u32 g.g_pCrashCatcherFaultStatusRegisters ≠ 0xFFFFFFFF)
    (p : Nat) (m : Machine β) (evs : List Event)
    (hpass : passEvents (dumpPass H g (entryObject g m.mem p) m) = some evs) :
    ∃ marker : List DumpMemoryItem,
      (marker = [] ∨ marker = [overflowItem]) ∧
      items evs =
        expectedRegisterItems m.mem (entryObject g m.mem p) ++
        expectedWalkItems g m.mem
          (H.GetMemoryRegions (registerRun H (entryObject g m.mem p) m).machine) ++
        (if read32 m.mem g.g_pCrashCatcherCpuId &&& 0xFFF0 = 0xC200 then []
         else
          [ { pvMemory := wordBytes (u32 g.g_pCrashCatcherFaultStatusRegisters) ++
                wordBytes (u32 (u32 g.g_pCrashCatcherFaultStatusRegisters + 20))
              elementSize := CRASH_CATCHER_BYTE
              elementCount := 8 },
            { pvMemory := readBytes m.mem
                (uint32AddressToPointer g (u32 g.g_pCrashCatcherFaultStatusRegisters)) 20
              elementSize := CRASH_CATCHER_WORD
              elementCount := 5 } ]) ++
        marker := by
  obtain ⟨marker, hmarker, hitems⟩ := pass_items H hH g _ m evs hpass
  refine ⟨marker, hmarker, ?_⟩
  rw [hitems, expectedPassItems, expectedWalkItems_faultStatusRegion g m.mem hbase]
  by_cases hc : isCortexM0Device g m.mem = true
  · rw [if_pos hc, if_pos ((isCortexM0Device_eq g m.mem).1 hc)]
  · rw [if_neg hc, if_neg (fun h => hc ((isCortexM0Device_eq g m.mem).2 h))]

/-- Witness of C7: with CPU ID `0x410CC200` (Cortex-M0) a pass of the mocks has the seven
register items only; with CPU ID `0x412FC230` (Cortex-M3) the pair for
`0xE000ED28 .. 0xE000ED3C` follows them. -/
theorem C7_fault_status_region_witness :
    mockHooks.KeepsMemory ∧
    u32 targetGlobals.g_pCrashCatcherFaultStatusRegisters ≠ 0xFFFFFFFF ∧
    passEvents (dumpPass mockHooks targetGlobals
        (entryObject targetGlobals (mockMachine cortexM3Memory none).mem 0x1000)
        (mockMachine cortexM3Memory none)) = some (mockPassEvents cortexM3Memory none) ∧
    (∃ marker : List DumpMemoryItem,
      (marker = [] ∨ marker = [overflowItem]) ∧
      items (mockPassEvents cortexM3Memory none) =
        expectedRegisterItems (mockMachine cortexM3Memory none).mem
          (entryObject targetGlobals (mockMachine cortexM3Memory none).mem 0x1000) ++
        expectedWalkItems targetGlobals (mockMachine cortexM3Memory none).mem
          (mockHooks.GetMemoryRegions (registerRun mockHooks
            (entryObject targetGlobals (mockMachine cortexM3Memory none).mem 0x1000)
            (mockMachine cortexM3Memory none)).machine) ++
        (if read32 (mockMachine cortexM3Memory none).mem targetGlobals.g_pCrashCatcherCpuId
              &&& 0xFFF0 = 0xC200 then []
         else
          [ { pvMemory := wordBytes (u32 targetGlobals.g_pCrashCatcherFaultStatusRegisters) ++
                wordBytes (u32 (u32 targetGlobals.g_pCrashCatcherFaultStatusRegisters + 20))
              elementSize := CRASH_CATCHER_BYTE
              elementCount := 8 },
            { pvMemory := readBytes (mockMachine cortexM3Memory none).mem
                (uint32AddressToPointer targetGlobals
                  (u32 targetGlobals.g_pCrashCatcherFaultStatusRegisters)) 20
              elementSize := CRASH_CATCHER_WORD
              elementCount := 5 } ]) ++
        marker) ∧
    (items (mockPassEvents cortexM3Memory none)).drop 7 =
      [ { pvMemory := [0x28, 0xED, 0x00, 0xE0, 0x3C, 0xED, 0x00, 0xE0]
          elementSize := CRASH_CATCHER_BYTE
          elementCount := 8 },
        { pvMemory := [0, 0, 2, 0, 0, 0, 0, 0, 0, 0, 0, 0, 0, 0, 0, 0, 0, 0, 0, 0]
          elementSize := CRASH_CATCHER_WORD
          elementCount := 5 } ] ∧
    (items (mockPassEvents (testMemory 0xFFFFFFF1 0) none)).drop 7 = [] :=
  ⟨mockHooks_keepsMemory, by decide, by decide,
    C7_fault_status_region mockHooks mockHooks_keepsMemory targetGlobals (by decide) 0x1000
      (mockMachine cortexM3Memory none) (mockPassEvents cortexM3Memory none) (by decide),
    by decide, by decide⟩

/-- C8: in a pass that comes to an end, let `r` be the run at the moment
`checkStackSentinelForStackOverflow` is called.  If the first word of
`g_crashCatcherStack` then differs from `0xACCE55ED`, the pass makes exactly one more
`CrashCatcher_DumpMemory` call, with element size BYTE, count 4 and bytes AC CE 55 ED, and
this is the last item of the pass, right before `CrashCatcher_DumpEnd`; if the word is
intact, the check adds no item.  Nothing is assumed about the dump routines. -/
theorem C8_overflow_marker {β : Type} (H : Hooks β) (g : Globals) (p : Nat) (m : Machine β)
    (evs : List Event)
    (hpass : passEvents (dumpPass H g (entryObject g m.mem p) m) = some evs) :
    ∃ (r : Run β) (code : CrashCatcherReturnCodes),
      dumpBeforeCheck H g (entryObject g m.mem p) m = Except.ok r ∧
      (r.machine.g_crashCatcherStack0 ≠ STACK_SENTINEL →
        evs = r.calls ++
          [ Event.DumpMemory { pvMemory := [0xAC, 0xCE, 0x55, 0xED]
                               elementSize := CRASH_CATCHER_BYTE
                               elementCount := 4 },
            Event.DumpEnd code ] ∧
        items evs = items r.calls ++
          [ { pvMemory := [0xAC, 0xCE, 0x55, 0xED], elementSize := CRASH_CATCHER_BYTE,
              elementCount := 4 } ] ∧
        (items evs).getLast? =
          some { pvMemory := [0xAC, 0xCE, 0x55, 0xED], elementSize := CRASH_CATCHER_BYTE,
                 elementCount := 4 }) ∧
      (r.machine.g_crashCatcherStack0 = STACK_SENTINEL →
        evs = r.calls ++ [Event.DumpEnd code] ∧ items evs = items r.calls) := by
  obtain ⟨code, r', hok, hcalls⟩ := passEvents_eq_some _ _ hpass
  obtain ⟨r, hr, -, -, hr'⟩ := dumpPass_ok H g _ m code r' hok
  rw [hcalls, checkStackSentinelForStackOverflow_calls] at hr'
  refine ⟨r, code, hr, ?_, ?_⟩
  · intro hne
    rw [if_pos hne] at hr'
    have hevs : evs = r.calls ++ [Event.DumpMemory overflowItem, Event.DumpEnd code] := by
      rw [hr']
      simp
    refine ⟨hevs, ?_, ?_⟩
    · rw [hevs]
      simp [overflowItem]
    · rw [hevs]
      simp [overflowItem]
  · intro heq
    rw [if_neg (fun hne => hne heq)] at hr'
    have hevs : evs = r.calls ++ [Event.DumpEnd code] := by
      rw [hr']
      simp
    refine ⟨hevs, ?_⟩
    rw [hevs]
    simp

/-- Witness of C8: dump routines that overwrite the sentinel during the pass make the
marker the eighth and last item; the mocks, which leave it alone, give seven items. -/
theorem C8_overflow_marker_witness :
    passEvents (dumpPass overflowHooks targetGlobals
        (entryObject targetGlobals (testMemory 0xFFFFFFF1 0) 0x1000)
        { mem := testMemory 0xFFFFFFF1 0, g_crashCatcherStack0 := 0, backend := 1 }) =
      some overflowPassEvents ∧
    (∃ (r : Run Nat) (code : CrashCatcherReturnCodes),
      dumpBeforeCheck overflowHooks targetGlobals
        (entryObject targetGlobals (testMemory 0xFFFFFFF1 0) 0x1000)
        { mem := testMemory 0xFFFFFFF1 0, g_crashCatcherStack0 := 0, backend := 1 } =
          Except.ok r ∧
      (r.machine.g_crashCatcherStack0 ≠ STACK_SENTINEL →
        overflowPassEvents = r.calls ++
          [ Event.DumpMemory { pvMemory := [0xAC, 0xCE, 0x55, 0xED]
                               elementSize := CRASH_CATCHER_BYTE
                               elementCount := 4 },
            Event.DumpEnd code ] ∧
        items overflowPassEvents = items r.calls ++
          [ { pvMemory := [0xAC, 0xCE, 0x55, 0xED], elementSize := CRASH_CATCHER_BYTE,
              elementCount := 4 } ] ∧
        (items overflowPassEvents).getLast? =
          some { pvMemory := [0xAC, 0xCE, 0x55, 0xED], elementSize := CRASH_CATCHER_BYTE,
                 elementCount := 4 }) ∧
      (r.machine.g_crashCatcherStack0 = STACK_SENTINEL →
        overflowPassEvents = r.calls ++ [Event.DumpEnd code] ∧
        items overflowPassEvents = items r.calls)) ∧
    (items overflowPassEvents).length = 8 ∧
    (items overflowPassEvents).getLast? =
      some { pvMemory := [0xAC, 0xCE, 0x55, 0xED], elementSize := CRASH_CATCHER_BYTE,
             elementCount := 4 } ∧
    (items (mockPassEvents (testMemory 0xFFFFFFF1 0) none)).length = 7 :=
  ⟨by decide,
    C8_overflow_marker overflowHooks targetGlobals 0x1000
      { mem := testMemory 0xFFFFFFF1 0, g_crashCatcherStack0 := 0, backend := 1 }
      overflowPassEvents (by decide),
    by decide, by decide, by decide⟩

/-! ## The retry loop -/

theorem pass_startCount {β : Type} (H : Hooks β) (g : Globals) (object : Object)
    (m : Machine β) (evs : List Event)
    (hpass : passEvents (dumpPass H g object m) = some evs) :
    startCount evs = 1 ∧ endCount evs = 1 := by
  obtain ⟨r1, regionItems, later, code, -, -, hevs⟩ := pass_structure H g object m evs hpass
  rw [hevs, registerRun_calls]
  simp

theorem startCount_flatten (passes : List (List Event))
    (h : ∀ evs ∈ passes, startCount evs = 1) : startCount passes.flatten = passes.length := by
  induction passes with
  | nil => rfl
  | cons x l ih =>
    rw [List.flatten_cons, startCount_append, h x (List.mem_cons_self _ _),
      ih (fun e he => h e (List.mem_cons_of_mem _ he)), List.length_cons]
    omega

theorem endCount_flatten (passes : List (List Event))
    (h : ∀ evs ∈ passes, endCount evs = 1) : endCount passes.flatten = passes.length := by
  induction passes with
  | nil => rfl
  | cons x l ih =>
    rw [List.flatten_cons, endCount_append, h x (List.mem_cons_self _ _),
      ih (fun e he => h e (List.mem_cons_of_mem _ he)), List.length_cons]
    omega

theorem items_flatten_length (passes : List (List Event)) :
    (items passes.flatten).length = (passes.map fun evs => (items evs).length).sum := by
  induction passes with
  | nil => rfl
  | cons x l ih => simp [ih]

theorem sum_map_const (passes : List (List Event)) (n : Nat)
    (h : ∀ evs ∈ passes, (items evs).length = n) :
    (passes.map fun evs => (items evs).length).sum = passes.length * n := by
  induction passes with
  | nil => simp
  | cons x l ih =>
    rw [List.map_cons, List.sum_cons, h x (List.mem_cons_self _ _),
      ih (fun e he => h e (List.mem_cons_of_mem _ he)), List.length_cons, Nat.succ_mul]
    omega

/-- The loop returns after `K + 1` passes when the first `K` calls of
`CrashCatcher_DumpEnd` ask for a retry and call `K + 1` does not, given fuel for them. -/
theorem dumpLoop_retry {β : Type} (H : Hooks β) (g : Globals) (object : Object) (K : Nat) :
    ∀ (m : Machine β) (fuel : Nat), K < fuel →
      (∀ k, k < K → passResult H g object k m = some CRASH_CATCHER_TRY_AGAIN) →
      (∃ code, passResult H g object K m = some code ∧ code ≠ CRASH_CATCHER_TRY_AGAIN) →
      ∃ (m' : Machine β) (passes : List (List Event)),
        dumpLoop H g object fuel m = Except.ok (m', passes) ∧ passes.length = K + 1 ∧
        ∀ evs ∈ passes, ∃ m0 : Machine β, passEvents (dumpPass H g object m0) = some evs := by
  induction K with
  | zero =>
    intro m fuel hfuel _ hexit
    obtain ⟨code, hcode, hne⟩ := hexit
    obtain ⟨fuel, rfl⟩ : ∃ f, fuel = f + 1 := ⟨fuel - 1, by omega⟩
    unfold passResult at hcode
    unfold dumpLoop
    cases hp : dumpPass H g object m with
    | error e => rw [hp] at hcode; simp at hcode
    | ok x =>
      obtain ⟨c, r⟩ := x
      rw [hp] at hcode
      simp only [Option.some.injEq] at hcode
      subst hcode
      refine ⟨r.machine, [r.calls], by simp [hne], rfl, ?_⟩
      intro evs hevs
      simp only [List.mem_singleton] at hevs
      subst hevs
      exact ⟨m, by rw [hp]; rfl⟩
  | succ K ih =>
    intro m fuel hfuel hretry hexit
    obtain ⟨fuel, rfl⟩ : ∃ f, fuel = f + 1 := ⟨fuel - 1, by omega⟩
    have h0 := hretry 0 (by omega)
    unfold passResult at h0
    cases hp : dumpPass H g object m with
    | error e => rw [hp] at h0; simp at h0
    | ok x =>
      obtain ⟨c, r⟩ := x
      rw [hp] at h0
      simp only [Option.some.injEq] at h0
      subst h0
      have hretry' : ∀ k, k < K →
          passResult H g object k r.machine = some CRASH_CATCHER_TRY_AGAIN := by
        intro k hk
        have h := hretry (k + 1) (by omega)
        unfold passResult at h
        rw [hp] at h
        exact h
      have hexit' : ∃ code, passResult H g object K r.machine = some code ∧
          code ≠ CRASH_CATCHER_TRY_AGAIN := by
        obtain ⟨code, hcode, hne⟩ := hexit
        unfold passResult at hcode
        rw [hp] at hcode
        exact ⟨code, hcode, hne⟩
      obtain ⟨m', passes, hloop, hlen, hall⟩ := ih r.machine fuel (by omega) hretry' hexit'
      refine ⟨m', r.calls :: passes, ?_, by simp [hlen], ?_⟩
      · unfold dumpLoop
        rw [hp]
        simp [hloop]
      · intro evs hevs
        rcases List.mem_cons.1 hevs with h | h
        · subst h
          exact ⟨m, by rw [hp]; rfl⟩
        · exact hall evs h

/-! ## Passes of one invocation compared -/

theorem overflowHooks_keepsMemory : overflowHooks.KeepsMemory := by
  refine ⟨fun _ => rfl, ?_, ?_⟩
  · intro item m
    simp only [overflowHooks]
    split <;> rfl
  · intro m
    simp only [overflowHooks]
    split <;> rfl

theorem overflowHooks_keepsRegions : overflowHooks.KeepsRegions := fun _ _ => rfl

theorem feed_stack0 {β : Type} (H : Hooks β) (hS : H.KeepsStack0) (l : List DumpMemoryItem)
    (m : Machine β) : (feed H l m).g_crashCatcherStack0 = m.g_crashCatcherStack0 := by
  induction l generalizing m with
  | nil => rfl
  | cons x l ih => simp [ih, hS.2]

theorem dumpPass_mem {β : Type} (H : Hooks β) (hH : H.KeepsMemory) (g : Globals)
    (object : Object) (m : Machine β) (code : CrashCatcherReturnCodes) (r' : Run β)
    (h : dumpPass H g object m = Except.ok (code, r')) : r'.machine.mem = m.mem := by
  obtain ⟨r, hr, -, hm', -⟩ := dumpPass_ok H g object m code r' h
  obtain ⟨-, -, hmem⟩ := dumpBeforeCheck_items H hH g object m r hr
  rw [hm', hH.2.2, checkStackSentinelForStackOverflow_machine]
  split
  · rw [hH.2.1, hmem]
  · exact hmem

/-- Every pass of a loop that returns is a pass run on a machine with the memory the
loop started with, when the dump routines leave data memory alone. -/
theorem dumpLoop_passes {β : Type} (H : Hooks β) (hH : H.KeepsMemory) (g : Globals)
    (object : Object) (fuel : Nat) :
    ∀ (m m' : Machine β) (passes : List (List Event)),
      dumpLoop H g object fuel m = Except.ok (m', passes) →
      ∀ evs ∈ passes, ∃ m0 : Machine β,
        m0.mem = m.mem ∧ passEvents (dumpPass H g object m0) = some evs := by
  induction fuel with
  | zero =>
    intro m m' passes h
    simp [dumpLoop] at h
  | succ fuel ih =>
    intro m m' passes h
    unfold dumpLoop at h
    cases hp : dumpPass H g object m with
    | error e => rw [hp] at h; simp at h
    | ok x =>
      obtain ⟨c, r⟩ := x
      rw [hp] at h
      have hmem := dumpPass_mem H hH g object m c r hp
      have hhead : passEvents (dumpPass H g object m) = some r.calls := by rw [hp]; rfl
      by_cases hc : c = CRASH_CATCHER_TRY_AGAIN
      · simp only [hc, if_true] at h
        cases hl : dumpLoop H g object fuel r.machine with
        | error e => rw [hl] at h; simp at h
        | ok y =>
          obtain ⟨m2, ps⟩ := y
          rw [hl] at h
          simp only [Except.ok.injEq, Prod.mk.injEq] at h
          obtain ⟨-, hps⟩ := h
          subst hps
          intro evs hevs
          rcases List.mem_cons.1 hevs with he | he
          · subst he
            exact ⟨m, rfl, hhead⟩
          · obtain ⟨m0, hm0, hev⟩ := ih r.machine m2 ps hl evs he
            exact ⟨m0, by rw [hm0, hmem], hev⟩
      · simp only [hc, if_false, Except.ok.injEq, Prod.mk.injEq] at h
        obtain ⟨-, hps⟩ := h
        subst hps
        intro evs hevs
        simp only [List.mem_singleton] at hevs
        subst hevs
        exact ⟨m, rfl, hhead⟩

/-- The items of a pass when the dump routines leave both data memory and the sentinel
alone: no marker. -/
theorem pass_items_intact {β : Type} (H : Hooks β) (hH : H.KeepsMemory) (hS : H.KeepsStack0)
    (g : Globals) (object : Object) (m : Machine β) (evs : List Event)
    (hpass : passEvents (dumpPass H g object m) = some evs) :
    items evs = expectedPassItems g m.mem object
      (H.GetMemoryRegions (registerRun H object m).machine) := by
  obtain ⟨code, r', hok, hcalls⟩ := passEvents_eq_some _ _ hpass
  obtain ⟨r, hr, -, -, hr'⟩ := dumpPass_ok H g object m code r' hok
  obtain ⟨hc, hm, -⟩ := dumpBeforeCheck_items H hH g object m r hr
  have hs : r.machine.g_crashCatcherStack0 = STACK_SENTINEL := by
    rw [hm, feed_stack0 H hS, hS.1]
  rw [← hcalls, hr', checkStackSentinelForStackOverflow_calls, hc, if_neg (fun h => h hs)]
  simp

/-- The items of every pass of a loop that returns, when the dump routines write neither
to data memory nor to the region array: one common list, followed by the overflow marker
or by nothing. -/
theorem loop_pass_items {β : Type} (H : Hooks β) (hM : H.KeepsMemory) (hR : H.KeepsRegions)
    (g : Globals) (object : Object) (fuel : Nat) (m m' : Machine β)
    (passes : List (List Event))
    (hloop : dumpLoop H g object fuel m = Except.ok (m', passes)) :
    ∀ evs ∈ passes,
      items evs = expectedPassItems g m.mem object (H.GetMemoryRegions m) ∨
      items evs = expectedPassItems g m.mem object (H.GetMemoryRegions m) ++ [overflowItem] := by
  intro evs hevs
  obtain ⟨m0, hm0, hev⟩ := dumpLoop_passes H hM g object fuel m m' passes hloop evs hevs
  obtain ⟨marker, hmarker, hitems⟩ := pass_items H hM g _ m0 evs hev
  rw [hm0, hR _ m] at hitems
  rcases hmarker with h | h
  · left; rw [hitems, h, List.append_nil]
  · right; rw [hitems, h]

/-- The number of items of passes that all hand over the list `E`, some of them followed
by the marker: `E.length` for each pass, and one more for each pass with the marker. -/
theorem sum_lengths_with_marker (passes : List (List Event)) (E : List DumpMemoryItem)
    (h : ∀ evs ∈ passes, items evs = E ∨ items evs = E ++ [overflowItem]) :
    (passes.map fun evs => (items evs).length).sum =
      passes.length * E.length +
        passes.countP (fun evs => decide (items evs = E ++ [overflowItem])) := by
  induction passes with
  | nil => simp
  | cons x l ih =>
    have ih' := ih (fun e he => h e (List.mem_cons_of_mem _ he))
    rw [List.map_cons, List.sum_cons, ih', List.countP_cons, List.length_cons, Nat.succ_mul]
    rcases h x (List.mem_cons_self _ _) with hx | hx
    · have hne : ¬ (E = E ++ [overflowItem]) := by
        intro hc
        have := congrArg List.length hc
        simp at this
      have hd : decide (E = E ++ [overflowItem]) = false := decide_eq_false hne
      rw [hx, hd]
      simp only [Bool.false_eq_true, if_false]
      omega
    · have hd : decide (E ++ [overflowItem] = E ++ [overflowItem]) = true :=
        decide_eq_true rfl
      rw [hx, hd]
      simp only [if_true, List.length_append, List.length_singleton]
      omega

/-- Counterexample to C9 as stated: the routines `overflowHooks` return
`CRASH_CATCHER_TRY_AGAIN` on the first call of `CrashCatcher_DumpEnd` and another value
on the second (`K = 1`); the invocation makes two passes, but the first pass has eight
items (the last one is the overflow marker) and the second has seven: 15 calls of
`CrashCatcher_DumpMemory`, which is not twice the count of either pass, nor twice any
number. -/
theorem C9_counterexample :
    (∀ k, k < 1 →
      passResult overflowHooks targetGlobals
        (entryObject targetGlobals (testMemory 0xFFFFFFF1 0) 0x1000) k
        { mem := testMemory 0xFFFFFFF1 0, g_crashCatcherStack0 := 0, backend := 1 } =
          some CRASH_CATCHER_TRY_AGAIN) ∧
    passResult overflowHooks targetGlobals
        (entryObject targetGlobals (testMemory 0xFFFFFFF1 0) 0x1000) 1
        { mem := testMemory 0xFFFFFFF1 0, g_crashCatcherStack0 := 0, backend := 1 } =
      some CRASH_CATCHER_EXIT ∧
    entryEvents (CrashCatcher_Entry overflowHooks targetGlobals 2 0x1000
        { mem := testMemory 0xFFFFFFF1 0, g_crashCatcherStack0 := 0, backend := 1 }) =
      some overflowEntryPasses ∧
    startCount overflowEntryPasses.flatten = 2 ∧
    endCount overflowEntryPasses.flatten = 2 ∧
    (overflowEntryPasses.map fun evs => (items evs).length) = [8, 7] ∧
    (items overflowEntryPasses.flatten).length = 15 ∧
    (items overflowEntryPasses.flatten).length ≠ (1 + 1) * 8 ∧
    (items overflowEntryPasses.flatten).length ≠ (1 + 1) * 7 ∧
    ∀ n : Nat, (items overflowEntryPasses.flatten).length ≠ (1 + 1) * n := by
  have h15 : (items overflowEntryPasses.flatten).length = 15 := by decide
  refine ⟨by decide, by decide, by decide, by decide, by decide, by decide, h15, by decide,
    by decide, ?_⟩
  intro n
  rw [h15]
  omega

/-- C9, amended: if the first `K` calls of `CrashCatcher_DumpEnd` return
`CRASH_CATCHER_TRY_AGAIN` and call `K + 1` returns another value, then `CrashCatcher_Entry`
returns (given fuel for `K + 1` passes) after `K + 1` passes, with `K + 1` calls of
`CrashCatcher_DumpStart` and `K + 1` calls of `CrashCatcher_DumpEnd`, and the number of
`CrashCatcher_DumpMemory` calls is the sum of the per-pass numbers.  When the dump
routines write neither to data memory nor to the region array, every pass hands over the
same `n` items (registers, regions, fault status registers), followed by the overflow
marker in the passes whose sentinel check fails; so the number of calls is `(K + 1) * n`
plus the number of passes with the marker, and it is `(K + 1) * n` when the routines
leave the sentinel alone. -/
theorem C9_retry_runs_K_plus_one_passes {β : Type} (H : Hooks β) (g : Globals) (p : Nat)
    (m : Machine β) (K fuel : Nat) (hfuel : K < fuel)
    (hretry : ∀ k, k < K →
      passResult H g (entryObject g m.mem p) k m = some CRASH_CATCHER_TRY_AGAIN)
    (hexit : ∃ code, passResult H g (entryObject g m.mem p) K m = some code ∧
      code ≠ CRASH_CATCHER_TRY_AGAIN) :
    ∃ passes : List (List Event),
      entryEvents (CrashCatcher_Entry H g fuel p m) = some passes ∧
      passes.length = K + 1 ∧
      startCount passes.flatten = K + 1 ∧
      endCount passes.flatten = K + 1 ∧
      (items passes.flatten).length = (passes.map fun evs => (items evs).length).sum ∧
      (H.KeepsMemory → H.KeepsRegions →
        (∀ evs ∈ passes,
          items evs =
            expectedPassItems g m.mem (entryObject g m.mem p) (H.GetMemoryRegions m) ∨
          items evs =
            expectedPassItems g m.mem (entryObject g m.mem p) (H.GetMemoryRegions m)
              ++ [overflowItem]) ∧
        (items passes.flatten).length =
          (K + 1) *
            (expectedPassItems g m.mem (entryObject g m.mem p) (H.GetMemoryRegions m)).length +
          passes.countP (fun evs => decide (items evs =
            expectedPassItems g m.mem (entryObject g m.mem p) (H.GetMemoryRegions m)
              ++ [overflowItem])) ∧
        (H.KeepsStack0 →
          (∀ evs ∈ passes, items evs =
            expectedPassItems g m.mem (entryObject g m.mem p) (H.GetMemoryRegions m)) ∧
          (items passes.flatten).length =
            (K + 1) *
              (expectedPassItems g m.mem (entryObject g m.mem p)
                (H.GetMemoryRegions m)).length)) := by
  obtain ⟨m', passes, hloop, hlen, hall⟩ :=
    dumpLoop_retry H g (entryObject g m.mem p) K m fuel hfuel hretry hexit
  refine ⟨passes, ?_, hlen, ?_, ?_, items_flatten_length passes, ?_⟩
  · unfold CrashCatcher_Entry
    rw [hloop]
    rfl
  · rw [startCount_flatten passes, hlen]
    intro evs hevs
    obtain ⟨m0, hm0⟩ := hall evs hevs
    exact (pass_startCount H g _ m0 evs hm0).1
  · rw [endCount_flatten passes, hlen]
    intro evs hevs
    obtain ⟨m0, hm0⟩ := hall evs hevs
    exact (pass_startCount H g _ m0 evs hm0).2
  · intro hM hR
    have hbase := loop_pass_items H hM hR g (entryObject g m.mem p) fuel m m' passes hloop
    refine ⟨hbase, ?_, ?_⟩
    · rw [items_flatten_length, sum_lengths_with_marker passes _ hbase, hlen]
    · intro hS
      have hsame : ∀ evs ∈ passes, items evs =
          expectedPassItems g m.mem (entryObject g m.mem p) (H.GetMemoryRegions m) := by
        intro evs hevs
        obtain ⟨m0, hm0, hev⟩ :=
          dumpLoop_passes H hM g (entryObject g m.mem p) fuel m m' passes hloop evs hevs
        rw [pass_items_intact H hM hS g _ m0 evs hev, hm0, hR _ m]
      refine ⟨hsame, ?_⟩
      rw [items_flatten_length, sum_map_const passes _ (fun evs hevs => by rw [hsame evs hevs]),
        hlen]

/-- Witness of C9: the test `DumpEndReturnTryAgainOnce_ShouldDumpTwice`, `K = 1` and no
regions, with routines that leave memory, region array and sentinel alone: 2 starts,
2 times 7 items, 2 ends. -/
theorem C9_retry_runs_K_plus_one_passes_witness :
    (∀ k, k < 1 →
      passResult (loopHooks none) targetGlobals
        (entryObject targetGlobals (testMemory 0xFFFFFFF1 0) 0x1000) k
        { mem := testMemory 0xFFFFFFF1 0, g_crashCatcherStack0 := 0, backend := 1 } =
          some CRASH_CATCHER_TRY_AGAIN) ∧
    (∃ code, passResult (loopHooks none) targetGlobals
        (entryObject targetGlobals (testMemory 0xFFFFFFF1 0) 0x1000) 1
        { mem := testMemory 0xFFFFFFF1 0, g_crashCatcherStack0 := 0, backend := 1 } =
          some code ∧ code ≠ CRASH_CATCHER_TRY_AGAIN) ∧
    (loopHooks none).KeepsMemory ∧
    (loopHooks none).KeepsRegions ∧
    (loopHooks none).KeepsStack0 ∧
    (∃ passes : List (List Event),
      entryEvents (CrashCatcher_Entry (loopHooks none) targetGlobals 2 0x1000
        { mem := testMemory 0xFFFFFFF1 0, g_crashCatcherStack0 := 0, backend := 1 }) =
          some passes ∧
      passes.length = 1 + 1 ∧
      startCount passes.flatten = 1 + 1 ∧
      endCount passes.flatten = 1 + 1 ∧
      (items passes.flatten).length =
        (1 + 1) * (expectedPassItems targetGlobals (testMemory 0xFFFFFFF1 0)
          (entryObject targetGlobals (testMemory 0xFFFFFFF1 0) 0x1000) none).length) ∧
    (expectedPassItems targetGlobals (testMemory 0xFFFFFFF1 0)
      (entryObject targetGlobals (testMemory 0xFFFFFFF1 0) 0x1000) none).length = 7 ∧
    entryEvents (CrashCatcher_Entry (loopHooks none) targetGlobals 2 0x1000
        { mem := testMemory 0xFFFFFFF1 0, g_crashCatcherStack0 := 0, backend := 1 }) =
      some loopEntryPasses ∧
    startCount loopEntryPasses.flatten = 2 ∧
    (items loopEntryPasses.flatten).length = 14 ∧
    endCount loopEntryPasses.flatten = 2 :=
  have hM : (loopHooks none).KeepsMemory :=
    ⟨fun _ => rfl, fun _ _ => rfl, fun m => by simp only [loopHooks]; split <;> rfl⟩
  have hR : (loopHooks none).KeepsRegions := fun _ _ => rfl
  have hS : (loopHooks none).KeepsStack0 := ⟨fun _ => rfl, fun _ _ => rfl⟩
  ⟨by decide, ⟨CRASH_CATCHER_EXIT, by decide, by decide⟩, hM, hR, hS,
    match C9_retry_runs_K_plus_one_passes (loopHooks none) targetGlobals 0x1000
      { mem := testMemory 0xFFFFFFF1 0, g_crashCatcherStack0 := 0, backend := 1 } 1 2
      (by decide) (by decide) ⟨CRASH_CATCHER_EXIT, by decide, by decide⟩ with
    | ⟨passes, h1, h2, h3, h4, _, h6⟩ => ⟨passes, h1, h2, h3, h4, ((h6 hM hR).2.2 hS).2⟩,
    by decide, by decide, by decide, by decide, by decide⟩

/-- Counterexample to C10 as stated: the routines `overflowHooks` write neither to data
memory nor to the region array, yet the first pass of the invocation has eight items
(the last one is the overflow marker) and the second pass has seven. -/
theorem C10_counterexample :
    overflowHooks.KeepsMemory ∧
    overflowHooks.KeepsRegions ∧
    entryEvents (CrashCatcher_Entry overflowHooks targetGlobals 2 0x1000
        { mem := testMemory 0xFFFFFFF1 0, g_crashCatcherStack0 := 0, backend := 1 }) =
      some overflowEntryPasses ∧
    overflowEntryPasses.length = 2 ∧
    (overflowEntryPasses.map fun evs => (items evs).length) = [8, 7] ∧
    (overflowEntryPasses.map items)[0]? ≠ (overflowEntryPasses.map items)[1]? ∧
    ((overflowEntryPasses.map items)[0]?).map (fun l => l.take 7) =
      (overflowEntryPasses.map items)[1]? :=
  ⟨overflowHooks_keepsMemory, overflowHooks_keepsRegions, by decide, by decide, by decide,
    by decide, by decide⟩

/-- C10, amended: when the dump routines write neither to data memory nor to the region
array, every pass of one invocation hands over the same list of items (registers with
the stack pointer rebuilt once before the loop, regions, fault status registers),
followed by the overflow marker in the passes whose sentinel check fails and by nothing
in the others; so two passes are equal item by item when their checks come out alike, and
all passes are equal when the routines leave the sentinel alone. -/
theorem C10_passes_identical_up_to_marker {β : Type} (H : Hooks β) (hM : H.KeepsMemory)
    (hR : H.KeepsRegions) (g : Globals) (p : Nat) (m : Machine β) (fuel : Nat)
    (passes : List (List Event))
    (hentry : entryEvents (CrashCatcher_Entry H g fuel p m) = some passes) :
    (∀ evs ∈ passes,
      items evs = expectedPassItems g m.mem (entryObject g m.mem p) (H.GetMemoryRegions m) ∨
      items evs = expectedPassItems g m.mem (entryObject g m.mem p) (H.GetMemoryRegions m)
        ++ [overflowItem]) ∧
    (∀ e1 ∈ passes, ∀ e2 ∈ passes,
      (items e1).length = (items e2).length → items e1 = items e2) ∧
    (∀ evs ∈ passes, (items evs)[4]? =
      some { pvMemory := wordBytes (entryObject g m.mem p).sp, elementSize := CRASH_CATCHER_BYTE,
             elementCount := 4 }) ∧
    (H.KeepsStack0 → ∀ e1 ∈ passes, ∀ e2 ∈ passes, items e1 = items e2) := by
  have hloop : ∃ m', dumpLoop H g (entryObject g m.mem p) fuel m = Except.ok (m', passes) := by
    unfold entryEvents CrashCatcher_Entry at hentry
    split at hentry
    · rename_i m' ps heq
      simp only [Option.some.injEq] at hentry
      subst hentry
      exact ⟨m', heq⟩
    · simp at hentry
  obtain ⟨m', hloop⟩ := hloop
  have hall := dumpLoop_passes H hM g (entryObject g m.mem p) fuel m m' passes hloop
  have hbase : ∀ evs ∈ passes,
      items evs = expectedPassItems g m.mem (entryObject g m.mem p) (H.GetMemoryRegions m) ∨
      items evs = expectedPassItems g m.mem (entryObject g m.mem p) (H.GetMemoryRegions m)
        ++ [overflowItem] := by
    intro evs hevs
    obtain ⟨m0, hm0, hev⟩ := hall evs hevs
    obtain ⟨marker, hmarker, hitems⟩ := pass_items H hM g _ m0 evs hev
    rw [hm0, hR _ m] at hitems
    rcases hmarker with h | h
    · left; rw [hitems, h, List.append_nil]
    · right; rw [hitems, h]
  refine ⟨hbase, ?_, ?_, ?_⟩
  · intro e1 h1 e2 h2 hlen
    rcases hbase e1 h1 with a | a <;> rcases hbase e2 h2 with b | b
    · rw [a, b]
    · rw [a, b] at hlen; simp at hlen
    · rw [a, b] at hlen; simp at hlen
    · rw [a, b]
  · intro evs hevs
    rcases hbase evs hevs with a | a <;>
      · rw [a]
        simp [expectedPassItems, expectedRegisterItems]
  · intro hS e1 h1 e2 h2
    obtain ⟨m1, hm1, hev1⟩ := hall e1 h1
    obtain ⟨m2, hm2, hev2⟩ := hall e2 h2
    rw [pass_items_intact H hM hS g _ m1 e1 hev1, pass_items_intact H hM hS g _ m2 e2 hev2,
      hm1, hm2, hR _ m, hR (registerRun H (entryObject g m.mem p) m2).machine m]

/-- Witness of C10: the two passes of the test `DumpEndReturnTryAgainOnce_ShouldDumpTwice`
are equal item by item. -/
theorem C10_passes_identical_up_to_marker_witness :
    (loopHooks none).KeepsMemory ∧
    (loopHooks none).KeepsRegions ∧
    (loopHooks none).KeepsStack0 ∧
    entryEvents (CrashCatcher_Entry (loopHooks none) targetGlobals 2 0x1000
        { mem := testMemory 0xFFFFFFF1 0, g_crashCatcherStack0 := 0, backend := 1 }) =
      some loopEntryPasses ∧
    loopEntryPasses.length = 2 ∧
    (∀ e1 ∈ loopEntryPasses, ∀ e2 ∈ loopEntryPasses, items e1 = items e2) :=
  have hM : (loopHooks none).KeepsMemory :=
    ⟨fun _ => rfl, fun _ _ => rfl, fun m => by simp only [loopHooks]; split <;> rfl⟩
  have hR : (loopHooks none).KeepsRegions := fun _ _ => rfl
  have hS : (loopHooks none).KeepsStack0 := ⟨fun _ => rfl, fun _ _ => rfl⟩
  ⟨hM, hR, hS, by decide, by decide,
    (C10_passes_identical_up_to_marker (loopHooks none) hM hR targetGlobals 0x1000
      { mem := testMemory 0xFFFFFFF1 0, g_crashCatcherStack0 := 0, backend := 1 } 2
      loopEntryPasses (by decide)).2.2.2 hS⟩

/-! ## The shape of the whole trace -/

theorem bracketed_map_DumpMemory (l : List DumpMemoryItem) (tail : List Event) :
    bracketed true (l.map Event.DumpMemory ++ tail) = bracketed true tail := by
  induction l with
  | nil => rfl
  | cons x l ih => simpa [bracketed] using ih

theorem bracketed_pass (l : List DumpMemoryItem) (v w : Nat) (code : CrashCatcherReturnCodes)
    (tail : List Event) :
    bracketed false (Event.storeStack0 v :: Event.DumpStart w ::
      (l.map Event.DumpMemory ++ [Event.DumpEnd code]) ++ tail) = bracketed false tail := by
  simp [bracketed, bracketed_map_DumpMemory]

/-- Every pass of a loop that returns is a pass run on some machine: no assumption on the
dump routines. -/
theorem dumpLoop_passes_any {β : Type} (H : Hooks β) (g : Globals) (object : Object)
    (fuel : Nat) :
    ∀ (m m' : Machine β) (passes : List (List Event)),
      dumpLoop H g object fuel m = Except.ok (m', passes) →
      ∀ evs ∈ passes, ∃ m0 : Machine β, passEvents (dumpPass H g object m0) = some evs := by
  induction fuel with
  | zero =>
    intro m m' passes h
    simp [dumpLoop] at h
  | succ fuel ih =>
    intro m m' passes h
    unfold dumpLoop at h
    cases hp : dumpPass H g object m with
    | error e => rw [hp] at h; simp at h
    | ok x =>
      obtain ⟨c, r⟩ := x
      rw [hp] at h
      have hhead : passEvents (dumpPass H g object m) = some r.calls := by rw [hp]; rfl
      by_cases hc : c = CRASH_CATCHER_TRY_AGAIN
      · simp only [hc, if_true] at h
        cases hl : dumpLoop H g object fuel r.machine with
        | error e => rw [hl] at h; simp at h
        | ok y =>
          obtain ⟨m2, ps⟩ := y
          rw [hl] at h
          simp only [Except.ok.injEq, Prod.mk.injEq] at h
          obtain ⟨-, hps⟩ := h
          subst hps
          intro evs hevs
          rcases List.mem_cons.1 hevs with he | he
          · subst he
            exact ⟨m, hhead⟩
          · exact ih r.machine m2 ps hl evs he
      · simp only [hc, if_false, Except.ok.injEq, Prod.mk.injEq] at h
        obtain ⟨-, hps⟩ := h
        subst hps
        intro evs hevs
        simp only [List.mem_singleton] at hevs
        subst hevs
        exact ⟨m, hhead⟩

theorem entryEvents_eq_some {β : Type} (H : Hooks β) (g : Globals) (fuel p : Nat)
    (m : Machine β) (passes : List (List Event))
    (hentry : entryEvents (CrashCatcher_Entry H g fuel p m) = some passes) :
    ∃ m', dumpLoop H g (entryObject g m.mem p) fuel m = Except.ok (m', passes) := by
  unfold entryEvents CrashCatcher_Entry at hentry
  split at hentry
  · rename_i m' ps heq
    simp only [Option.some.injEq] at hentry
    subst hentry
    exact ⟨m', heq⟩
  · simp at hentry

/-- The log of a pass as one list: store, start, items, end. -/
theorem pass_events_form {β : Type} (H : Hooks β) (g : Globals) (object : Object)
    (m : Machine β) (evs : List Event)
    (hpass : passEvents (dumpPass H g object m) = some evs) :
    ∃ (l : List DumpMemoryItem) (code : CrashCatcherReturnCodes),
      evs = Event.storeStack0 STACK_SENTINEL :: Event.DumpStart STACK_SENTINEL ::
        (l.map Event.DumpMemory ++ [Event.DumpEnd code]) ∧
      (l.take 7).map DumpMemoryItem.shape =
        [(CRASH_CATCHER_BYTE, 4), (CRASH_CATCHER_BYTE, 16), (CRASH_CATCHER_BYTE, 32),
         (CRASH_CATCHER_BYTE, 4), (CRASH_CATCHER_BYTE, 4), (CRASH_CATCHER_BYTE, 12),
         (CRASH_CATCHER_BYTE, 4)] := by
  obtain ⟨r1, regionItems, later, code, -, -, hevs⟩ := pass_structure H g object m evs hpass
  refine ⟨items (registerRun H object m).calls ++ regionItems ++ later, code, ?_, ?_⟩
  · rw [hevs]
    conv => lhs; rw [registerRun_calls]
    simp
  · rw [List.append_assoc, List.take_append_of_le_length (by rw [registerRun_items_length]),
      List.take_of_length_le (by rw [registerRun_items_length])]
    exact registerRun_shapes H object m

/-- The log of a pass, item by item, when the dump routines leave data memory alone. -/
theorem pass_events_exact {β : Type} (H : Hooks β) (hH : H.KeepsMemory) (g : Globals)
    (object : Object) (m : Machine β) (evs : List Event)
    (hpass : passEvents (dumpPass H g object m) = some evs) :
    ∃ (marker : List DumpMemoryItem) (code : CrashCatcherReturnCodes),
      (marker = [] ∨ marker = [overflowItem]) ∧
      evs = Event.storeStack0 STACK_SENTINEL :: Event.DumpStart STACK_SENTINEL ::
        ((expectedPassItems g m.mem object
            (H.GetMemoryRegions (registerRun H object m).machine) ++ marker).map
          Event.DumpMemory ++ [Event.DumpEnd code]) := by
  obtain ⟨code, r', hok, hcalls⟩ := passEvents_eq_some _ _ hpass
  obtain ⟨r, hr, -, -, hr'⟩ := dumpPass_ok H g object m code r' hok
  obtain ⟨hc, -, -⟩ := dumpBeforeCheck_items H hH g object m r hr
  refine ⟨if r.machine.g_crashCatcherStack0 ≠ STACK_SENTINEL then [overflowItem] else [],
    code, ?_, ?_⟩
  · split <;> simp
  · rw [← hcalls, hr', checkStackSentinelForStackOverflow_calls, hc]
    split <;> simp

/-- C11: in the trace of an invocation that returns, every pass is the store of the
sentinel, then `CrashCatcher_DumpStart`, then only `CrashCatcher_DumpMemory` calls, then
`CrashCatcher_DumpEnd`; so no `CrashCatcher_DumpMemory` call lies outside a session and
sessions do not nest.  When the dump routines leave data memory alone, the items of a
pass are the seven register items, the pairs of the caller's regions in array order, the
fault-status pair unless the CPU ID is a Cortex-M0, and the overflow marker or nothing. -/
theorem C11_trace_shape {β : Type} (H : Hooks β) (g : Globals) (p : Nat) (m : Machine β)
    (fuel : Nat) (passes : List (List Event))
    (hentry : entryEvents (CrashCatcher_Entry H g fuel p m) = some passes) :
    bracketed false passes.flatten = true ∧
    (∀ evs ∈ passes, ∃ (l : List DumpMemoryItem) (code : CrashCatcherReturnCodes),
      evs = Event.storeStack0 STACK_SENTINEL :: Event.DumpStart STACK_SENTINEL ::
        (l.map Event.DumpMemory ++ [Event.DumpEnd code]) ∧
      (l.take 7).map DumpMemoryItem.shape =
        [(CRASH_CATCHER_BYTE, 4), (CRASH_CATCHER_BYTE, 16), (CRASH_CATCHER_BYTE, 32),
         (CRASH_CATCHER_BYTE, 4), (CRASH_CATCHER_BYTE, 4), (CRASH_CATCHER_BYTE, 12),
         (CRASH_CATCHER_BYTE, 4)]) ∧
    (H.KeepsMemory → ∀ evs ∈ passes,
      ∃ (table : Option (List CrashCatcherMemoryRegion)) (marker : List DumpMemoryItem)
        (code : CrashCatcherReturnCodes),
        (∃ m0 : Machine β, table = H.GetMemoryRegions m0) ∧
        (marker = [] ∨ marker = [overflowItem]) ∧
        evs = Event.storeStack0 STACK_SENTINEL :: Event.DumpStart STACK_SENTINEL ::
          ((expectedRegisterItems m.mem (entryObject g m.mem p) ++
            expectedWalkItems g m.mem table ++
            (if isCortexM0Device g m.mem = true then []
             else expectedWalkItems g m.mem (some (faultStatusRegion g))) ++
            marker).map Event.DumpMemory ++ [Event.DumpEnd code])) := by
  obtain ⟨m', hloop⟩ := entryEvents_eq_some H g fuel p m passes hentry
  have hany := dumpLoop_passes_any H g (entryObject g m.mem p) fuel m m' passes hloop
  have hform : ∀ evs ∈ passes, ∃ (l : List DumpMemoryItem) (code : CrashCatcherReturnCodes),
      evs = Event.storeStack0 STACK_SENTINEL :: Event.DumpStart STACK_SENTINEL ::
        (l.map Event.DumpMemory ++ [Event.DumpEnd code]) ∧
      (l.take 7).map DumpMemoryItem.shape =
        [(CRASH_CATCHER_BYTE, 4), (CRASH_CATCHER_BYTE, 16), (CRASH_CATCHER_BYTE, 32),
         (CRASH_CATCHER_BYTE, 4), (CRASH_CATCHER_BYTE, 4), (CRASH_CATCHER_BYTE, 12),
         (CRASH_CATCHER_BYTE, 4)] := by
    intro evs hevs
    obtain ⟨m0, hm0⟩ := hany evs hevs
    exact pass_events_form H g _ m0 evs hm0
  refine ⟨?_, hform, ?_⟩
  · clear hany hloop hentry
    induction passes with
    | nil => rfl
    | cons x ps ih =>
      obtain ⟨l, code, hx, -⟩ := hform x (List.mem_cons_self _ _)
      rw [List.flatten_cons, hx, bracketed_pass]
      exact ih (fun e he => hform e (List.mem_cons_of_mem _ he))
  · intro hM evs hevs
    obtain ⟨m0, hm0, hev⟩ :=
      dumpLoop_passes H hM g (entryObject g m.mem p) fuel m m' passes hloop evs hevs
    obtain ⟨marker, code, hmarker, hexact⟩ := pass_events_exact H hM g _ m0 evs hev
    refine ⟨H.GetMemoryRegions (registerRun H (entryObject g m.mem p) m0).machine, marker,
      code, ⟨_, rfl⟩, hmarker, ?_⟩
    rw [hexact, hm0]
    rfl

/-- Witness of C11: the mocks on the region array of `DumpMultipleRegions` with a
Cortex-M3 CPU ID: one pass of 7 + 6 + 2 items between one start and one end. -/
theorem C11_trace_shape_witness :
    entryEvents (CrashCatcher_Entry mockHooks targetGlobals 1 0x1000 mockRegionsMachine) =
      some mockEntryPasses ∧
    mockHooks.KeepsMemory ∧
    bracketed false mockEntryPasses.flatten = true ∧
    (∀ evs ∈ mockEntryPasses,
      ∃ (table : Option (List CrashCatcherMemoryRegion)) (marker : List DumpMemoryItem)
        (code : CrashCatcherReturnCodes),
        (∃ m0 : Machine DumpMocks, table = mockHooks.GetMemoryRegions m0) ∧
        (marker = [] ∨ marker = [overflowItem]) ∧
        evs = Event.storeStack0 STACK_SENTINEL :: Event.DumpStart STACK_SENTINEL ::
          ((expectedRegisterItems mockRegionsMachine.mem
              (entryObject targetGlobals mockRegionsMachine.mem 0x1000) ++
            expectedWalkItems targetGlobals mockRegionsMachine.mem table ++
            (if isCortexM0Device targetGlobals mockRegionsMachine.mem = true then []
             else expectedWalkItems targetGlobals mockRegionsMachine.mem
               (some (faultStatusRegion targetGlobals))) ++
            marker).map Event.DumpMemory ++ [Event.DumpEnd code])) ∧
    (mockEntryPasses.map fun evs => (items evs).length) = [15] :=
  ⟨by decide, mockHooks_keepsMemory,
    (C11_trace_shape mockHooks targetGlobals 0x1000 mockRegionsMachine 1 mockEntryPasses
      (by decide)).1,
    (C11_trace_shape mockHooks targetGlobals 0x1000 mockRegionsMachine 1 mockEntryPasses
      (by decide)).2.2 mockHooks_keepsMemory,
    by decide⟩

/-! ## Passes without caller regions -/

theorem dumpMemoryRegions_sentinel_first {β : Type} (H : Hooks β) (g : Globals)
    (s : CrashCatcherMemoryRegion) (rest : List CrashCatcherMemoryRegion) (r : Run β)
    (hs : s.startAddress = 0xFFFFFFFF) :
    dumpMemoryRegions H g (some (s :: rest)) r = Except.ok r := by
  simp [dumpMemoryRegions, dumpMemoryRegionsFrom, hs]

/-- The run at the moment of the sentinel check. -/
theorem dumpBeforeCheck_machine {β : Type} (H : Hooks β) (g : Globals) (object : Object)
    (m : Machine β) (r : Run β) (h : dumpBeforeCheck H g object m = Except.ok r) :
    ∃ l : List DumpMemoryItem,
      r.machine = feed H l (H.DumpStart { m with g_crashCatcherStack0 := STACK_SENTINEL }) := by
  obtain ⟨r1, hr1, hfs⟩ := dumpBeforeCheck_ok H g object m r h
  obtain ⟨new, -, hm1⟩ := dumpMemoryRegions_calls H g _ _ r1 hr1
  rw [registerRun_machine, ← feed_append] at hm1
  by_cases hc : isCortexM0Device g r1.machine.mem = true
  · rw [if_pos hc] at hfs
    simp only [Except.ok.injEq] at hfs
    subst hfs
    exact ⟨_, hm1⟩
  · rw [if_neg hc] at hfs
    obtain ⟨fs, -, hm2⟩ := dumpMemoryRegions_calls H g _ _ r hfs
    rw [hm1, ← feed_append] at hm2
    exact ⟨_, hm2⟩

/-- Dump routines that leave the sentinel alone find it intact at the check. -/
theorem dumpBeforeCheck_stack0 {β : Type} (H : Hooks β) (hS : H.KeepsStack0) (g : Globals)
    (object : Object) (m : Machine β) (r : Run β)
    (h : dumpBeforeCheck H g object m = Except.ok r) :
    r.machine.g_crashCatcherStack0 = STACK_SENTINEL := by
  obtain ⟨l, hl⟩ := dumpBeforeCheck_machine H g object m r h
  rw [hl, feed_stack0 H hS, hS.1]

theorem mockHooks_keepsStack0 : mockHooks.KeepsStack0 := ⟨fun _ => rfl, fun _ _ => rfl⟩

theorem entryObject_sp_of_align_clear (g : Globals) (mem : Nat → Nat) (p : Nat)
    (h : (read32 mem (uint32AddressToPointer g (getAddressOfExceptionStack mem p)
      + stacked.psr)).testBit 9 = false) :
    (entryObject g mem p).sp = u32 (getAddressOfExceptionStack mem p + 32) := by
  rw [entryObject_sp, h]
  simp

/-- C12: with the alignment bit clear, a region array that starts with the sentinel, a
Cortex-M0 CPU ID, the sentinel of the dump stack intact at the check and
`CrashCatcher_DumpEnd` not asking for a retry, whichever stack pointer is in use,
`CrashCatcher_Entry` returns after one pass whose log is the store of the sentinel,
one `CrashCatcher_DumpStart`, the seven register items and one `CrashCatcher_DumpEnd`,
and nothing else.  The dump routines are taken not to write to data memory. -/
theorem C12_registers_only_end_to_end {β : Type} (H : Hooks β) (hM : H.KeepsMemory)
    (g : Globals) (p : Nat) (m : Machine β)
    (s : CrashCatcherMemoryRegion) (rest : List CrashCatcherMemoryRegion)
    (hs : s.startAddress = 0xFFFFFFFF ∧ s.endAddress = 0xFFFFFFFF)
    (htable : H.GetMemoryRegions (registerRun H (entryObject g m.mem p) m).machine =
      some (s :: rest))
    (hcpu : read32 m.mem g.g_pCrashCatcherCpuId &&& 0xFFF0 = 0xC200)
    (halign : (read32 m.mem (uint32AddressToPointer g (getAddressOfExceptionStack m.mem p)
      + stacked.psr)).testBit 9 = false)
    (hintact : (registerRun H (entryObject g m.mem p) m).machine.g_crashCatcherStack0 =
      STACK_SENTINEL)
    (hexit : (H.DumpEnd (registerRun H (entryObject g m.mem p) m).machine).1 ≠
      CRASH_CATCHER_TRY_AGAIN)
    (fuel : Nat) (hfuel : 0 < fuel) :
    ∃ (evs : List Event) (code : CrashCatcherReturnCodes),
      entryEvents (CrashCatcher_Entry H g fuel p m) = some [evs] ∧
      evs = Event.storeStack0 STACK_SENTINEL :: Event.DumpStart STACK_SENTINEL ::
        ((expectedRegisterItems m.mem (entryObject g m.mem p)).map Event.DumpMemory ++
          [Event.DumpEnd code]) ∧
      items evs = expectedRegisterItems m.mem (entryObject g m.mem p) ∧
      (items evs).length = 7 ∧
      startCount evs = 1 ∧ endCount evs = 1 ∧
      (entryObject g m.mem p).sp = u32 (getAddressOfExceptionStack m.mem p + 32) := by
  obtain ⟨fuel, rfl⟩ : ∃ f, fuel = f + 1 := ⟨fuel - 1, by omega⟩
  have hbc : dumpBeforeCheck H g (entryObject g m.mem p) m =
      Except.ok (registerRun H (entryObject g m.mem p) m) := by
    have hw := dumpMemoryRegions_sentinel_first H g s rest
      (registerRun H (entryObject g m.mem p) m) hs.1
    have hm0 : isCortexM0Device g (registerRun H (entryObject g m.mem p) m).machine.mem
        = true := by
      rw [registerRun_mem H hM]
      exact (isCortexM0Device_eq g m.mem).2 hcpu
    show (match dumpMemoryRegions H g
        (H.GetMemoryRegions (registerRun H (entryObject g m.mem p) m).machine)
        (registerRun H (entryObject g m.mem p) m) with
      | Except.error e => Except.error e
      | Except.ok r =>
        if ¬ isCortexM0Device g r.machine.mem then dumpFaultStatusRegisters H g r
        else Except.ok r) = _
    rw [htable, hw]
    simp [hm0]
  have hcheck : checkStackSentinelForStackOverflow H (registerRun H (entryObject g m.mem p) m) =
      registerRun H (entryObject g m.mem p) m := by
    unfold checkStackSentinelForStackOverflow
    rw [if_neg (fun h => h hintact)]
  have hpass : dumpPass H g (entryObject g m.mem p) m =
      Except.ok (CrashCatcher_DumpEnd H (registerRun H (entryObject g m.mem p) m)) := by
    unfold dumpPass
    rw [hbc]
    simp only [hcheck]
  have hcalls : (CrashCatcher_DumpEnd H (registerRun H (entryObject g m.mem p) m)).2.calls =
      Event.storeStack0 STACK_SENTINEL :: Event.DumpStart STACK_SENTINEL ::
        ((expectedRegisterItems m.mem (entryObject g m.mem p)).map Event.DumpMemory ++
          [Event.DumpEnd (H.DumpEnd (registerRun H (entryObject g m.mem p) m).machine).1]) := by
    show (registerRun H (entryObject g m.mem p) m).calls ++ _ = _
    rw [registerRun_calls, registerRun_items H hM]
    simp
  refine ⟨_, (H.DumpEnd (registerRun H (entryObject g m.mem p) m).machine).1, ?_, hcalls,
    ?_, ?_, ?_, ?_, entryObject_sp_of_align_clear g m.mem p halign⟩
  · unfold CrashCatcher_Entry dumpLoop
    rw [hpass]
    have hne : (CrashCatcher_DumpEnd H (registerRun H (entryObject g m.mem p) m)).1 ≠
        CRASH_CATCHER_TRY_AGAIN := hexit
    simp [hne, entryEvents]
  · rw [hcalls]; simp
  · rw [hcalls]; simp [expectedRegisterItems]
  · rw [hcalls]; simp
  · rw [hcalls]; simp

/-- Witness of C12: the test `DumpRegistersOnly_PSP_StackAlignmentNotNeeded` with a region
array that is the sentinel alone. -/
theorem C12_registers_only_end_to_end_witness :
    mockHooks.KeepsMemory ∧
    (testSentinel.startAddress = 0xFFFFFFFF ∧ testSentinel.endAddress = 0xFFFFFFFF) ∧
    (∃ (evs : List Event) (code : CrashCatcherReturnCodes),
      entryEvents (CrashCatcher_Entry mockHooks targetGlobals 1 0x1000
        (mockMachine (testMemory 0xFFFFFFFD 0) (some [testSentinel]))) = some [evs] ∧
      evs = Event.storeStack0 STACK_SENTINEL :: Event.DumpStart STACK_SENTINEL ::
        ((expectedRegisterItems (mockMachine (testMemory 0xFFFFFFFD 0) (some [testSentinel])).mem
            (entryObject targetGlobals
              (mockMachine (testMemory 0xFFFFFFFD 0) (some [testSentinel])).mem 0x1000)).map
          Event.DumpMemory ++ [Event.DumpEnd code]) ∧
      items evs = expectedRegisterItems
        (mockMachine (testMemory 0xFFFFFFFD 0) (some [testSentinel])).mem
        (entryObject targetGlobals
          (mockMachine (testMemory 0xFFFFFFFD 0) (some [testSentinel])).mem 0x1000) ∧
      (items evs).length = 7 ∧
      startCount evs = 1 ∧ endCount evs = 1 ∧
      (entryObject targetGlobals
          (mockMachine (testMemory 0xFFFFFFFD 0) (some [testSentinel])).mem 0x1000).sp =
        u32 (getAddressOfExceptionStack
          (mockMachine (testMemory 0xFFFFFFFD 0) (some [testSentinel])).mem 0x1000 + 32)) ∧
    entryEvents (CrashCatcher_Entry mockHooks targetGlobals 1 0x1000
        (mockMachine (testMemory 0xFFFFFFFD 0) (some [testSentinel]))) =
      some mockSentinelOnlyPasses ∧
    (mockSentinelOnlyPasses.map fun evs => (startCount evs, (items evs).length, endCount evs)) =
      [(1, 7, 1)] :=
  ⟨mockHooks_keepsMemory, by decide,
    C12_registers_only_end_to_end mockHooks mockHooks_keepsMemory targetGlobals 0x1000
      (mockMachine (testMemory 0xFFFFFFFD 0) (some [testSentinel])) testSentinel []
      (by decide) (by decide) (by decide) (by decide) (by decide) (by decide) 1 (by decide),
    by decide, by decide⟩

/-- The items of a pass, with the run at the moment of the sentinel check made explicit,
when the dump routines leave data memory alone. -/
theorem pass_items_with_run {β : Type} (H : Hooks β) (hH : H.KeepsMemory) (g : Globals)
    (object : Object) (m : Machine β) (evs : List Event)
    (hpass : passEvents (dumpPass H g object m) = some evs) :
    ∃ r : Run β, dumpBeforeCheck H g object m = Except.ok r ∧
      items evs = expectedPassItems g m.mem object
          (H.GetMemoryRegions (registerRun H object m).machine) ++
        (if r.machine.g_crashCatcherStack0 ≠ STACK_SENTINEL then [overflowItem] else []) := by
  obtain ⟨code, r', hok, hcalls⟩ := passEvents_eq_some _ _ hpass
  obtain ⟨r, hr, -, -, hr'⟩ := dumpPass_ok H g object m code r' hok
  obtain ⟨hc, -, -⟩ := dumpBeforeCheck_items H hH g object m r hr
  refine ⟨r, hr, ?_⟩
  rw [← hcalls, hr', checkStackSentinelForStackOverflow_calls, hc]
  split <;> simp

theorem expectedWalkItems_sentinel_first (g : Globals) (mem : Nat → Nat)
    (s : CrashCatcherMemoryRegion) (rest : List CrashCatcherMemoryRegion)
    (hs : s.startAddress = 0xFFFFFFFF) :
    expectedWalkItems g mem (some (s :: rest)) = [] := by
  simp [expectedWalkItems, walked, hs]

/-- Counterexample to C13 as stated: with the sentinel alone as region array, the
sentinel of the dump stack intact and a Cortex-M3 CPU ID, a pass has nine items, the
seven register items and the two items of the fault-status pair, not eight. -/
theorem C13_counterexample :
    passEvents (dumpPass mockHooks targetGlobals
        (entryObject targetGlobals cortexM3Memory 0x1000)
        (mockMachine cortexM3Memory (some [testSentinel]))) =
      some (mockPassEvents cortexM3Memory (some [testSentinel])) ∧
    isCortexM0Device targetGlobals cortexM3Memory = false ∧
    (items (mockPassEvents cortexM3Memory (some [testSentinel]))).length = 9 ∧
    (items (mockPassEvents cortexM3Memory (some [testSentinel]))).length ≠ 8 ∧
    ((items (mockPassEvents cortexM3Memory (some [testSentinel]))).drop 7).map
        DumpMemoryItem.shape = [(CRASH_CATCHER_BYTE, 8), (CRASH_CATCHER_WORD, 5)] := by
  decide

/-- C13, amended: with a region array that starts with the sentinel and the sentinel of
the dump stack intact at the check, a pass has 7 items when the CPU ID has the Cortex-M0
part number and 9 items otherwise: the fault status registers come as a pair, descriptor
and payload.  The dump routines are taken not to write to data memory, and the
fault-status base address, as a 32-bit value, to differ from `0xFFFFFFFF`. -/
theorem C13_baseline_element_count {β : Type} (H : Hooks β) (hM : H.KeepsMemory) (g : Globals)
    (hbase : u32 g.g_pCrashCatcherFaultStatusRegisters ≠ 0xFFFFFFFF)
    (p : Nat) (m : Machine β) (evs : List Event)
    (s : CrashCatcherMemoryRegion) (rest : List CrashCatcherMemoryRegion)
    (hs : s.startAddress = 0xFFFFFFFF ∧ s.endAddress = 0xFFFFFFFF)
    (htable : H.GetMemoryRegions (registerRun H (entryObject g m.mem p) m).machine =
      some (s :: rest))
    (hintact : ∀ r : Run β, dumpBeforeCheck H g (entryObject g m.mem p) m = Except.ok r →
      r.machine.g_crashCatcherStack0 = STACK_SENTINEL)
    (hpass : passEvents (dumpPass H g (entryObject g m.mem p) m) = some evs) :
    (read32 m.mem g.g_pCrashCatcherCpuId &&& 0xFFF0 = 0xC200 → (items evs).length = 7) ∧
    (read32 m.mem g.g_pCrashCatcherCpuId &&& 0xFFF0 ≠ 0xC200 → (items evs).length = 9) := by
  obtain ⟨r, hr, hitems⟩ := pass_items_with_run H hM g _ m evs hpass
  have hsent := hintact r hr
  rw [if_neg (fun h => h hsent), List.append_nil, htable, expectedPassItems,
    expectedWalkItems_sentinel_first g m.mem s rest hs.1,
    expectedWalkItems_faultStatusRegion g m.mem hbase] at hitems
  constructor
  · intro hcpu
    rw [hitems, if_pos ((isCortexM0Device_eq g m.mem).2 hcpu)]
    simp [expectedRegisterItems]
  · intro hcpu
    rw [hitems, if_neg (fun h => hcpu ((isCortexM0Device_eq g m.mem).1 h))]
    simp [expectedRegisterItems]

/-- Witness of C13: the mocks with the sentinel alone as region array, once with the
Cortex-M0 CPU ID of the test fixture and once with a Cortex-M3 CPU ID. -/
theorem C13_baseline_element_count_witness :
    mockHooks.KeepsMemory ∧
    u32 targetGlobals.g_pCrashCatcherFaultStatusRegisters ≠ 0xFFFFFFFF ∧
    (testSentinel.startAddress = 0xFFFFFFFF ∧ testSentinel.endAddress = 0xFFFFFFFF) ∧
    read32 (testMemory 0xFFFFFFF1 0) targetGlobals.g_pCrashCatcherCpuId &&& 0xFFF0 = 0xC200 ∧
    (items (mockPassEvents (testMemory 0xFFFFFFF1 0) (some [testSentinel]))).length = 7 ∧
    read32 cortexM3Memory targetGlobals.g_pCrashCatcherCpuId &&& 0xFFF0 ≠ 0xC200 ∧
    (items (mockPassEvents cortexM3Memory (some [testSentinel]))).length = 9 :=
  ⟨mockHooks_keepsMemory, by decide, by decide, by decide,
    (C13_baseline_element_count mockHooks mockHooks_keepsMemory targetGlobals (by decide) 0x1000
      (mockMachine (testMemory 0xFFFFFFF1 0) (some [testSentinel]))
      (mockPassEvents (testMemory 0xFFFFFFF1 0) (some [testSentinel])) testSentinel []
      (by decide) (by decide)
      (fun r hr => dumpBeforeCheck_stack0 mockHooks mockHooks_keepsStack0 _ _ _ r hr)
      (by decide)).1 (by decide),
    by decide,
    (C13_baseline_element_count mockHooks mockHooks_keepsMemory targetGlobals (by decide) 0x1000
      (mockMachine cortexM3Memory (some [testSentinel]))
      (mockPassEvents cortexM3Memory (some [testSentinel])) testSentinel []
      (by decide) (by decide)
      (fun r hr => dumpBeforeCheck_stack0 mockHooks mockHooks_keepsStack0 _ _ _ r hr)
      (by decide)).2 (by decide)⟩

/-! ## The fault status registers as one more region -/

theorem walked_append (rs l : List CrashCatcherMemoryRegion)
    (hrs : ∀ x ∈ rs, x.startAddress ≠ 0xFFFFFFFF) : walked (rs ++ l) = rs ++ walked l := by
  induction rs with
  | nil => rfl
  | cons x rs ih =>
    have hx : x.startAddress ≠ 0xFFFFFFFF := hrs x (List.mem_cons_self _ _)
    have ih' := ih (fun y hy => hrs y (List.mem_cons_of_mem _ hy))
    unfold walked at ih' ⊢
    rw [List.cons_append, List.takeWhile_cons_of_pos (by simpa using hx), ih']
    rfl

theorem walked_sentinel_first (s : CrashCatcherMemoryRegion)
    (rest : List CrashCatcherMemoryRegion) (hs : s.startAddress = 0xFFFFFFFF) :
    walked (s :: rest) = [] := by
  simp [walked, hs]

/-- A walk over an array that holds an entry with start address `0xFFFFFFFF` comes to an
end, whatever the dump routines do. -/
theorem dumpMemoryRegions_ok_of_sentinel {β : Type} (H : Hooks β) (g : Globals)
    (rs : List CrashCatcherMemoryRegion) (s : CrashCatcherMemoryRegion)
    (rest : List CrashCatcherMemoryRegion) (r : Run β)
    (hrs : ∀ x ∈ rs, x.startAddress ≠ 0xFFFFFFFF) (hs : s.startAddress = 0xFFFFFFFF) :
    ∃ r' : Run β, dumpMemoryRegions H g (some (rs ++ s :: rest)) r = Except.ok r' := by
  obtain ⟨r', -, hok, -⟩ := dumpMemoryRegionsFrom_shapes H g rs s rest r hrs hs
  exact ⟨r', hok⟩

theorem dumpFaultStatusRegisters_ok {β : Type} (H : Hooks β) (g : Globals) (r : Run β) :
    ∃ r' : Run β, dumpFaultStatusRegisters H g r = Except.ok r' := by
  unfold dumpFaultStatusRegisters faultStatusRegion
  by_cases hb : u32 g.g_pCrashCatcherFaultStatusRegisters = 0xFFFFFFFF
  · exact dumpMemoryRegions_ok_of_sentinel H g [] _ _ r (by simp) hb
  · exact dumpMemoryRegions_ok_of_sentinel H g [_] _ [] r (by simpa using hb) rfl

/-- The part of a pass before the sentinel check comes to an end when the region array
holds an entry with start address `0xFFFFFFFF`. -/
theorem dumpBeforeCheck_ok_of_sentinel {β : Type} (H : Hooks β) (g : Globals)
    (object : Object) (m : Machine β)
    (rs : List CrashCatcherMemoryRegion) (s : CrashCatcherMemoryRegion)
    (rest : List CrashCatcherMemoryRegion)
    (hrs : ∀ x ∈ rs, x.startAddress ≠ 0xFFFFFFFF) (hs : s.startAddress = 0xFFFFFFFF)
    (htable : H.GetMemoryRegions (registerRun H object m).machine = some (rs ++ s :: rest)) :
    ∃ r : Run β, dumpBeforeCheck H g object m = Except.ok r := by
  obtain ⟨r1, hr1⟩ := dumpMemoryRegions_ok_of_sentinel H g rs s rest
    (registerRun H object m) hrs hs
  show ∃ r, (match dumpMemoryRegions H g
        (H.GetMemoryRegions (registerRun H object m).machine) (registerRun H object m) with
      | Except.error e => Except.error e
      | Except.ok r =>
        if ¬ isCortexM0Device g r.machine.mem then dumpFaultStatusRegisters H g r
        else Except.ok r) = Except.ok r
  rw [htable, hr1]
  by_cases hc : isCortexM0Device g r1.machine.mem = true
  · exact ⟨r1, by simp [hc]⟩
  · obtain ⟨r2, hr2⟩ := dumpFaultStatusRegisters_ok H g r1
    exact ⟨r2, by simp [hc, hr2]⟩

theorem dumpPass_of_dumpBeforeCheck {β : Type} (H : Hooks β) (g : Globals) (object : Object)
    (m : Machine β) (r : Run β) (h : dumpBeforeCheck H g object m = Except.ok r) :
    dumpPass H g object m =
      Except.ok (CrashCatcher_DumpEnd H (checkStackSentinelForStackOverflow H r)) := by
  unfold dumpPass
  rw [h]

theorem feed_congr {β : Type} (H H' : Hooks β) (h : H'.DumpMemory = H.DumpMemory)
    (l : List DumpMemoryItem) (m : Machine β) : feed H' l m = feed H l m := by
  induction l generalizing m with
  | nil => rfl
  | cons x l ih => simp [ih, h]

theorem Run.eq_of {β : Type} (r r' : Run β) (hc : r.calls = r'.calls)
    (hm : r.machine = r'.machine) : r = r' := by
  cases r
  cases r'
  simp only at hc hm
  rw [hc, hm]

/-- C14: the fault status registers go through the same path as a caller's region.  For
a CPU ID that is not a Cortex-M0 and caller regions `R` (entries with start address other
than `0xFFFFFFFF`, followed by the sentinel), the events of a pass are those of a pass
with the same dump routines and memory in which the CPU ID read is a Cortex-M0 one and
the region array is `R`, then the region `{base, base + 20, WORD}` of the fault status
registers, then the sentinel.  The dump routines are taken not to write to data memory;
the second pass reads its CPU ID at another place `q` of the same memory. -/
theorem C14_fault_status_same_path {β : Type} (H : Hooks β) (hM : H.KeepsMemory) (g : Globals)
    (q p : Nat) (m : Machine β)
    (R : List CrashCatcherMemoryRegion) (s : CrashCatcherMemoryRegion)
    (rest : List CrashCatcherMemoryRegion)
    (hR : ∀ x ∈ R, x.startAddress ≠ 0xFFFFFFFF) (hs : s.startAddress = 0xFFFFFFFF)
    (htable : H.GetMemoryRegions (registerRun H (entryObject g m.mem p) m).machine =
      some (R ++ s :: rest))
    (hcpu : read32 m.mem g.g_pCrashCatcherCpuId &&& 0xFFF0 ≠ 0xC200)
    (hcpu' : read32 m.mem q &&& 0xFFF0 = 0xC200) :
    ∃ evs : List Event,
      passEvents (dumpPass H g (entryObject g m.mem p) m) = some evs ∧
      passEvents (dumpPass
        { H with GetMemoryRegions := fun _ => some (R ++
            { startAddress := u32 g.g_pCrashCatcherFaultStatusRegisters
              endAddress := u32 (u32 g.g_pCrashCatcherFaultStatusRegisters + 20)
              elementSize := CRASH_CATCHER_WORD } :: s :: rest) }
        { g with g_pCrashCatcherCpuId := q }
        (entryObject { g with g_pCrashCatcherCpuId := q } m.mem p) m) = some evs := by
  generalize hf : ({ startAddress := u32 g.g_pCrashCatcherFaultStatusRegisters
                     endAddress := u32 (u32 g.g_pCrashCatcherFaultStatusRegisters + 20)
                     elementSize := CRASH_CATCHER_WORD } : CrashCatcherMemoryRegion) = f
  generalize hH' : ({ H with GetMemoryRegions := fun _ => some (R ++ f :: s :: rest) } :
    Hooks β) = H'
  generalize hg' : ({ g with g_pCrashCatcherCpuId := q } : Globals) = g'
  have hobj : entryObject g' m.mem p = entryObject g m.mem p := by subst hg'; rfl
  rw [hobj]
  generalize entryObject g m.mem p = object at htable ⊢
  have hM' : H'.KeepsMemory := by subst hH'; exact hM
  have hreg : registerRun H' object m = registerRun H object m := by subst hH'; rfl
  have htable' : H'.GetMemoryRegions (registerRun H' object m).machine =
      some (R ++ f :: s :: rest) := by subst hH'; rfl
  have hm0 : isCortexM0Device g m.mem = false := by
    cases h : isCortexM0Device g m.mem
    · rfl
    · exact absurd ((isCortexM0Device_eq g m.mem).1 h) hcpu
  have hm0' : isCortexM0Device g' m.mem = true := by
    subst hg'
    exact (isCortexM0Device_eq _ m.mem).2 hcpu'
  -- both passes come to the sentinel check
  obtain ⟨r, hr⟩ := dumpBeforeCheck_ok_of_sentinel H g object m R s rest hR hs htable
  have hex' : ∃ r', dumpBeforeCheck H' g' object m = Except.ok r' := by
    by_cases hfs : f.startAddress = 0xFFFFFFFF
    · exact dumpBeforeCheck_ok_of_sentinel H' g' object m R f (s :: rest) hR hfs htable'
    · refine dumpBeforeCheck_ok_of_sentinel H' g' object m (R ++ [f]) s rest ?_ hs ?_
      · intro x hx
        rcases List.mem_append.1 hx with h | h
        · exact hR x h
        · simp only [List.mem_singleton] at h
          subst h
          exact hfs
      · rw [htable']
        simp
  obtain ⟨r', hr'⟩ := hex'
  -- and reach it with the same log and the same machine
  obtain ⟨hc, hmach, -⟩ := dumpBeforeCheck_items H hM g object m r hr
  obtain ⟨hc', hmach', -⟩ := dumpBeforeCheck_items H' hM' g' object m r' hr'
  have hitems : expectedPassItems g' m.mem object
        (H'.GetMemoryRegions (registerRun H' object m).machine) =
      expectedPassItems g m.mem object
        (H.GetMemoryRegions (registerRun H object m).machine) := by
    rw [htable, htable']
    have hw : walked (faultStatusRegion g) = walked (f :: s :: rest) := by
      subst hf
      by_cases hfs : u32 g.g_pCrashCatcherFaultStatusRegisters = 0xFFFFFFFF
      · simp [walked, faultStatusRegion, hfs]
      · simp [walked, faultStatusRegion, hfs, hs]
    have hreg' : expectedRegionItems g' m.mem = expectedRegionItems g m.mem := by
      subst hg'; rfl
    simp only [expectedPassItems, hm0, hm0', expectedWalkItems, walked_append _ _ hR,
      walked_sentinel_first s rest hs, hw, hreg', List.map_append, List.flatten_append,
      List.append_nil, List.append_assoc, if_true, Bool.false_eq_true, if_false]
  have hrun : r' = r := by
    apply Run.eq_of
    · rw [hc', hc, hitems]
    · rw [hmach', hmach, hitems]
      have hd : H'.DumpStart = H.DumpStart := by subst hH'; rfl
      rw [hd]
      exact feed_congr H H' (by subst hH'; rfl) _ _
  subst hrun
  refine ⟨(CrashCatcher_DumpEnd H (checkStackSentinelForStackOverflow H r')).2.calls, ?_, ?_⟩
  · rw [dumpPass_of_dumpBeforeCheck H g object m r' hr]
    rfl
  · rw [dumpPass_of_dumpBeforeCheck H' g' object m r' hr']
    subst hH'
    rfl

/-- Witness of C14: the mocks on the test fixture and the regions of
`DumpMultipleRegions`; the CPU ID is read at `0x20000300` (no Cortex-M0) in the first
pass and at `0xE000ED00` (Cortex-M0) in the second, which has the fault status registers
as fourth region. -/
theorem C14_fault_status_same_path_witness :
    mockHooks.KeepsMemory ∧
    (∀ x ∈ testRegions, x.startAddress ≠ 0xFFFFFFFF) ∧
    testSentinel.startAddress = 0xFFFFFFFF ∧
    read32 (testMemory 0xFFFFFFF1 0) altCpuGlobals.g_pCrashCatcherCpuId &&& 0xFFF0 ≠ 0xC200 ∧
    read32 (testMemory 0xFFFFFFF1 0) 0xE000ED00 &&& 0xFFF0 = 0xC200 ∧
    (∃ evs : List Event,
      passEvents (dumpPass mockHooks altCpuGlobals
        (entryObject altCpuGlobals
          (mockMachine (testMemory 0xFFFFFFF1 0) (some (testRegions ++ [testSentinel]))).mem
          0x1000)
        (mockMachine (testMemory 0xFFFFFFF1 0) (some (testRegions ++ [testSentinel])))) =
          some evs ∧
      passEvents (dumpPass
        { mockHooks with GetMemoryRegions := fun _ => some (testRegions ++
            { startAddress := u32 altCpuGlobals.g_pCrashCatcherFaultStatusRegisters
              endAddress := u32 (u32 altCpuGlobals.g_pCrashCatcherFaultStatusRegisters + 20)
              elementSize := CRASH_CATCHER_WORD } :: testSentinel :: []) }
        { altCpuGlobals with g_pCrashCatcherCpuId := 0xE000ED00 }
        (entryObject { altCpuGlobals with g_pCrashCatcherCpuId := 0xE000ED00 }
          (mockMachine (testMemory 0xFFFFFFF1 0) (some (testRegions ++ [testSentinel]))).mem
          0x1000)
        (mockMachine (testMemory 0xFFFFFFF1 0) (some (testRegions ++ [testSentinel])))) =
          some evs) ∧
    mockFaultStatusEvents = mockExtraRegionEvents ∧
    (items mockFaultStatusEvents).length = 15 :=
  ⟨mockHooks_keepsMemory, by decide, by decide, by decide, by decide,
    C14_fault_status_same_path mockHooks mockHooks_keepsMemory altCpuGlobals 0xE000ED00 0x1000
      (mockMachine (testMemory 0xFFFFFFF1 0) (some (testRegions ++ [testSentinel])))
      testRegions testSentinel [] (by decide) (by decide) (by decide) (by decide) (by decide),
    by decide, by decide⟩

/-! ## Claims on the sentinel and on single descriptors -/

/-- Counterexample to C15 as stated: the first entry has start `0xFFFFFFFF` and end
`0x20000301`; the walk stops there and hands over nothing, neither for this entry nor for
the region of one byte that follows it. -/
theorem C15_counterexample :
    (oddSentinelRegions.map fun x => (x.startAddress, x.endAddress)) =
      [(0xFFFFFFFF, 0x20000301), (0x20000300, 0x20000301), (0xFFFFFFFF, 0xFFFFFFFF)] ∧
    walkItems (dumpMemoryRegions mockHooks targetGlobals (some oddSentinelRegions)
      (mockRun (testMemory 0xFFFFFFF1 0))) = some [] ∧
    walkItems (dumpMemoryRegions mockHooks targetGlobals (some oddSentinelRegions.tail)
      (mockRun (testMemory 0xFFFFFFF1 0))) =
        some [ { pvMemory := [0x00, 0x03, 0x00, 0x20, 0x01, 0x03, 0x00, 0x20]
                 elementSize := CRASH_CATCHER_BYTE, elementCount := 8 },
               { pvMemory := [0], elementSize := CRASH_CATCHER_BYTE, elementCount := 1 } ] := by
  decide

/-- C15, amended: the walk stops at the first entry whose start address is `0xFFFFFFFF`,
whatever its end address: the result is the one for the same entries followed by the
`{0xFFFFFFFF, 0xFFFFFFFF}` sentinel alone, so nothing is handed over for that entry or
for what follows it; every entry before it, also one whose end address is `0xFFFFFFFF`,
gives its two items. -/
theorem C15_walk_stops_at_start_address {β : Type} (H : Hooks β) (g : Globals)
    (rs : List CrashCatcherMemoryRegion) (s : CrashCatcherMemoryRegion)
    (rest : List CrashCatcherMemoryRegion) (r : Run β)
    (hrs : ∀ x ∈ rs, x.startAddress ≠ 0xFFFFFFFF) (hs : s.startAddress = 0xFFFFFFFF) :
    dumpMemoryRegions H g (some (rs ++ s :: rest)) r =
      dumpMemoryRegions H g (some (rs ++
        [{ startAddress := 0xFFFFFFFF, endAddress := 0xFFFFFFFF,
           elementSize := CRASH_CATCHER_BYTE }])) r ∧
    ∃ (r' : Run β) (new : List DumpMemoryItem),
      dumpMemoryRegions H g (some (rs ++ s :: rest)) r = Except.ok r' ∧
      r'.calls = r.calls ++ new.map Event.DumpMemory ∧
      new.length = 2 * rs.length := by
  constructor
  · have hgen : ∀ (r : Run β),
        dumpMemoryRegionsFrom H g (rs ++ s :: rest) r =
          dumpMemoryRegionsFrom H g (rs ++
            [{ startAddress := 0xFFFFFFFF, endAddress := 0xFFFFFFFF,
               elementSize := CRASH_CATCHER_BYTE }]) r := by
      induction rs with
      | nil =>
        intro r
        simp [dumpMemoryRegionsFrom, hs]
      | cons x rs ih =>
        intro r
        have hx : x.startAddress ≠ 0xFFFFFFFF := hrs x (List.mem_cons_self _ _)
        rw [List.cons_append, List.cons_append, dumpMemoryRegionsFrom, dumpMemoryRegionsFrom,
          if_pos hx, if_pos hx]
        exact ih (fun y hy => hrs y (List.mem_cons_of_mem _ hy)) _
    exact hgen r
  · obtain ⟨r', new, hok, hc, -, hshape⟩ := dumpMemoryRegionsFrom_shapes H g rs s rest r hrs hs
    refine ⟨r', new, hok, hc, ?_⟩
    have h := congrArg List.length hshape
    rw [List.length_map, length_flatten_pairs] at h
    exact h

/-- Witness of C15: the region of one byte before an entry with start `0xFFFFFFFF` and
end `0x20000301`. -/
theorem C15_walk_stops_at_start_address_witness :
    (∀ x ∈ [oddSentinelRegions.get ⟨1, by decide⟩], x.startAddress ≠ 0xFFFFFFFF) ∧
    (oddSentinelRegions.get ⟨0, by decide⟩).startAddress = 0xFFFFFFFF ∧
    dumpMemoryRegions mockHooks targetGlobals
        (some ([oddSentinelRegions.get ⟨1, by decide⟩] ++
          oddSentinelRegions.get ⟨0, by decide⟩ :: testRegions))
        (mockRun (testMemory 0xFFFFFFF1 0)) =
      dumpMemoryRegions mockHooks targetGlobals
        (some ([oddSentinelRegions.get ⟨1, by decide⟩] ++
          [{ startAddress := 0xFFFFFFFF, endAddress := 0xFFFFFFFF,
             elementSize := CRASH_CATCHER_BYTE }]))
        (mockRun (testMemory 0xFFFFFFF1 0)) ∧
    (walkItems (dumpMemoryRegions mockHooks targetGlobals
        (some ([oddSentinelRegions.get ⟨1, by decide⟩] ++
          oddSentinelRegions.get ⟨0, by decide⟩ :: testRegions))
        (mockRun (testMemory 0xFFFFFFF1 0)))).map List.length = some 2 :=
  ⟨by decide, by decide,
    (C15_walk_stops_at_start_address mockHooks targetGlobals
      [oddSentinelRegions.get ⟨1, by decide⟩] (oddSentinelRegions.get ⟨0, by decide⟩)
      testRegions (mockRun (testMemory 0xFFFFFFF1 0)) (by decide) (by decide)).1,
    by decide⟩

/-- Counterexample to C16 as stated: given the sentinel as descriptor, the walk hands
over nothing at all, no descriptor item either. -/
theorem C16_counterexample :
    walkItems (dumpMemoryRegions mockHooks targetGlobals (some [testSentinel])
      (mockRun (testMemory 0xFFFFFFF1 0))) = some [] ∧
    (walkItems (dumpMemoryRegions mockHooks targetGlobals (some [testSentinel])
      (mockRun (testMemory 0xFFFFFFF1 0)))).map List.length ≠ some 1 := by
  decide

/-- C16, amended: given one descriptor, the walk hands over nothing when its start
address is `0xFFFFFFFF` (the sentinel), and otherwise exactly two items: the descriptor
item, 8 bytes holding start and end address, and one content item with the element size
of the region and count `(end - start) / elementSize`. -/
theorem C16_one_descriptor {β : Type} (H : Hooks β) (g : Globals)
    (x : CrashCatcherMemoryRegion) (rest : List CrashCatcherMemoryRegion) (r : Run β) :
    (x.startAddress = 0xFFFFFFFF →
      dumpMemoryRegions H g (some (x :: rest)) r = Except.ok r) ∧
    (x.startAddress ≠ 0xFFFFFFFF →
      ∃ content : DumpMemoryItem,
        dumpMemoryRegions H g (some (x :: rest)) r =
          dumpMemoryRegions H g (some rest)
            { machine := H.DumpMemory content
                (H.DumpMemory
                  { pvMemory := wordBytes x.startAddress ++ wordBytes x.endAddress
                    elementSize := CRASH_CATCHER_BYTE, elementCount := 8 } r.machine)
              calls := r.calls ++
                [ Event.DumpMemory
                    { pvMemory := wordBytes x.startAddress ++ wordBytes x.endAddress
                      elementSize := CRASH_CATCHER_BYTE, elementCount := 8 },
                  Event.DumpMemory content ] } ∧
        content.elementSize = x.elementSize ∧
        content.elementCount = sub32 x.endAddress x.startAddress / x.elementSize.toNat ∧
        content.pvMemory.length = content.elementSize.toNat * content.elementCount) := by
  constructor
  · intro hx
    exact dumpMemoryRegions_sentinel_first H g x rest r hx
  · intro hx
    refine ⟨{ pvMemory := readBytes
                (H.DumpMemory
                  { pvMemory := wordBytes x.startAddress ++ wordBytes x.endAddress
                    elementSize := CRASH_CATCHER_BYTE, elementCount := 8 } r.machine).mem
                (uint32AddressToPointer g x.startAddress)
                (x.elementSize.toNat *
                  (sub32 x.endAddress x.startAddress / x.elementSize.toNat))
              elementSize := x.elementSize
              elementCount := sub32 x.endAddress x.startAddress / x.elementSize.toNat },
      ?_, rfl, rfl, ?_⟩
    · show dumpMemoryRegionsFrom H g (x :: rest) r = dumpMemoryRegionsFrom H g rest _
      rw [dumpMemoryRegionsFrom, if_pos hx]
      dsimp only
      congr 1
      apply Run.eq_of
      · simp [descriptor_bytes_eight]
      · simp [descriptor_bytes_eight]
    · simp [readBytes_length]

/-- Witness of C16: the sentinel, and the first region of `DumpMultipleRegions`. -/
theorem C16_one_descriptor_witness :
    testSentinel.startAddress = 0xFFFFFFFF ∧
    dumpMemoryRegions mockHooks targetGlobals (some (testSentinel :: testRegions))
      (mockRun (testMemory 0xFFFFFFF1 0)) = Except.ok (mockRun (testMemory 0xFFFFFFF1 0)) ∧
    (doubleByteRegions.get ⟨0, by decide⟩).startAddress ≠ 0xFFFFFFFF ∧
    walkItems (dumpMemoryRegions mockHooks targetGlobals (some doubleByteRegions)
      (mockRun (testMemory 0xFFFFFFF1 0))) =
        some [ { pvMemory := [0x00, 0x03, 0x00, 0x20, 0x02, 0x03, 0x00, 0x20]
                 elementSize := CRASH_CATCHER_BYTE, elementCount := 8 },
               { pvMemory := [0, 1], elementSize := CRASH_CATCHER_BYTE, elementCount := 2 } ] :=
  ⟨by decide,
    (C16_one_descriptor mockHooks targetGlobals testSentinel testRegions
      (mockRun (testMemory 0xFFFFFFF1 0))).1 (by decide),
    by decide,
    match (C16_one_descriptor mockHooks targetGlobals (doubleByteRegions.get ⟨0, by decide⟩)
      [testSentinel] (mockRun (testMemory 0xFFFFFFF1 0))).2 (by decide) with
    | ⟨_, _, _, _, _⟩ => by decide⟩

/-- Counterexample to C17 as stated: in the test `DumpOneDoubleByteRegion` the item that
follows the seven register items has element size BYTE and count 8, whereas the region
descriptor structure takes 12 bytes; the item holds the two addresses only. -/
theorem C17_counterexample :
    passEvents (dumpPass mockHooks targetGlobals
        (entryObject targetGlobals (testMemory 0xFFFFFFF1 0) 0x1000)
        (mockMachine (testMemory 0xFFFFFFF1 0) (some doubleByteRegions))) =
      some (mockPassEvents (testMemory 0xFFFFFFF1 0) (some doubleByteRegions)) ∧
    (items (mockPassEvents (testMemory 0xFFFFFFF1 0) (some doubleByteRegions)))[7]? =
      some { pvMemory := [0x00, 0x03, 0x00, 0x20, 0x02, 0x03, 0x00, 0x20]
             elementSize := CRASH_CATCHER_BYTE, elementCount := 8 } ∧
    (doubleByteRegions.map fun x => x.bytes.length) = [12, 12] ∧
    ((items (mockPassEvents (testMemory 0xFFFFFFF1 0) (some doubleByteRegions)))[7]?).map
        DumpMemoryItem.elementCount ≠
      (doubleByteRegions[0]?).map fun x => x.bytes.length := by
  decide

/-- In a walk over `rs ++ s :: rest`, where `s` is the first entry with start address
`0xFFFFFFFF`, the item at position `2 * i` is the descriptor item of entry `i` of `rs`:
8 bytes, the start and the end address.  No assumption on the dump routines. -/
theorem dumpMemoryRegionsFrom_descriptors {β : Type} (H : Hooks β) (g : Globals)
    (rs : List CrashCatcherMemoryRegion) (s : CrashCatcherMemoryRegion)
    (rest : List CrashCatcherMemoryRegion) (r : Run β)
    (hrs : ∀ x ∈ rs, x.startAddress ≠ 0xFFFFFFFF) (hs : s.startAddress = 0xFFFFFFFF) :
    ∃ (r' : Run β) (new : List DumpMemoryItem),
      dumpMemoryRegionsFrom H g (rs ++ s :: rest) r = Except.ok r' ∧
      r'.calls = r.calls ++ new.map Event.DumpMemory ∧
      new.length = 2 * rs.length ∧
      ∀ (i : Nat) (x : CrashCatcherMemoryRegion), rs[i]? = some x →
        new[2 * i]? =
          some { pvMemory := wordBytes x.startAddress ++ wordBytes x.endAddress
                 elementSize := CRASH_CATCHER_BYTE, elementCount := 8 } := by
  induction rs generalizing r with
  | nil =>
    refine ⟨r, [], ?_, by simp, rfl, ?_⟩
    · simp [dumpMemoryRegionsFrom, hs]
    · intro i x hix
      simp at hix
  | cons y rs ih =>
    have hy : y.startAddress ≠ 0xFFFFFFFF := hrs y (List.mem_cons_self _ _)
    obtain ⟨r', new, hok, hc, hlen, hdesc⟩ :=
      ih (CrashCatcher_DumpMemory H
            (Pointer.address (uint32AddressToPointer g y.startAddress)) y.elementSize
            (sub32 y.endAddress y.startAddress / y.elementSize.toNat)
            (CrashCatcher_DumpMemory H (Pointer.object y.bytes) CRASH_CATCHER_BYTE (2 * 4) r))
        (fun z hz => hrs z (List.mem_cons_of_mem _ hz))
    refine ⟨r', (items (CrashCatcher_DumpMemory H
            (Pointer.address (uint32AddressToPointer g y.startAddress)) y.elementSize
            (sub32 y.endAddress y.startAddress / y.elementSize.toNat)
            (CrashCatcher_DumpMemory H (Pointer.object y.bytes) CRASH_CATCHER_BYTE (2 * 4)
              { machine := r.machine, calls := [] })).calls) ++ new, ?_, ?_, ?_, ?_⟩
    · rw [List.cons_append, dumpMemoryRegionsFrom, if_pos hy]
      exact hok
    · rw [hc]
      simp
    · simp [hlen]
      omega
    · intro i x hix
      cases i with
      | zero =>
        simp only [List.getElem?_cons_zero, Option.some.injEq] at hix
        subst hix
        simp [descriptor_bytes_eight]
      | succ i =>
        simp only [List.getElem?_cons_succ] at hix
        have h := hdesc i x hix
        have h2 : 2 * (i + 1) = 2 * i + 1 + 1 := by omega
        rw [h2]
        simpa using h

/-- C17, amended: for every caller region, the descriptor item handed to
`CrashCatcher_DumpMemory` has element size BYTE and element count 8: it holds the start
and the end address, the first 8 of the 12 bytes of the region descriptor structure, and
not the `elementSize` field.  The caller regions are the entries `rs` before the first
entry `s` with start address `0xFFFFFFFF`; the descriptor item of entry `i` is item
`7 + 2 * i` of the pass (items 7, 9, 11, ...).  Nothing is assumed about the dump
routines. -/
theorem C17_descriptor_is_two_addresses {β : Type} (H : Hooks β) (g : Globals) (p : Nat)
    (m : Machine β) (evs : List Event)
    (rs : List CrashCatcherMemoryRegion) (s : CrashCatcherMemoryRegion)
    (rest : List CrashCatcherMemoryRegion)
    (hrs : ∀ x ∈ rs, x.startAddress ≠ 0xFFFFFFFF) (hs : s.startAddress = 0xFFFFFFFF)
    (htable : H.GetMemoryRegions (registerRun H (entryObject g m.mem p) m).machine =
      some (rs ++ s :: rest))
    (hpass : passEvents (dumpPass H g (entryObject g m.mem p) m) = some evs) :
    ∀ (i : Nat) (x : CrashCatcherMemoryRegion), rs[i]? = some x →
      (items evs)[7 + 2 * i]? =
        some { pvMemory := wordBytes x.startAddress ++ wordBytes x.endAddress
               elementSize := CRASH_CATCHER_BYTE, elementCount := 8 } ∧
      x.bytes.length = 12 ∧
      x.bytes = (wordBytes x.startAddress ++ wordBytes x.endAddress) ++
        wordBytes x.elementSize.toNat := by
  intro i x hix
  refine ⟨?_, rfl, rfl⟩
  obtain ⟨r1, regionItems, later, code, hr1, hc1, hevs⟩ :=
    pass_structure H g _ m evs hpass
  rw [htable] at hr1
  obtain ⟨r', new, hok, hc, hlen, hdesc⟩ :=
    dumpMemoryRegionsFrom_descriptors H g rs s rest
      (registerRun H (entryObject g m.mem p) m) hrs hs
  have hr' : r' = r1 := by
    have h : Except.ok r' = Except.ok r1 := hok.symm.trans hr1
    simpa using h
  subst hr'
  have hregion : regionItems = new := by
    have h := congrArg items (hc1.symm.trans hc)
    simpa [items_append, items_map_DumpMemory] using h
  subst hregion
  have hi : i < rs.length := by
    rcases Nat.lt_or_ge i rs.length with h | h
    · exact h
    · rw [List.getElem?_eq_none h] at hix
      simp at hix
  rw [hevs]
  simp only [items_append, items_map_DumpMemory, items_cons_DumpEnd, items_nil,
    List.append_nil, List.append_assoc]
  rw [List.getElem?_append_right (by rw [registerRun_items_length]; omega),
    registerRun_items_length, List.getElem?_append_left (by omega)]
  rw [show 7 + 2 * i - 7 = 2 * i from by omega]
  exact hdesc i x hix

/-- Witness of C17: the test `DumpMultipleRegions`, three regions: items 7, 9 and 11 of
the pass are the descriptor items, 8 bytes each. -/
theorem C17_descriptor_is_two_addresses_witness :
    (∀ x ∈ testRegions, x.startAddress ≠ 0xFFFFFFFF) ∧
    testSentinel.startAddress = 0xFFFFFFFF ∧
    passEvents (dumpPass mockHooks targetGlobals
        (entryObject targetGlobals
          (mockMachine (testMemory 0xFFFFFFF1 0) (some (testRegions ++ [testSentinel]))).mem
          0x1000)
        (mockMachine (testMemory 0xFFFFFFF1 0) (some (testRegions ++ [testSentinel])))) =
      some (mockPassEvents (testMemory 0xFFFFFFF1 0) (some (testRegions ++ [testSentinel]))) ∧
    (items (mockPassEvents (testMemory 0xFFFFFFF1 0)
        (some (testRegions ++ [testSentinel]))))[7 + 2 * 0]? =
      some { pvMemory := [0x00, 0x03, 0x00, 0x20, 0x01, 0x03, 0x00, 0x20]
             elementSize := CRASH_CATCHER_BYTE, elementCount := 8 } ∧
    (items (mockPassEvents (testMemory 0xFFFFFFF1 0)
        (some (testRegions ++ [testSentinel]))))[7 + 2 * 1]? =
      some { pvMemory := [0x01, 0x03, 0x00, 0x20, 0x03, 0x03, 0x00, 0x20]
             elementSize := CRASH_CATCHER_BYTE, elementCount := 8 } ∧
    (items (mockPassEvents (testMemory 0xFFFFFFF1 0)
        (some (testRegions ++ [testSentinel]))))[7 + 2 * 2]? =
      some { pvMemory := [0x03, 0x03, 0x00, 0x20, 0x07, 0x03, 0x00, 0x20]
             elementSize := CRASH_CATCHER_BYTE, elementCount := 8 } :=
  ⟨by decide, by decide, by decide,
    ((C17_descriptor_is_two_addresses mockHooks targetGlobals 0x1000
      (mockMachine (testMemory 0xFFFFFFF1 0) (some (testRegions ++ [testSentinel])))
      (mockPassEvents (testMemory 0xFFFFFFF1 0) (some (testRegions ++ [testSentinel])))
      testRegions testSentinel [] (by decide) (by decide) (by decide) (by decide)
      0 ⟨0x20000300, 0x20000301, CRASH_CATCHER_BYTE⟩ (by decide)).1).trans (by decide),
    ((C17_descriptor_is_two_addresses mockHooks targetGlobals 0x1000
      (mockMachine (testMemory 0xFFFFFFF1 0) (some (testRegions ++ [testSentinel])))
      (mockPassEvents (testMemory 0xFFFFFFF1 0) (some (testRegions ++ [testSentinel])))
      testRegions testSentinel [] (by decide) (by decide) (by decide) (by decide)
      1 ⟨0x20000301, 0x20000303, CRASH_CATCHER_HALFWORD⟩ (by decide)).1).trans (by decide),
    ((C17_descriptor_is_two_addresses mockHooks targetGlobals 0x1000
      (mockMachine (testMemory 0xFFFFFFF1 0) (some (testRegions ++ [testSentinel])))
      (mockPassEvents (testMemory 0xFFFFFFF1 0) (some (testRegions ++ [testSentinel])))
      testRegions testSentinel [] (by decide) (by decide) (by decide) (by decide)
      2 ⟨0x20000303, 0x20000307, CRASH_CATCHER_WORD⟩ (by decide)).1).trans (by decide)⟩

/-! ## The Hex-Interactive backend: lines of an element -/

theorem hexBytes_length (l : List Nat) : (hexBytes l).length = 2 * l.length := by
  induction l with
  | nil => rfl
  | cons b l ih =>
    simp only [hexBytes, hexByte, List.length_append, List.length_cons, List.length_nil, ih]
    omega

theorem contentLines_length (fuel : Nat) :
    ∀ bytes : List Nat, bytes.length ≤ fuel →
      (contentLines fuel bytes).length = (bytes.length + 15) / 16 := by
  induction fuel with
  | zero =>
    intro bytes h
    have h0 : bytes.length = 0 := by omega
    simp [contentLines, h0]
  | succ fuel ih =>
    intro bytes h
    unfold contentLines
    by_cases hb : bytes = []
    · simp [hb]
    · have hpos : 0 < bytes.length := List.length_pos.2 hb
      rw [if_neg hb, List.length_cons, ih (bytes.drop 16) (by rw [List.length_drop]; omega),
        List.length_drop]
      omega

theorem contentLines_getElem? (fuel : Nat) :
    ∀ (bytes : List Nat) (i : Nat), bytes.length ≤ fuel → i < (bytes.length + 15) / 16 →
      (contentLines fuel bytes)[i]? = some ((bytes.drop (16 * i)).take 16) := by
  induction fuel with
  | zero =>
    intro bytes i h hi
    have h0 : bytes.length = 0 := by omega
    rw [h0] at hi
    omega
  | succ fuel ih =>
    intro bytes i h hi
    unfold contentLines
    by_cases hb : bytes = []
    · rw [hb] at hi
      simp at hi
    · rw [if_neg hb]
      cases i with
      | zero => simp
      | succ j =>
        rw [List.getElem?_cons_succ,
          ih (bytes.drop 16) j (by rw [List.length_drop]; omega)
            (by rw [List.length_drop]; omega),
          List.drop_drop]
        have e : 16 + 16 * j = 16 * (j + 1) := by omega
        rw [e]

theorem contentLines_flatten (fuel : Nat) :
    ∀ bytes : List Nat, bytes.length ≤ fuel → (contentLines fuel bytes).flatten = bytes := by
  induction fuel with
  | zero =>
    intro bytes h
    have h0 : bytes = [] := List.length_eq_zero.1 (by omega)
    simp [contentLines, h0]
  | succ fuel ih =>
    intro bytes h
    unfold contentLines
    by_cases hb : bytes = []
    · simp [hb]
    · rw [if_neg hb, List.flatten_cons, ih (bytes.drop 16) (by rw [List.length_drop]; omega),
        List.take_append_drop]

/-- C18: the Hex-Interactive backend writes an element of `L ≥ 1` bytes, whatever its
element size, as `ceil(L / 16)` lines, each followed by CRLF: the bytes in their order,
16 to a line, so that every line but the last has 32 hexadecimal digits and the last has
`2 * (L - 16 * (ceil(L / 16) - 1))`; an element of exactly 16 bytes is one line. -/
theorem C18_hex_content_lines (item : DumpMemoryItem) (m : Machine HexDump) (L : Nat)
    (hL : item.pvMemory.length = L) (h1 : 1 ≤ L) :
    (hexHooks.DumpMemory item m).backend.putcData =
      m.backend.putcData ++
        ((hexLines item.pvMemory).map fun line => hexBytes line ++ CRLF).flatten ∧
    (hexLines item.pvMemory).flatten = item.pvMemory ∧
    (hexLines item.pvMemory).length = (L + 15) / 16 ∧
    (∀ i, i + 1 < (L + 15) / 16 →
      ((hexLines item.pvMemory)[i]?).map (fun line => (hexBytes line).length) = some 32) ∧
    ((hexLines item.pvMemory)[(L + 15) / 16 - 1]?).map (fun line => (hexBytes line).length) =
      some (2 * (L - 16 * ((L + 15) / 16 - 1))) ∧
    (L = 16 → (hexLines item.pvMemory).length = 1) := by
  have hlen : (hexLines item.pvMemory).length = (L + 15) / 16 := by
    rw [hexLines, contentLines_length _ _ (Nat.le_refl _), hL]
  refine ⟨rfl, contentLines_flatten _ _ (Nat.le_refl _), hlen, ?_, ?_, ?_⟩
  · intro i hi
    rw [hexLines, contentLines_getElem? _ _ i (Nat.le_refl _) (by rw [hL]; omega)]
    simp only [Option.map_some', Option.some.injEq, hexBytes_length, List.length_take,
      List.length_drop, hL]
    omega
  · rw [hexLines, contentLines_getElem? _ _ _ (Nat.le_refl _) (by rw [hL]; omega)]
    simp only [Option.map_some', Option.some.injEq, hexBytes_length, List.length_take,
      List.length_drop, hL]
    omega
  · intro h16
    rw [hlen, h16]

/-- Witness of C18: elements of 16 bytes, of 17 bytes and of five words. -/
theorem C18_hex_content_lines_witness :
    ((hexLines (readBytes (testMemory 0xFFFFFFF1 0) 0x20000300 16)).map
        fun line => (hexBytes line).length) = [32] ∧
    ((hexLines (readBytes (testMemory 0xFFFFFFF1 0) 0x20000300 17)).map
        fun line => (hexBytes line).length) = [32, 2] ∧
    ((hexLines (readBytes (testMemory 0xFFFFFFF1 0) 0x20000300 (4 * 5))).map
        fun line => (hexBytes line).length) = [32, 8] ∧
    (readBytes (testMemory 0xFFFFFFF1 0) 0x20000300 17).length = 17 ∧
    (hexLines (readBytes (testMemory 0xFFFFFFF1 0) 0x20000300 17)).length = (17 + 15) / 16 ∧
    ((hexLines (readBytes (testMemory 0xFFFFFFF1 0) 0x20000300 17))[(17 + 15) / 16 - 1]?).map
        (fun line => (hexBytes line).length) = some (2 * (17 - 16 * ((17 + 15) / 16 - 1))) :=
  ⟨by decide, by decide, by decide, by decide,
    (C18_hex_content_lines
      { pvMemory := readBytes (testMemory 0xFFFFFFF1 0) 0x20000300 17
        elementSize := CRASH_CATCHER_BYTE, elementCount := 17 }
      (hexMachine (testMemory 0xFFFFFFF1 0) (hexTestRegions 17 CRASH_CATCHER_BYTE)
        CRASH_CATCHER_EXIT) 17 (by decide) (by decide)).2.2.1,
    (C18_hex_content_lines
      { pvMemory := readBytes (testMemory 0xFFFFFFF1 0) 0x20000300 17
        elementSize := CRASH_CATCHER_BYTE, elementCount := 17 }
      (hexMachine (testMemory 0xFFFFFFF1 0) (hexTestRegions 17 CRASH_CATCHER_BYTE)
        CRASH_CATCHER_EXIT) 17 (by decide) (by decide)).2.2.2.2.1⟩

/-! ## The Hex-Interactive backend: a whole pass -/

theorem hexHooks_keepsMemory : hexHooks.KeepsMemory :=
  ⟨fun _ => rfl, fun _ _ => rfl, fun _ => rfl⟩

theorem hexHooks_keepsStack0 : hexHooks.KeepsStack0 := ⟨fun _ => rfl, fun _ _ => rfl⟩

theorem hex_feed (l : List DumpMemoryItem) (m : Machine HexDump) :
    (feed hexHooks l m).backend.putcData = m.backend.putcData ++ (l.map hexElement).flatten ∧
    (feed hexHooks l m).backend.g_pRegions = m.backend.g_pRegions ∧
    (feed hexHooks l m).backend.g_crashCatcherDumpEndReturn =
      m.backend.g_crashCatcherDumpEndReturn := by
  induction l generalizing m with
  | nil => simp
  | cons x l ih =>
    obtain ⟨h1, h2, h3⟩ := ih (hexHooks.DumpMemory x m)
    refine ⟨?_, ?_, ?_⟩
    · rw [feed_cons, h1]
      simp [hexHooks]
    · rw [feed_cons, h2]
      rfl
    · rw [feed_cons, h3]
      rfl

theorem render_map_DumpMemory (l : List DumpMemoryItem) (tail : List Event) :
    render (l.map Event.DumpMemory ++ tail) = (l.map hexElement).flatten ++ render tail := by
  induction l with
  | nil => rfl
  | cons x l ih => simp [render, ih]

/-- One pass through the Hex-Interactive backend: its result, what it writes and what it
leaves of the backend state. -/
theorem hex_dumpPass (g : Globals) (object : Object) (m : Machine HexDump)
    (code : CrashCatcherReturnCodes) (r' : Run HexDump)
    (h : dumpPass hexHooks g object m = Except.ok (code, r')) :
    code = CRASH_CATCHER_EXIT ∧
    r'.machine.backend.g_crashCatcherDumpEndReturn = m.backend.g_crashCatcherDumpEndReturn ∧
    r'.machine.backend.g_pRegions = m.backend.g_pRegions ∧
    items r'.calls = expectedPassItems g m.mem object m.backend.g_pRegions ∧
    r'.machine.backend.putcData =
      m.backend.putcData ++ hexBanner ++ CRLF ++
        (((items r'.calls).map hexElement).flatten ++ hexTrailer) := by
  obtain ⟨r, hr, hcode, hm', hcalls⟩ := dumpPass_ok hexHooks g object m code r' h
  obtain ⟨hc, hmach, -⟩ := dumpBeforeCheck_items hexHooks hexHooks_keepsMemory g object m r hr
  have hs := dumpBeforeCheck_stack0 hexHooks hexHooks_keepsStack0 g object m r hr
  have hcheck : checkStackSentinelForStackOverflow hexHooks r = r := by
    unfold checkStackSentinelForStackOverflow
    rw [if_neg (fun h => h hs)]
  rw [hcheck] at hcode hm' hcalls
  have htable : hexHooks.GetMemoryRegions (registerRun hexHooks object m).machine =
      m.backend.g_pRegions := by
    rw [registerRun_machine]
    exact (hex_feed _ _).2.1
  rw [htable] at hc hmach
  obtain ⟨f1, f2, f3⟩ := hex_feed (expectedPassItems g m.mem object m.backend.g_pRegions)
    (hexHooks.DumpStart { m with g_crashCatcherStack0 := STACK_SENTINEL })
  have hitems : items r'.calls = expectedPassItems g m.mem object m.backend.g_pRegions := by
    rw [hcalls, hc]
    simp
  refine ⟨?_, ?_, ?_, hitems, ?_⟩
  · rw [hcode]
    rfl
  · rw [hm']
    show r.machine.backend.g_crashCatcherDumpEndReturn = _
    rw [hmach, f3]
    rfl
  · rw [hm']
    show r.machine.backend.g_pRegions = _
    rw [hmach, f2]
    rfl
  · rw [hm', hitems]
    show r.machine.backend.putcData ++ hexTrailer = _
    rw [hmach, f1]
    simp [hexHooks]

theorem hexByte_digits (b : Nat) :
    (hexByte b).length = 2 ∧ ∀ c ∈ hexByte b, c ∈ "0123456789ABCDEF".toList := by
  refine ⟨rfl, ?_⟩
  have h1 : b / 16 % 16 < 16 := Nat.mod_lt _ (by decide)
  have h2 : b % 16 < 16 := Nat.mod_lt _ (by decide)
  have hd : ∀ n, n < 16 → hexDigit n ∈ "0123456789ABCDEF".toList := by decide
  intro c hc
  simp only [hexByte, List.mem_cons, List.mem_singleton, List.not_mem_nil, or_false] at hc
  rcases hc with h | h
  · rw [h]; exact hd _ h1
  · rw [h]; exact hd _ h2

theorem register_line_lengths (mem : Nat → Nat) (object : Object) :
    ((expectedRegisterItems mem object).map fun item =>
      (hexLines item.pvMemory).map fun line => (hexBytes line).length) =
      [[8], [32], [32, 32], [8], [8], [24], [8]] := by
  simp [expectedRegisterItems, hexLines, readBytes, contentLines, signature, wordBytes,
    hexBytes, hexByte]

/-! ## The Hex-Interactive backend against its tests -/

/-- The test `DumpMultipleRegions` of `HexDumpTests.cpp`: the model writes what the test
expects. -/
theorem hexDump_test_DumpMultipleRegions :
    entryOutput (CrashCatcher_Entry hexHooks targetGlobals 1 0x1000
        (hexMachine (testMemory 0xFFFFFFF1 0) (some (testRegions ++ [testSentinel]))
          CRASH_CATCHER_EXIT)) =
      some (appendExpectedTrailerOutput
        (appendExpectedMemoryOutput
          (appendExpectedMemoryOutput
            (appendExpectedMemoryOutput setExpectedRegisterOutput
              { startAddress := 0x20000300, endAddress := 0x20000301,
                elementSize := CRASH_CATCHER_BYTE }
              (format02X 0 ++ CRLF))
            { startAddress := 0x20000301, endAddress := 0x20000303,
              elementSize := CRASH_CATCHER_HALFWORD }
            (format02X 1 ++ format02X 2 ++ CRLF))
          { startAddress := 0x20000303, endAddress := 0x20000307,
            elementSize := CRASH_CATCHER_WORD }
          (format02X 3 ++ format02X 4 ++ format02X 5 ++ format02X 6 ++ CRLF))) := by
  decide!

/-- The test `Dump16Bytes_ShouldFitOnOneLine`. -/
theorem hexDump_test_Dump16Bytes :
    entryOutput (CrashCatcher_Entry hexHooks targetGlobals 1 0x1000
        (hexMachine (testMemory 0xFFFFFFF1 0) (hexTestRegions 16 CRASH_CATCHER_BYTE)
          CRASH_CATCHER_EXIT)) =
      some (appendExpectedTrailerOutput
        (appendExpectedMemoryOutput setExpectedRegisterOutput
          { startAddress := 0x20000300, endAddress := 0x20000310,
            elementSize := CRASH_CATCHER_BYTE }
          (((List.range 16).map format02X).flatten ++ CRLF))) := by
  decide!

/-- The test `Dump17Bytes_ShouldSplitAcrossTwoLines`. -/
theorem hexDump_test_Dump17Bytes :
    entryOutput (CrashCatcher_Entry hexHooks targetGlobals 1 0x1000
        (hexMachine (testMemory 0xFFFFFFF1 0) (hexTestRegions 17 CRASH_CATCHER_BYTE)
          CRASH_CATCHER_EXIT)) =
      some (appendExpectedTrailerOutput
        (appendExpectedMemoryOutput setExpectedRegisterOutput
          { startAddress := 0x20000300, endAddress := 0x20000311,
            elementSize := CRASH_CATCHER_BYTE }
          (((List.range 16).map format02X).flatten ++ CRLF ++ format02X 16 ++ CRLF))) := by
  decide!

/-- The test `Dump9HalfWords_ShouldSplitAcrossTwoLines`. -/
theorem hexDump_test_Dump9HalfWords :
    entryOutput (CrashCatcher_Entry hexHooks targetGlobals 1 0x1000
        (hexMachine (testMemory 0xFFFFFFF1 0) (hexTestRegions 18 CRASH_CATCHER_HALFWORD)
          CRASH_CATCHER_EXIT)) =
      some (appendExpectedTrailerOutput
        (appendExpectedMemoryOutput setExpectedRegisterOutput
          { startAddress := 0x20000300, endAddress := 0x20000312,
            elementSize := CRASH_CATCHER_HALFWORD }
          (((List.range 16).map format02X).flatten ++ CRLF ++ format02X 16 ++ format02X 17
            ++ CRLF))) := by
  decide!

/-- The test `Dump5Words_ShouldSplitAcrossTwoLines`. -/
theorem hexDump_test_Dump5Words :
    entryOutput (CrashCatcher_Entry hexHooks targetGlobals 1 0x1000
        (hexMachine (testMemory 0xFFFFFFF1 0) (hexTestRegions 20 CRASH_CATCHER_WORD)
          CRASH_CATCHER_EXIT)) =
      some (appendExpectedTrailerOutput
        (appendExpectedMemoryOutput setExpectedRegisterOutput
          { startAddress := 0x20000300, endAddress := 0x20000314,
            elementSize := CRASH_CATCHER_WORD }
          (((List.range 16).map format02X).flatten ++ CRLF ++ format02X 16 ++ format02X 17
            ++ format02X 18 ++ format02X 19 ++ CRLF))) := by
  decide!

/-- Counterexample to C19 as stated: on the fixture of the tests the backend writes what
`setExpectedRegisterOutput` expects.  The register r0, whose value is `0x0000FFFF`, is
written as `FFFF0000` (least-significant byte first) and not as the digits `0000FFFF` of
the value itself, and the group r4..r11 is written on two lines of 32 digits, so that
the register part has eight lines and none of 64 digits. -/
theorem C19_counterexample :
    passOutput (dumpPass hexHooks targetGlobals
        (entryObject targetGlobals (testMemory 0xFFFFFFF1 0) 0x1000)
        (hexMachine (testMemory 0xFFFFFFF1 0) none CRASH_CATCHER_EXIT)) = some hexPassOutput ∧
    passEvents (dumpPass hexHooks targetGlobals
        (entryObject targetGlobals (testMemory 0xFFFFFFF1 0) 0x1000)
        (hexMachine (testMemory 0xFFFFFFF1 0) none CRASH_CATCHER_EXIT)) = some hexPassEvents ∧
    hexPassOutput = appendExpectedTrailerOutput setExpectedRegisterOutput ∧
    hexPassOutput = hexBanner ++ CRLF ++
      ("63430100\r\n" ++
       "FFFF0000FFFF1111FFFF2222FFFF3333\r\n" ++
       "44444444555555556666666677777777\r\n" ++
       "8888888899999999AAAAAAAABBBBBBBB\r\n" ++
       "FFFF4444\r\n" ++
       "20020020\r\n" ++
       "FFFF5555FFFF666600000000\r\n" ++
       "00000000\r\n" ++
       "\r\nEnd of dump\r\n").toList ∧
    read32 (testMemory 0xFFFFFFF1 0) (0x20000200 + stacked.r0) = 0x0000FFFF ∧
    format08X 0x0000FFFF = "0000FFFF".toList ∧
    hexBytes (readBytes (testMemory 0xFFFFFFF1 0) (0x20000200 + stacked.r0) 4) =
      "FFFF0000".toList ∧
    ((items hexPassEvents).map fun item =>
      (hexLines item.pvMemory).map fun line => (hexBytes line).length) =
      [[8], [32], [32, 32], [8], [8], [24], [8]] := by
  refine ⟨by decide!, by decide!, by decide!, by decide!, by decide!, by decide!, by decide!,
    by decide!⟩

/-- C19, amended: in a pass through the Hex-Interactive backend every handed-over byte
becomes two uppercase hexadecimal digits, no separators, the bytes in the order they lie
in memory; a 32-bit register, stored little-endian, is therefore written
least-significant byte first.  Every element is wrapped after 16 bytes, so the seven
register groups are written on eight CRLF-terminated lines of 8, 32, 32 and 32 (r4..r11
on two lines), 8, 8, 24 and 8 digits. -/
theorem C19_hex_register_groups (g : Globals) (p : Nat) (m : Machine HexDump)
    (evs : List Event) (out : List Char)
    (hev : passEvents (dumpPass hexHooks g (entryObject g m.mem p) m) = some evs)
    (hout : passOutput (dumpPass hexHooks g (entryObject g m.mem p) m) = some out) :
    out = m.backend.putcData ++ hexBanner ++ CRLF ++
      (((items evs).map hexElement).flatten ++ hexTrailer) ∧
    (items evs).take 7 = expectedRegisterItems m.mem (entryObject g m.mem p) ∧
    (((items evs).take 7).map fun item =>
      (hexLines item.pvMemory).map fun line => (hexBytes line).length) =
      [[8], [32], [32, 32], [8], [8], [24], [8]] ∧
    (∀ v : Nat, hexBytes (wordBytes v) =
      hexByte (v % 256) ++ hexByte (v / 256 % 256) ++ hexByte (v / 65536 % 256) ++
        hexByte (v / 16777216 % 256)) ∧
    (∀ b : Nat, (hexByte b).length = 2 ∧ ∀ c ∈ hexByte b, c ∈ "0123456789ABCDEF".toList) := by
  obtain ⟨code, r', hok, hcalls⟩ := passEvents_eq_some _ _ hev
  rw [hok] at hout
  have hout' : r'.machine.backend.putcData = out := by
    simpa [passOutput] using hout
  obtain ⟨-, -, -, hitems, hput⟩ := hex_dumpPass g _ m code r' hok
  rw [hcalls] at hitems hput
  have h7 : (items evs).take 7 = expectedRegisterItems m.mem (entryObject g m.mem p) := by
    rw [hitems, expectedPassItems, List.append_assoc,
      List.take_append_of_le_length (by simp [expectedRegisterItems]),
      List.take_of_length_le (by simp [expectedRegisterItems])]
  refine ⟨?_, h7, ?_, ?_, hexByte_digits⟩
  · rw [← hout', hput]
  · rw [h7]
    exact register_line_lengths m.mem _
  · intro v
    simp [wordBytes, hexBytes]

/-- Witness of C19: the fixture of the tests, without regions. -/
theorem C19_hex_register_groups_witness :
    passEvents (dumpPass hexHooks targetGlobals
        (entryObject targetGlobals
          (hexMachine (testMemory 0xFFFFFFF1 0) none CRASH_CATCHER_EXIT).mem 0x1000)
        (hexMachine (testMemory 0xFFFFFFF1 0) none CRASH_CATCHER_EXIT)) = some hexPassEvents ∧
    passOutput (dumpPass hexHooks targetGlobals
        (entryObject targetGlobals
          (hexMachine (testMemory 0xFFFFFFF1 0) none CRASH_CATCHER_EXIT).mem 0x1000)
        (hexMachine (testMemory 0xFFFFFFF1 0) none CRASH_CATCHER_EXIT)) = some hexPassOutput ∧
    hexPassOutput =
      (hexMachine (testMemory 0xFFFFFFF1 0) none CRASH_CATCHER_EXIT).backend.putcData ++
        hexBanner ++ CRLF ++ (((items hexPassEvents).map hexElement).flatten ++ hexTrailer) :=
  ⟨by decide!, by decide!,
    (C19_hex_register_groups targetGlobals 0x1000
      (hexMachine (testMemory 0xFFFFFFF1 0) none CRASH_CATCHER_EXIT) hexPassEvents hexPassOutput
      (by decide!) (by decide!)).1⟩

/-! ## The Hex-Interactive backend: the end of a session -/

theorem dumpMemoryRegions_ok_of_tableEnds {β : Type} (H : Hooks β) (g : Globals)
    (table : Option (List CrashCatcherMemoryRegion)) (htable : TableEnds table) (r : Run β) :
    ∃ r' : Run β, dumpMemoryRegions H g table r = Except.ok r' := by
  rcases htable with h | ⟨rs, s, rest, h, hrs, hs⟩
  · rw [h]
    exact ⟨r, rfl⟩
  · rw [h]
    exact dumpMemoryRegions_ok_of_sentinel H g rs s rest r hrs hs

theorem dumpBeforeCheck_ok_of_tableEnds {β : Type} (H : Hooks β) (g : Globals)
    (object : Object) (m : Machine β)
    (htable : TableEnds (H.GetMemoryRegions (registerRun H object m).machine)) :
    ∃ r : Run β, dumpBeforeCheck H g object m = Except.ok r := by
  obtain ⟨r1, hr1⟩ := dumpMemoryRegions_ok_of_tableEnds H g _ htable (registerRun H object m)
  show ∃ r, (match dumpMemoryRegions H g
        (H.GetMemoryRegions (registerRun H object m).machine) (registerRun H object m) with
      | Except.error e => Except.error e
      | Except.ok r =>
        if ¬ isCortexM0Device g r.machine.mem then dumpFaultStatusRegisters H g r
        else Except.ok r) = Except.ok r
  rw [hr1]
  by_cases hc : isCortexM0Device g r1.machine.mem = true
  · exact ⟨r1, by simp [hc]⟩
  · obtain ⟨r2, hr2⟩ := dumpFaultStatusRegisters_ok H g r1
    exact ⟨r2, by simp [hc, hr2]⟩

/-- A pass through the Hex-Interactive backend comes to an end when the walk over the
region array does, and `CrashCatcher_DumpEnd` returns `CRASH_CATCHER_EXIT`. -/
theorem hex_dumpPass_ok (g : Globals) (object : Object) (m : Machine HexDump)
    (htable : TableEnds m.backend.g_pRegions) :
    ∃ r' : Run HexDump,
      dumpPass hexHooks g object m = Except.ok (CRASH_CATCHER_EXIT, r') ∧
      r'.machine.backend.g_pRegions = m.backend.g_pRegions ∧
      r'.machine.backend.putcData =
        m.backend.putcData ++ hexBanner ++ CRLF ++
          (((items r'.calls).map hexElement).flatten ++ hexTrailer) := by
  have ht : hexHooks.GetMemoryRegions (registerRun hexHooks object m).machine =
      m.backend.g_pRegions := by
    rw [registerRun_machine]
    exact (hex_feed _ _).2.1
  obtain ⟨r, hr⟩ := dumpBeforeCheck_ok_of_tableEnds hexHooks g object m (by rw [ht]; exact htable)
  have hp := dumpPass_of_dumpBeforeCheck hexHooks g object m r hr
  obtain ⟨-, -, h3, -, hput⟩ := hex_dumpPass g object m _ _ hp
  exact ⟨(CrashCatcher_DumpEnd hexHooks (checkStackSentinelForStackOverflow hexHooks r)).2,
    hp, h3, hput⟩

/-- C20: `end()` of the Hex-Interactive backend prints the fixed trailing line and returns
`Done` (`CRASH_CATCHER_EXIT`) on every call, in every state; so a dump through this
backend is exactly one pass: whenever the walk over the region array comes to an end (the
array is NULL or holds a sentinel), `CrashCatcher_Entry` returns after one pass, with one
start call and one end call, the end call being the last event and the trailing line the
last thing written. -/
theorem C20_hex_end_always_done (g : Globals) (p : Nat) (m : Machine HexDump) :
    (hexHooks.DumpEnd m).1 = CRASH_CATCHER_EXIT ∧
    (hexHooks.DumpEnd m).2.backend.putcData = m.backend.putcData ++ hexTrailer ∧
    (TableEnds m.backend.g_pRegions →
      ∀ fuel, 0 < fuel → ∃ (evs : List Event) (written : List Char),
        entryEvents (CrashCatcher_Entry hexHooks g fuel p m) = some [evs] ∧
        startCount evs = 1 ∧ endCount evs = 1 ∧
        evs.getLast? = some (Event.DumpEnd CRASH_CATCHER_EXIT) ∧
        entryOutput (CrashCatcher_Entry hexHooks g fuel p m) =
          some (m.backend.putcData ++ written ++ hexTrailer)) := by
  refine ⟨rfl, rfl, ?_⟩
  intro htable fuel hfuel
  obtain ⟨fuel, rfl⟩ : ∃ f, fuel = f + 1 := ⟨fuel - 1, by omega⟩
  obtain ⟨r', hp, -, hput⟩ := hex_dumpPass_ok g (entryObject g m.mem p) m htable
  have hcount := pass_startCount hexHooks g (entryObject g m.mem p) m r'.calls
    (by rw [hp]; rfl)
  obtain ⟨r, -, -, -, hcalls⟩ := dumpPass_ok hexHooks g _ m _ r' hp
  have hloop : CrashCatcher_Entry hexHooks g (fuel + 1) p m =
      Except.ok (r'.machine, [r'.calls]) := by
    unfold CrashCatcher_Entry dumpLoop
    rw [hp]
    simp
  refine ⟨r'.calls, hexBanner ++ CRLF ++ ((items r'.calls).map hexElement).flatten,
    ?_, hcount.1, hcount.2, ?_, ?_⟩
  · rw [hloop]
    rfl
  · rw [hcalls]
    simp
  · rw [hloop]
    show some r'.machine.backend.putcData = _
    rw [hput]
    simp

/-- Witness of C20: the fixture of the tests without regions, as `setup()` leaves it: one
pass, and the output ends with the trailing line. -/
theorem C20_hex_end_always_done_witness :
    TableEnds (hexMachine (testMemory 0xFFFFFFF1 0) none CRASH_CATCHER_EXIT).backend.g_pRegions ∧
    (∃ (evs : List Event) (written : List Char),
      entryEvents (CrashCatcher_Entry hexHooks targetGlobals 1 0x1000
        (hexMachine (testMemory 0xFFFFFFF1 0) none CRASH_CATCHER_EXIT)) = some [evs] ∧
      startCount evs = 1 ∧ endCount evs = 1 ∧
      evs.getLast? = some (Event.DumpEnd CRASH_CATCHER_EXIT) ∧
      entryOutput (CrashCatcher_Entry hexHooks targetGlobals 1 0x1000
        (hexMachine (testMemory 0xFFFFFFF1 0) none CRASH_CATCHER_EXIT)) =
          some ((hexMachine (testMemory 0xFFFFFFF1 0) none CRASH_CATCHER_EXIT).backend.putcData
            ++ written ++ hexTrailer)) ∧
    entryEvents (CrashCatcher_Entry hexHooks targetGlobals 1 0x1000
      (hexMachine (testMemory 0xFFFFFFF1 0) none CRASH_CATCHER_EXIT)) = some [hexPassEvents] :=
  ⟨Or.inl rfl,
    (C20_hex_end_always_done targetGlobals 0x1000
      (hexMachine (testMemory 0xFFFFFFF1 0) none CRASH_CATCHER_EXIT)).2.2 (Or.inl rfl) 1
      (by decide),
    by decide!⟩

/-! ## The CPU ID test, and the rebuilt stack pointer once more -/

/-- Counterexample to C21 as stated: with the CPU ID `0x410CC600` of a Cortex-M0+ a pass
of the mocks hands over nine items, the last two being the pair of the fault status
registers `0xE000ED28 .. 0xE000ED3C`. -/
theorem C21_counterexample :
    read32 cortexM0PlusMemory targetGlobals.g_pCrashCatcherCpuId = 0x410CC600 ∧
    isCortexM0Device targetGlobals cortexM0PlusMemory = false ∧
    passEvents (dumpPass mockHooks targetGlobals
        (entryObject targetGlobals cortexM0PlusMemory 0x1000)
        (mockMachine cortexM0PlusMemory none)) = some (mockPassEvents cortexM0PlusMemory none) ∧
    (items (mockPassEvents cortexM0PlusMemory none)).length = 9 ∧
    (items (mockPassEvents cortexM0PlusMemory none)).drop 7 =
      [ { pvMemory := [0x28, 0xED, 0x00, 0xE0, 0x3C, 0xED, 0x00, 0xE0]
          elementSize := CRASH_CATCHER_BYTE
          elementCount := 8 },
        { pvMemory := [0, 0, 2, 0, 0, 0, 0, 0, 0, 0, 0, 0, 0, 0, 0, 0, 0, 0, 0, 0]
          elementSize := CRASH_CATCHER_WORD
          elementCount := 5 } ] := by
  decide

/-- C21, amended: a pass hands over no fault-status region when the part number field
`cpuId & 0xFFF0` equals `0xC200` (Cortex-M0), and only then: for every other CPU ID, the
Cortex-M0+ with field `0xC600` included, the pair of the fault status registers follows
the caller's regions.  The dump routines are taken not to write to data memory, and the
base address, as a 32-bit value, is taken to differ from `0xFFFFFFFF`. -/
theorem C21_fault_status_skipped_for_cortexM0_only {β : Type} (H : Hooks β)
    (hH : H.KeepsMemory) (g : Globals)
    (hbase : u32 g.g_pCrashCatcherFaultStatusRegisters ≠ 0xFFFFFFFF)
    (p : Nat) (m : Machine β) (evs : List Event)
    (hpass : passEvents (dumpPass H g (entryObject g m.mem p) m) = some evs) :
    ∃ marker : List DumpMemoryItem,
      (marker = [] ∨ marker = [overflowItem]) ∧
      (read32 m.mem g.g_pCrashCatcherCpuId &&& 0xFFF0 = 0xC200 →
        items evs =
          expectedRegisterItems m.mem (entryObject g m.mem p) ++
          expectedWalkItems g m.mem
            (H.GetMemoryRegions (registerRun H (entryObject g m.mem p) m).machine) ++
          marker) ∧
      (read32 m.mem g.g_pCrashCatcherCpuId &&& 0xFFF0 ≠ 0xC200 →
        items evs =
          expectedRegisterItems m.mem (entryObject g m.mem p) ++
          expectedWalkItems g m.mem
            (H.GetMemoryRegions (registerRun H (entryObject g m.mem p) m).machine) ++
          [ { pvMemory := wordBytes (u32 g.g_pCrashCatcherFaultStatusRegisters) ++
                wordBytes (u32 (u32 g.g_pCrashCatcherFaultStatusRegisters + 20))
              elementSize := CRASH_CATCHER_BYTE
              elementCount := 8 },
            { pvMemory := readBytes m.mem
                (uint32AddressToPointer g (u32 g.g_pCrashCatcherFaultStatusRegisters)) 20
              elementSize := CRASH_CATCHER_WORD
              elementCount := 5 } ] ++
          marker) ∧
      (read32 m.mem g.g_pCrashCatcherCpuId &&& 0xFFF0 = 0xC600 →
        (items evs).length =
          7 + (expectedWalkItems g m.mem
            (H.GetMemoryRegions (registerRun H (entryObject g m.mem p) m).machine)).length +
          2 + marker.length) := by
  obtain ⟨marker, hmarker, hitems⟩ := pass_items H hH g _ m evs hpass
  rw [expectedPassItems, expectedWalkItems_faultStatusRegion g m.mem hbase] at hitems
  refine ⟨marker, hmarker, ?_, ?_, ?_⟩
  · intro hc
    rw [hitems, if_pos ((isCortexM0Device_eq g m.mem).2 hc), List.append_nil]
  · intro hc
    rw [hitems, if_neg (fun h => hc ((isCortexM0Device_eq g m.mem).1 h))]
  · intro hc
    have hne : ¬ isCortexM0Device g m.mem = true := by
      intro h
      rw [(isCortexM0Device_eq g m.mem).1 h] at hc
      exact absurd hc (by decide)
    rw [hitems, if_neg hne]
    simp [expectedRegisterItems]
    omega

/-- Witness of C21: the mocks with the CPU ID `0x410CC600` of a Cortex-M0+ and no caller
regions: the pair of the fault status registers is handed over, nine items in all. -/
theorem C21_fault_status_skipped_for_cortexM0_only_witness :
    mockHooks.KeepsMemory ∧
    u32 targetGlobals.g_pCrashCatcherFaultStatusRegisters ≠ 0xFFFFFFFF ∧
    passEvents (dumpPass mockHooks targetGlobals
        (entryObject targetGlobals (mockMachine cortexM0PlusMemory none).mem 0x1000)
        (mockMachine cortexM0PlusMemory none)) = some (mockPassEvents cortexM0PlusMemory none) ∧
    read32 (mockMachine cortexM0PlusMemory none).mem targetGlobals.g_pCrashCatcherCpuId
      &&& 0xFFF0 = 0xC600 ∧
    (∃ marker : List DumpMemoryItem,
      (marker = [] ∨ marker = [overflowItem]) ∧
      (items (mockPassEvents cortexM0PlusMemory none)).length =
        7 + (expectedWalkItems targetGlobals (mockMachine cortexM0PlusMemory none).mem
          (mockHooks.GetMemoryRegions (registerRun mockHooks
            (entryObject targetGlobals (mockMachine cortexM0PlusMemory none).mem 0x1000)
            (mockMachine cortexM0PlusMemory none)).machine)).length + 2 + marker.length) ∧
    (items (mockPassEvents cortexM0PlusMemory none)).length = 9 ∧
    (items (mockPassEvents (testMemory 0xFFFFFFF1 0) none)).length = 7 :=
  ⟨mockHooks_keepsMemory, by decide, by decide, by decide,
    match C21_fault_status_skipped_for_cortexM0_only mockHooks mockHooks_keepsMemory
      targetGlobals (by decide) 0x1000 (mockMachine cortexM0PlusMemory none)
      (mockPassEvents cortexM0PlusMemory none) (by decide) with
    | ⟨marker, hmarker, _, _, h⟩ => ⟨marker, hmarker, h (by decide)⟩,
    by decide, by decide⟩

/-- C22: the rebuilt stack pointer is `(frame_base + 32) mod 2 ^ 32` with bit 2 set by a
bitwise OR when bit 9 of the stacked psr is set, and left as it is otherwise; the fifth
item of a pass holds this value.  frame_base is the selected stack pointer, PSP or MSP. -/
theorem C22_alignment_applied_as_bitwise_or {β : Type} (H : Hooks β) (g : Globals) (p : Nat)
    (m : Machine β) (evs : List Event)
    (hpass : passEvents (dumpPass H g (entryObject g m.mem p) m) = some evs) :
    (entryObject g m.mem p).sp =
      (getAddressOfExceptionStack m.mem p + 32) % 2 ^ 32 |||
        (if (read32 m.mem (uint32AddressToPointer g (getAddressOfExceptionStack m.mem p)
              + stacked.psr)).testBit 9 then 4 else 0) ∧
    (items evs)[4]? =
      some { pvMemory :=
               wordBytes ((getAddressOfExceptionStack m.mem p + 32) % 2 ^ 32 |||
                 (if (read32 m.mem (uint32AddressToPointer g (getAddressOfExceptionStack m.mem p)
                       + stacked.psr)).testBit 9 then 4 else 0))
             elementSize := CRASH_CATCHER_BYTE
             elementCount := 4 } := by
  have hsp := entryObject_sp g m.mem p
  refine ⟨hsp, ?_⟩
  have h5 := registerRun_fifth H (entryObject g m.mem p) m
  rw [← pass_take_seven H g _ m evs hpass, List.getElem?_take] at h5
  rw [hsp] at h5
  simpa using h5

/-- Witness of C22: the test `DumpRegistersOnly_MSP_StackAlignmentNeeded`, stacked psr
`0x200` on the MSP frame at `0x20000200`: the fifth item holds `0x20000220 | 4`, the
value the test computes with `m_expectedSP |= 4`. -/
theorem C22_alignment_applied_as_bitwise_or_witness :
    passEvents (dumpPass mockHooks targetGlobals
        (entryObject targetGlobals (mockMachine (testMemory 0xFFFFFFF1 0x200) none).mem 0x1000)
        (mockMachine (testMemory 0xFFFFFFF1 0x200) none)) =
      some (mockPassEvents (testMemory 0xFFFFFFF1 0x200) none) ∧
    (entryObject targetGlobals (mockMachine (testMemory 0xFFFFFFF1 0x200) none).mem 0x1000).sp =
      (0x20000200 + 32) ||| 4 ∧
    (items (mockPassEvents (testMemory 0xFFFFFFF1 0x200) none))[4]? =
      some { pvMemory := wordBytes ((0x20000200 + 32) ||| 4), elementSize := CRASH_CATCHER_BYTE,
             elementCount := 4 } :=
  ⟨by decide,
    (C22_alignment_applied_as_bitwise_or mockHooks targetGlobals 0x1000
      (mockMachine (testMemory 0xFFFFFFF1 0x200) none)
      (mockPassEvents (testMemory 0xFFFFFFF1 0x200) none) (by decide)).1.trans (by decide),
    (C22_alignment_applied_as_bitwise_or mockHooks targetGlobals 0x1000
      (mockMachine (testMemory 0xFFFFFFF1 0x200) none)
      (mockPassEvents (testMemory 0xFFFFFFF1 0x200) none) (by decide)).2.trans (by decide)⟩

/-- C23: the rebuilt stack pointer against the plain sum.  When bit 2 of the frame base
is clear (so whenever the frame base is a multiple of 8) and frame_base + 36 is at most
`2 ^ 32 - 1`, the rebuilt stack pointer is frame_base + 32 + (4 if bit 9 of the stacked
psr is set, else 0).  When bit 2 of the frame base and bit 9 of the stacked psr are both
set, it is 4 less than that sum: exactly so under the same bound (frame_base + 32 below
`2 ^ 32` is enough), and in 32-bit arithmetic whatever the frame base. -/
theorem C23_bitwise_or_against_sum (g : Globals) (mem : Nat → Nat) (p : Nat) :
    (getAddressOfExceptionStack mem p % 8 = 0 →
      (getAddressOfExceptionStack mem p).testBit 2 = false) ∧
    ((getAddressOfExceptionStack mem p).testBit 2 = false →
      getAddressOfExceptionStack mem p + 36 ≤ 2 ^ 32 - 1 →
      (entryObject g mem p).sp =
        getAddressOfExceptionStack mem p + 32 +
          (if (read32 mem (uint32AddressToPointer g (getAddressOfExceptionStack mem p)
              + stacked.psr)).testBit 9 then 4 else 0)) ∧
    ((getAddressOfExceptionStack mem p).testBit 2 = true →
      (read32 mem (uint32AddressToPointer g (getAddressOfExceptionStack mem p)
          + stacked.psr)).testBit 9 = true →
      getAddressOfExceptionStack mem p + 32 < 2 ^ 32 →
      (entryObject g mem p).sp = getAddressOfExceptionStack mem p + 32 + 4 - 4 ∧
      (entryObject g mem p).sp + 4 = getAddressOfExceptionStack mem p + 32 + 4) ∧
    ((getAddressOfExceptionStack mem p).testBit 2 = true →
      (read32 mem (uint32AddressToPointer g (getAddressOfExceptionStack mem p)
          + stacked.psr)).testBit 9 = true →
      (entryObject g mem p).sp = sub32 (u32 (getAddressOfExceptionStack mem p + 32 + 4)) 4) := by
  rw [entryObject_sp]
  generalize getAddressOfExceptionStack mem p = fb
  generalize (read32 mem (uint32AddressToPointer g fb + stacked.psr)).testBit 9 = pad
  have hbit : (u32 (fb + 8 * 4)).testBit 2 = fb.testBit 2 := testBit_two_u32_add_32 fb
  refine ⟨?_, ?_, ?_, ?_⟩
  · intro h8
    rw [Nat.testBit_to_div_mod]
    simp
    omega
  · intro h2 hb
    rw [h2] at hbit
    cases pad
    · simp only [Bool.false_eq_true, if_false, Nat.or_zero, Nat.add_zero, u32]
      omega
    · simp only [if_true]
      rw [or_four_of_bit_clear _ hbit]
      simp only [u32]
      omega
  · intro h2 hpad hb
    rw [h2] at hbit
    rw [hpad, if_pos rfl, or_four_of_bit_set _ hbit]
    simp only [u32]
    omega
  · intro h2 hpad
    rw [h2] at hbit
    rw [hpad, if_pos rfl, or_four_of_bit_set _ hbit]
    simp only [u32, sub32]
    omega

/-- Witness of C23: the MSP frame of the tests at `0x20000200` with stacked psr `0x200`
gives `0x20000224`, the sum; the frame at `0x20000204` with the same psr gives
`0x20000224` too, 4 less than the sum `0x20000228`. -/
theorem C23_bitwise_or_against_sum_witness :
    (getAddressOfExceptionStack (testMemory 0xFFFFFFF1 0x200) 0x1000).testBit 2 = false ∧
    getAddressOfExceptionStack (testMemory 0xFFFFFFF1 0x200) 0x1000 + 36 ≤ 2 ^ 32 - 1 ∧
    (entryObject targetGlobals (testMemory 0xFFFFFFF1 0x200) 0x1000).sp = 0x20000200 + 32 + 4 ∧
    (getAddressOfExceptionStack oddFrameMemory 0x1000).testBit 2 = true ∧
    (read32 oddFrameMemory (uint32AddressToPointer targetGlobals
      (getAddressOfExceptionStack oddFrameMemory 0x1000) + stacked.psr)).testBit 9 = true ∧
    getAddressOfExceptionStack oddFrameMemory 0x1000 + 32 < 2 ^ 32 ∧
    (entryObject targetGlobals oddFrameMemory 0x1000).sp + 4 = 0x20000204 + 32 + 4 :=
  ⟨by decide, by decide,
    ((C23_bitwise_or_against_sum targetGlobals (testMemory 0xFFFFFFF1 0x200) 0x1000).2.1
      (by decide) (by decide)).trans (by decide),
    by decide, by decide, by decide,
    ((C23_bitwise_or_against_sum targetGlobals oddFrameMemory 0x1000).2.2.1
      (by decide) (by decide) (by decide)).2.trans (by decide)⟩

/-! ## The sentinel of the dump stack from pass to pass -/

/-- A pass does not depend on what the first word of `g_crashCatcherStack` held when the
pass began: `setStackSentinel` overwrites the word before anything reads it. -/
theorem dumpPass_stack0_irrelevant {β : Type} (H : Hooks β) (g : Globals) (object : Object)
    (m : Machine β) (v : Nat) :
    dumpPass H g object { m with g_crashCatcherStack0 := v } = dumpPass H g object m := rfl

/-- The log of a pass around the sentinel check: what was logged before the check, the
marker when the word is found changed and nothing when it is found intact, then the end
call. -/
theorem pass_check {β : Type} (H : Hooks β) (g : Globals) (object : Object)
    (m : Machine β) (evs : List Event)
    (hpass : passEvents (dumpPass H g object m) = some evs) :
    ∃ (r : Run β) (code : CrashCatcherReturnCodes),
      dumpBeforeCheck H g object m = Except.ok r ∧
      (r.machine.g_crashCatcherStack0 = STACK_SENTINEL → evs = r.calls ++ [Event.DumpEnd code]) ∧
      (r.machine.g_crashCatcherStack0 ≠ STACK_SENTINEL →
        evs = r.calls ++ [Event.DumpMemory overflowItem, Event.DumpEnd code]) := by
  obtain ⟨code, r', hok, hcalls⟩ := passEvents_eq_some _ _ hpass
  obtain ⟨r, hr, -, -, hr'⟩ := dumpPass_ok H g object m code r' hok
  rw [hcalls, checkStackSentinelForStackOverflow_calls] at hr'
  refine ⟨r, code, hr, ?_, ?_⟩
  · intro heq
    rw [if_neg (fun hne => hne heq)] at hr'
    rw [hr']
    simp
  · intro hne
    rw [if_pos hne] at hr'
    rw [hr']
    simp

/-- C24: the sentinel is stored anew at the start of every pass, before
`CrashCatcher_DumpStart` is called: in the trace of an invocation that returns every pass
begins with the store of `0xACCE55ED` followed by the start call, every start call finds
`0xACCE55ED` in the first word of `g_crashCatcherStack`, and no pass depends on what the
word held when the pass began.  So a word left overwritten by one pass does not by itself
give a marker in a later pass: a pass whose own calls leave the fresh sentinel intact up
to the check logs no marker. -/
theorem C24_sentinel_rewritten_every_pass {β : Type} (H : Hooks β) (g : Globals) (p : Nat)
    (m : Machine β) (fuel : Nat) (passes : List (List Event))
    (hentry : entryEvents (CrashCatcher_Entry H g fuel p m) = some passes) :
    STACK_SENTINEL = 0xACCE55ED ∧
    (∀ evs ∈ passes, ∃ (l : List DumpMemoryItem) (code : CrashCatcherReturnCodes),
      evs = Event.storeStack0 0xACCE55ED :: Event.DumpStart 0xACCE55ED ::
        (l.map Event.DumpMemory ++ [Event.DumpEnd code])) ∧
    (∀ w : Nat, Event.DumpStart w ∈ passes.flatten → w = 0xACCE55ED) ∧
    (∀ (m0 : Machine β) (v : Nat),
      dumpPass H g (entryObject g m.mem p) { m0 with g_crashCatcherStack0 := v } =
        dumpPass H g (entryObject g m.mem p) m0) ∧
    (∀ evs ∈ passes, ∃ (m0 : Machine β) (r : Run β) (l : List DumpMemoryItem)
        (code : CrashCatcherReturnCodes),
      passEvents (dumpPass H g (entryObject g m.mem p) m0) = some evs ∧
      dumpBeforeCheck H g (entryObject g m.mem p) m0 = Except.ok r ∧
      r.machine = feed H l (H.DumpStart { m0 with g_crashCatcherStack0 := 0xACCE55ED }) ∧
      (r.machine.g_crashCatcherStack0 = 0xACCE55ED → evs = r.calls ++ [Event.DumpEnd code]) ∧
      (r.machine.g_crashCatcherStack0 ≠ 0xACCE55ED →
        evs = r.calls ++ [Event.DumpMemory overflowItem, Event.DumpEnd code])) := by
  obtain ⟨m', hloop⟩ := entryEvents_eq_some H g fuel p m passes hentry
  have hany := dumpLoop_passes_any H g (entryObject g m.mem p) fuel m m' passes hloop
  have hform : ∀ evs ∈ passes, ∃ (l : List DumpMemoryItem) (code : CrashCatcherReturnCodes),
      evs = Event.storeStack0 0xACCE55ED :: Event.DumpStart 0xACCE55ED ::
        (l.map Event.DumpMemory ++ [Event.DumpEnd code]) := by
    intro evs hevs
    obtain ⟨m0, hm0⟩ := hany evs hevs
    obtain ⟨l, code, hl, -⟩ := pass_events_form H g _ m0 evs hm0
    exact ⟨l, code, hl⟩
  refine ⟨rfl, hform, ?_, fun m0 v => dumpPass_stack0_irrelevant H g _ m0 v, ?_⟩
  · intro w hw
    obtain ⟨evs, hevs, hin⟩ := List.mem_flatten.1 hw
    obtain ⟨l, code, hl⟩ := hform evs hevs
    rw [hl] at hin
    simpa using hin
  · intro evs hevs
    obtain ⟨m0, hm0⟩ := hany evs hevs
    obtain ⟨r, code, hr, hintact, hmarker⟩ := pass_check H g _ m0 evs hm0
    obtain ⟨l, hl⟩ := dumpBeforeCheck_machine H g _ m0 r hr
    exact ⟨m0, r, l, code, hm0, hr, hl, hintact, hmarker⟩

/-- Witness of C24: the routines `overflowHooks` overwrite the word during the first pass
only and ask for one retry.  Both start calls find `0xACCE55ED`; the first pass ends with
the marker (eight items), the second one has no marker (seven items). -/
theorem C24_sentinel_rewritten_every_pass_witness :
    entryEvents (CrashCatcher_Entry overflowHooks targetGlobals 2 0x1000
        { mem := testMemory 0xFFFFFFF1 0, g_crashCatcherStack0 := 0, backend := 1 }) =
      some overflowEntryPasses ∧
    (∀ w : Nat, Event.DumpStart w ∈ overflowEntryPasses.flatten → w = 0xACCE55ED) ∧
    (overflowEntryPasses.map fun evs => evs.take 2) =
      [[Event.storeStack0 0xACCE55ED, Event.DumpStart 0xACCE55ED],
       [Event.storeStack0 0xACCE55ED, Event.DumpStart 0xACCE55ED]] ∧
    (overflowEntryPasses.map fun evs => (items evs).getLast?) =
      [some overflowItem,
       some { pvMemory := [0, 0, 0, 0], elementSize := CRASH_CATCHER_BYTE, elementCount := 4 }] ∧
    (overflowEntryPasses.map fun evs => (items evs).length) = [8, 7] :=
  ⟨by decide,
    (C24_sentinel_rewritten_every_pass overflowHooks targetGlobals 0x1000
      { mem := testMemory 0xFFFFFFF1 0, g_crashCatcherStack0 := 0, backend := 1 } 2
      overflowEntryPasses (by decide)).2.2.1,
    by decide, by decide, by decide⟩

/-! ## Termination of the walk and of the loop -/

/-- The walk does not look at what the array holds after the first entry with start
address `0xFFFFFFFF`. -/
theorem dumpMemoryRegionsFrom_rest_irrelevant {β : Type} (H : Hooks β) (g : Globals)
    (rs : List CrashCatcherMemoryRegion) (s : CrashCatcherMemoryRegion)
    (rest rest' : List CrashCatcherMemoryRegion)
    (hrs : ∀ x ∈ rs, x.startAddress ≠ 0xFFFFFFFF) (hs : s.startAddress = 0xFFFFFFFF) :
    ∀ r : Run β, dumpMemoryRegionsFrom H g (rs ++ s :: rest') r =
      dumpMemoryRegionsFrom H g (rs ++ s :: rest) r := by
  induction rs with
  | nil =>
    intro r
    simp [dumpMemoryRegionsFrom, hs]
  | cons x rs ih =>
    intro r
    have hx : x.startAddress ≠ 0xFFFFFFFF := hrs x (List.mem_cons_self _ _)
    rw [List.cons_append, List.cons_append, dumpMemoryRegionsFrom, dumpMemoryRegionsFrom,
      if_pos hx, if_pos hx]
    exact ih (fun y hy => hrs y (List.mem_cons_of_mem _ hy)) _

/-- The loop returns, after at most `K + 1` passes, when call `K + 1` of
`CrashCatcher_DumpEnd` returns a value other than `CRASH_CATCHER_TRY_AGAIN`. -/
theorem dumpLoop_returns {β : Type} (H : Hooks β) (g : Globals) (object : Object) (K : Nat) :
    ∀ (m : Machine β) (fuel : Nat), K < fuel →
      (∃ code, passResult H g object K m = some code ∧ code ≠ CRASH_CATCHER_TRY_AGAIN) →
      ∃ (m' : Machine β) (passes : List (List Event)),
        dumpLoop H g object fuel m = Except.ok (m', passes) ∧
        0 < passes.length ∧ passes.length ≤ K + 1 := by
  induction K with
  | zero =>
    intro m fuel hfuel hexit
    obtain ⟨code, hcode, hne⟩ := hexit
    obtain ⟨fuel, rfl⟩ : ∃ f, fuel = f + 1 := ⟨fuel - 1, by omega⟩
    unfold passResult at hcode
    unfold dumpLoop
    cases hp : dumpPass H g object m with
    | error e => rw [hp] at hcode; simp at hcode
    | ok x =>
      obtain ⟨c, r⟩ := x
      rw [hp] at hcode
      simp only [Option.some.injEq] at hcode
      subst hcode
      exact ⟨r.machine, [r.calls], by simp [hne], by simp, by simp⟩
  | succ K ih =>
    intro m fuel hfuel hexit
    obtain ⟨code, hcode, hne⟩ := hexit
    obtain ⟨fuel, rfl⟩ : ∃ f, fuel = f + 1 := ⟨fuel - 1, by omega⟩
    unfold passResult at hcode
    unfold dumpLoop
    cases hp : dumpPass H g object m with
    | error e => rw [hp] at hcode; simp at hcode
    | ok x =>
      obtain ⟨c, r⟩ := x
      rw [hp] at hcode
      simp only at hcode
      by_cases hc : c = CRASH_CATCHER_TRY_AGAIN
      · obtain ⟨m', passes, hloop, hpos, hlen⟩ :=
          ih r.machine fuel (by omega) ⟨code, hcode, hne⟩
        refine ⟨m', r.calls :: passes, by simp [hc, hloop], by simp, ?_⟩
        simp only [List.length_cons]
        omega
      · exact ⟨r.machine, [r.calls], by simp [hc], by simp, by simp⟩

/-- C25: on an array that holds an entry with start address `0xFFFFFFFF`, `rs` being the
entries before the first such entry `s`, the walk of `dumpMemoryRegions` comes to an end
without leaving the array; it makes two `CrashCatcher_DumpMemory` calls for each entry of
`rs`, in array order, and none for `s` or anything after it; and its result is the same
whatever is placed after `s`, also when the array ends right there.
`CrashCatcher_Entry` returns, after at most `K + 1` passes, whenever call `K + 1` of
`CrashCatcher_DumpEnd` returns a value other than `CRASH_CATCHER_TRY_AGAIN`. -/
theorem C25_walk_and_loop_terminate {β : Type} (H : Hooks β) (g : Globals)
    (rs : List CrashCatcherMemoryRegion) (s : CrashCatcherMemoryRegion)
    (rest : List CrashCatcherMemoryRegion) (r : Run β)
    (hrs : ∀ x ∈ rs, x.startAddress ≠ 0xFFFFFFFF) (hs : s.startAddress = 0xFFFFFFFF) :
    (∃ (r' : Run β) (new : List DumpMemoryItem),
      dumpMemoryRegions H g (some (rs ++ s :: rest)) r = Except.ok r' ∧
      r'.calls = r.calls ++ new.map Event.DumpMemory ∧
      new.length = 2 * rs.length ∧
      new.map DumpMemoryItem.shape =
        (rs.map fun x =>
          [(CRASH_CATCHER_BYTE, 8),
           (x.elementSize, sub32 x.endAddress x.startAddress / x.elementSize.toNat)]).flatten) ∧
    (∀ rest' : List CrashCatcherMemoryRegion,
      dumpMemoryRegions H g (some (rs ++ s :: rest')) r =
        dumpMemoryRegions H g (some (rs ++ s :: rest)) r) ∧
    (∀ (p : Nat) (m : Machine β) (K : Nat),
      (∃ code, passResult H g (entryObject g m.mem p) K m = some code ∧
        code ≠ CRASH_CATCHER_TRY_AGAIN) →
      ∀ fuel, K < fuel →
        ∃ (m' : Machine β) (passes : List (List Event)),
          CrashCatcher_Entry H g fuel p m = Except.ok (m', passes) ∧
          0 < passes.length ∧ passes.length ≤ K + 1) := by
  refine ⟨?_, ?_, ?_⟩
  · obtain ⟨r', new, hok, hc, -, hshape⟩ := dumpMemoryRegionsFrom_shapes H g rs s rest r hrs hs
    refine ⟨r', new, hok, hc, ?_, hshape⟩
    have h := congrArg List.length hshape
    rw [List.length_map, length_flatten_pairs] at h
    exact h
  · intro rest'
    exact dumpMemoryRegionsFrom_rest_irrelevant H g rs s rest rest' hrs hs r
  · intro p m K hexit fuel hfuel
    exact dumpLoop_returns H g (entryObject g m.mem p) K m fuel hfuel hexit

/-- Witness of C25: the regions of `DumpMultipleRegions`, the sentinel, and two more
entries after it: six items, as without the trailing entries; and an invocation with
routines that ask for one retry returns after two passes. -/
theorem C25_walk_and_loop_terminate_witness :
    (∀ x ∈ testRegions, x.startAddress ≠ 0xFFFFFFFF) ∧
    testSentinel.startAddress = 0xFFFFFFFF ∧
    dumpMemoryRegions mockHooks targetGlobals (some (testRegions ++ testSentinel :: []))
        (mockRun (testMemory 0xFFFFFFF1 0)) =
      dumpMemoryRegions mockHooks targetGlobals (some trailingRegions)
        (mockRun (testMemory 0xFFFFFFF1 0)) ∧
    (walkItems (dumpMemoryRegions mockHooks targetGlobals (some trailingRegions)
      (mockRun (testMemory 0xFFFFFFF1 0)))).map List.length = some 6 ∧
    (∃ code, passResult (loopHooks none) targetGlobals
        (entryObject targetGlobals (testMemory 0xFFFFFFF1 0) 0x1000) 1
        { mem := testMemory 0xFFFFFFF1 0, g_crashCatcherStack0 := 0, backend := 1 } =
          some code ∧ code ≠ CRASH_CATCHER_TRY_AGAIN) ∧
    (∃ (m' : Machine Nat) (passes : List (List Event)),
      CrashCatcher_Entry (loopHooks none) targetGlobals 2 0x1000
        { mem := testMemory 0xFFFFFFF1 0, g_crashCatcherStack0 := 0, backend := 1 } =
          Except.ok (m', passes) ∧
      0 < passes.length ∧ passes.length ≤ 1 + 1) :=
  ⟨by decide, by decide,
    (C25_walk_and_loop_terminate mockHooks targetGlobals testRegions testSentinel
      (trailingRegions.drop 4) (mockRun (testMemory 0xFFFFFFF1 0))
      (by decide) (by decide)).2.1 [],
    by decide,
    ⟨CRASH_CATCHER_EXIT, by decide, by decide⟩,
    (C25_walk_and_loop_terminate (loopHooks none) targetGlobals testRegions testSentinel []
      { machine := { mem := testMemory 0xFFFFFFF1 0, g_crashCatcherStack0 := 0, backend := 1 },
        calls := [] }
      (by decide) (by decide)).2.2 0x1000
      { mem := testMemory 0xFFFFFFF1 0, g_crashCatcherStack0 := 0, backend := 1 } 1
      ⟨CRASH_CATCHER_EXIT, by decide, by decide⟩ 2 (by decide)⟩

/-! ## Regions are not validated -/

theorem sub32_eq_emod (a b : Nat) (ha : a < 2 ^ 32) (hb : b < 2 ^ 32) :
    sub32 b a = (((b : Int) - (a : Int)) % 2 ^ 32).toNat := by
  unfold sub32
  omega

/-- What `elementSize * ((end - start) / elementSize)` bytes cover, `end - start` being
taken in 32-bit arithmetic: the whole range exactly when the end address is not below the
start address and the element size divides the difference. -/
theorem payload_covers_iff (s e k : Nat) (he : e < 2 ^ 32) :
    ((k * (sub32 e s / k) : Nat) : Int) = (e : Int) - (s : Int) ↔ s ≤ e ∧ k ∣ e - s := by
  by_cases hle : s ≤ e
  · have hd : sub32 e s = e - s := sub32_of_le s e hle he
    rw [hd]
    constructor
    · intro h
      refine ⟨hle, ?_⟩
      have h' : k * ((e - s) / k) = e - s := by omega
      exact Dvd.intro _ h'
    · rintro ⟨-, hdvd⟩
      rw [Nat.mul_div_cancel' hdvd]
      omega
  · constructor
    · intro h
      omega
    · rintro ⟨h, -⟩
      exact absurd h hle

/-- C26: `dumpMemoryRegions` does not validate a region.  For every entry whose start
address is not `0xFFFFFFFF`, whatever its end address and element size (1, 2 or 4), the
walk hands over the pair: the descriptor item, and a content item with the element size
of the region and count `((end - start) mod 2 ^ 32) / elementSize`, rounded down; then it
goes on with the next entry.  The content item covers exactly `end - start` bytes if and
only if the end address is not below the start address and the element size divides
`end - start`.  Addresses are 32-bit values. -/
theorem C26_regions_not_validated {β : Type} (H : Hooks β) (g : Globals)
    (x : CrashCatcherMemoryRegion) (rest : List CrashCatcherMemoryRegion) (r : Run β)
    (hx : x.startAddress ≠ 0xFFFFFFFF)
    (hstart : x.startAddress < 2 ^ 32) (hend : x.endAddress < 2 ^ 32) :
    ∃ content : DumpMemoryItem,
      dumpMemoryRegions H g (some (x :: rest)) r =
        dumpMemoryRegions H g (some rest)
          { machine := H.DumpMemory content
              (H.DumpMemory
                { pvMemory := wordBytes x.startAddress ++ wordBytes x.endAddress
                  elementSize := CRASH_CATCHER_BYTE, elementCount := 8 } r.machine)
            calls := r.calls ++
              [ Event.DumpMemory
                  { pvMemory := wordBytes x.startAddress ++ wordBytes x.endAddress
                    elementSize := CRASH_CATCHER_BYTE, elementCount := 8 },
                Event.DumpMemory content ] } ∧
      content.elementSize = x.elementSize ∧
      content.elementCount =
        (((x.endAddress : Int) - (x.startAddress : Int)) % 2 ^ 32).toNat / x.elementSize.toNat ∧
      content.pvMemory.length = x.elementSize.toNat * content.elementCount ∧
      (((content.pvMemory.length : Nat) : Int) = (x.endAddress : Int) - (x.startAddress : Int) ↔
        x.startAddress ≤ x.endAddress ∧
          x.elementSize.toNat ∣ x.endAddress - x.startAddress) := by
  refine ⟨{ pvMemory := readBytes
              (H.DumpMemory
                { pvMemory := wordBytes x.startAddress ++ wordBytes x.endAddress
                  elementSize := CRASH_CATCHER_BYTE, elementCount := 8 } r.machine).mem
              (uint32AddressToPointer g x.startAddress)
              (x.elementSize.toNat *
                (sub32 x.endAddress x.startAddress / x.elementSize.toNat))
            elementSize := x.elementSize
            elementCount := sub32 x.endAddress x.startAddress / x.elementSize.toNat },
    ?_, rfl, ?_, ?_, ?_⟩
  · show dumpMemoryRegionsFrom H g (x :: rest) r = dumpMemoryRegionsFrom H g rest _
    rw [dumpMemoryRegionsFrom, if_pos hx]
    dsimp only
    congr 1
    apply Run.eq_of
    · simp [descriptor_bytes_eight]
    · simp [descriptor_bytes_eight]
  · show sub32 x.endAddress x.startAddress / x.elementSize.toNat = _
    rw [sub32_eq_emod _ _ hstart hend]
  · simp [readBytes_length]
  · simp only [readBytes_length]
    exact payload_covers_iff _ _ _ hend

/-- Witness of C26: three bytes dumped as half words give one half word (count 1, two
bytes covered, not three); a region that ends four bytes before its start gives a content
item of `0x3FFFFFFF` words. -/
theorem C26_regions_not_validated_witness :
    (raggedRegions.get ⟨0, by decide⟩).startAddress ≠ 0xFFFFFFFF ∧
    (raggedRegions.get ⟨0, by decide⟩).startAddress < 2 ^ 32 ∧
    (raggedRegions.get ⟨0, by decide⟩).endAddress < 2 ^ 32 ∧
    walkItems (dumpMemoryRegions mockHooks targetGlobals (some raggedRegions)
      (mockRun (testMemory 0xFFFFFFF1 0))) =
        some [ { pvMemory := [0x00, 0x03, 0x00, 0x20, 0x03, 0x03, 0x00, 0x20]
                 elementSize := CRASH_CATCHER_BYTE, elementCount := 8 },
               { pvMemory := [0, 1], elementSize := CRASH_CATCHER_HALFWORD, elementCount := 1 } ] ∧
    backwardRegion.startAddress ≠ 0xFFFFFFFF ∧
    backwardRegion.startAddress < 2 ^ 32 ∧
    backwardRegion.endAddress < 2 ^ 32 ∧
    (∃ content : DumpMemoryItem,
      content.elementSize = CRASH_CATCHER_WORD ∧
      content.elementCount = 0x3FFFFFFF ∧
      content.pvMemory.length = 4 * 0x3FFFFFFF) :=
  ⟨by decide, by decide, by decide,
    match C26_regions_not_validated mockHooks targetGlobals (raggedRegions.get ⟨0, by decide⟩)
      [testSentinel] (mockRun (testMemory 0xFFFFFFF1 0)) (by decide) (by decide) (by decide) with
    | ⟨_, _, _, _, _, _⟩ => by decide,
    by decide, by decide, by decide,
    match C26_regions_not_validated mockHooks targetGlobals backwardRegion
      [testSentinel] (mockRun (testMemory 0xFFFFFFF1 0)) (by decide) (by decide) (by decide) with
    | ⟨content, _, hsize, hcount, hlen, _⟩ =>
      ⟨content, hsize, hcount.trans (by decide), by rw [hlen, hcount]; decide⟩⟩

/-! ## A NULL region array -/

/-- With a NULL region array the part of a pass before the sentinel check is the one of
the same routines handing out an array that begins with an entry whose start address is
`0xFFFFFFFF`. -/
theorem dumpBeforeCheck_null {β : Type} (H : Hooks β) (g : Globals) (object : Object)
    (m : Machine β) (s : CrashCatcherMemoryRegion) (rest : List CrashCatcherMemoryRegion)
    (hs : s.startAddress = 0xFFFFFFFF)
    (hnull : H.GetMemoryRegions (registerRun H object m).machine = none) :
    dumpBeforeCheck H g object m =
      dumpBeforeCheck { H with GetMemoryRegions := fun _ => some (s :: rest) } g object m := by
  generalize hH' : ({ H with GetMemoryRegions := fun _ => some (s :: rest) } : Hooks β) = H'
  have hreg : registerRun H' object m = registerRun H object m := by subst hH'; rfl
  have hfs : ∀ r : Run β, dumpFaultStatusRegisters H' g r = dumpFaultStatusRegisters H g r := by
    intro r
    subst hH'
    rfl
  show (match dumpMemoryRegions H g
        (H.GetMemoryRegions (registerRun H object m).machine) (registerRun H object m) with
      | Except.error e => Except.error e
      | Except.ok r =>
        if ¬ isCortexM0Device g r.machine.mem then dumpFaultStatusRegisters H g r
        else Except.ok r) =
    (match dumpMemoryRegions H' g
        (H'.GetMemoryRegions (registerRun H' object m).machine) (registerRun H' object m) with
      | Except.error e => Except.error e
      | Except.ok r =>
        if ¬ isCortexM0Device g r.machine.mem then dumpFaultStatusRegisters H' g r
        else Except.ok r)
  have htable' : H'.GetMemoryRegions (registerRun H' object m).machine = some (s :: rest) := by
    subst hH'; rfl
  rw [hnull, htable', hreg, dumpMemoryRegions_sentinel_first H' g s rest _ hs]
  simp only [dumpMemoryRegions, hfs]

/-- C27: when `CrashCatcher_GetMemoryRegions` returns NULL, `dumpMemoryRegions` returns at
once: it hands over nothing and reads no array entry, whatever the state.  So the pass
comes to an end and is, event by event and in its result, the pass of the same routines
handing out an array that consists of the sentinel alone (or begins with it). -/
theorem C27_null_region_array {β : Type} (H : Hooks β) (g : Globals) (p : Nat)
    (m : Machine β) (s : CrashCatcherMemoryRegion) (rest : List CrashCatcherMemoryRegion)
    (hs : s.startAddress = 0xFFFFFFFF)
    (hnull : H.GetMemoryRegions (registerRun H (entryObject g m.mem p) m).machine = none) :
    (∀ r : Run β, dumpMemoryRegions H g none r = Except.ok r) ∧
    (∀ r : Run β, dumpMemoryRegions H g none r = dumpMemoryRegions H g (some (s :: rest)) r) ∧
    dumpPass H g (entryObject g m.mem p) m =
      dumpPass { H with GetMemoryRegions := fun _ => some (s :: rest) } g
        (entryObject g m.mem p) m ∧
    ∃ evs : List Event,
      passEvents (dumpPass H g (entryObject g m.mem p) m) = some evs ∧
      passEvents (dumpPass { H with GetMemoryRegions := fun _ => some (s :: rest) } g
        (entryObject g m.mem p) m) = some evs ∧
      (items evs).take 7 = items (registerRun H (entryObject g m.mem p) m).calls := by
  have hpass : dumpPass H g (entryObject g m.mem p) m =
      dumpPass { H with GetMemoryRegions := fun _ => some (s :: rest) } g
        (entryObject g m.mem p) m := by
    unfold dumpPass
    rw [← dumpBeforeCheck_null H g _ m s rest hs hnull]
    rfl
  refine ⟨fun _ => rfl, ?_, hpass, ?_⟩
  · intro r
    rw [dumpMemoryRegions_sentinel_first H g s rest r hs]
    rfl
  · obtain ⟨r, hr⟩ := dumpBeforeCheck_ok_of_tableEnds H g (entryObject g m.mem p) m
      (by rw [hnull]; exact Or.inl rfl)
    have hp := dumpPass_of_dumpBeforeCheck H g _ m r hr
    have hev : passEvents (dumpPass H g (entryObject g m.mem p) m) =
        some (CrashCatcher_DumpEnd H (checkStackSentinelForStackOverflow H r)).2.calls := by
      rw [hp]
      rfl
    exact ⟨_, hev, by rw [← hpass]; exact hev, pass_take_seven H g _ m _ hev⟩

/-- Witness of C27: the registers-only tests, in which the region pointer of the mocks is
left NULL: seven items, as with the array that holds the sentinel alone. -/
theorem C27_null_region_array_witness :
    testSentinel.startAddress = 0xFFFFFFFF ∧
    mockHooks.GetMemoryRegions (registerRun mockHooks
      (entryObject targetGlobals (mockMachine (testMemory 0xFFFFFFF1 0) none).mem 0x1000)
      (mockMachine (testMemory 0xFFFFFFF1 0) none)).machine = none ∧
    dumpPass mockHooks targetGlobals
        (entryObject targetGlobals (mockMachine (testMemory 0xFFFFFFF1 0) none).mem 0x1000)
        (mockMachine (testMemory 0xFFFFFFF1 0) none) =
      dumpPass { mockHooks with GetMemoryRegions := fun _ => some (testSentinel :: []) }
        targetGlobals
        (entryObject targetGlobals (mockMachine (testMemory 0xFFFFFFF1 0) none).mem 0x1000)
        (mockMachine (testMemory 0xFFFFFFF1 0) none) ∧
    (items (mockPassEvents (testMemory 0xFFFFFFF1 0) none)).length = 7 ∧
    items (mockPassEvents (testMemory 0xFFFFFFF1 0) (some [testSentinel])) =
      items (mockPassEvents (testMemory 0xFFFFFFF1 0) none) :=
  ⟨by decide, by decide,
    (C27_null_region_array mockHooks targetGlobals 0x1000
      (mockMachine (testMemory 0xFFFFFFF1 0) none) testSentinel [] (by decide)
      (by decide)).2.2.1,
    by decide, by decide⟩

/-! ## What an invocation writes -/

theorem replay_append {β : Type} (H : Hooks β) (a b : List Event) (m : Machine β) :
    replay H (a ++ b) m = replay H b (replay H a m) := by
  induction a generalizing m with
  | nil => rfl
  | cons e a ih =>
    cases e <;> simp [replay, ih]

theorem replay_map_DumpMemory {β : Type} (H : Hooks β) (l : List DumpMemoryItem)
    (m : Machine β) : replay H (l.map Event.DumpMemory) m = feed H l m := by
  induction l generalizing m with
  | nil => rfl
  | cons x l ih => simp [replay, ih]

theorem replay_mem {β : Type} (H : Hooks β) (hH : H.KeepsMemory) (l : List Event)
    (m : Machine β) : (replay H l m).mem = m.mem := by
  induction l generalizing m with
  | nil => rfl
  | cons e l ih =>
    cases e <;> simp [replay, ih, hH.1, hH.2.1, hH.2.2]

/-- The run at the sentinel check is the replay of its log. -/
theorem dumpBeforeCheck_replay {β : Type} (H : Hooks β) (g : Globals) (object : Object)
    (m : Machine β) (r : Run β) (h : dumpBeforeCheck H g object m = Except.ok r) :
    r.machine = replay H r.calls m := by
  obtain ⟨r1, hr1, hfs⟩ := dumpBeforeCheck_ok H g object m r h
  obtain ⟨new, hc1, hm1⟩ := dumpMemoryRegions_calls H g _ _ r1 hr1
  have hc0 := registerRun_calls H object m
  have hm0 := registerRun_machine H object m
  generalize items (registerRun H object m).calls = l0 at hc0 hm0
  have h1 : r1.machine = replay H r1.calls m := by
    rw [hm1, hc1, hm0, hc0, replay_append, replay_map_DumpMemory]
    simp [replay, replay_map_DumpMemory]
  by_cases hc : isCortexM0Device g r1.machine.mem = true
  · rw [if_pos hc] at hfs
    simp only [Except.ok.injEq] at hfs
    subst hfs
    exact h1
  · rw [if_neg hc] at hfs
    obtain ⟨fs, hc2, hm2⟩ := dumpMemoryRegions_calls H g _ _ r hfs
    rw [hm2, hc2, replay_append, replay_map_DumpMemory, h1]

/-- The machine a pass leaves behind is the replay of the log of the pass. -/
theorem dumpPass_replay {β : Type} (H : Hooks β) (g : Globals) (object : Object)
    (m : Machine β) (code : CrashCatcherReturnCodes) (r' : Run β)
    (h : dumpPass H g object m = Except.ok (code, r')) :
    r'.machine = replay H r'.calls m := by
  obtain ⟨r, hr, -, hm', hc'⟩ := dumpPass_ok H g object m code r' h
  have hrep := dumpBeforeCheck_replay H g object m r hr
  rw [hm', hc', replay_append, checkStackSentinelForStackOverflow_machine,
    checkStackSentinelForStackOverflow_calls]
  split
  · rw [replay_append, ← hrep]
    rfl
  · rw [List.append_nil, ← hrep]
    rfl

/-- The machine the loop leaves behind is the replay of the logs of its passes. -/
theorem dumpLoop_replay {β : Type} (H : Hooks β) (g : Globals) (object : Object)
    (fuel : Nat) :
    ∀ (m m' : Machine β) (passes : List (List Event)),
      dumpLoop H g object fuel m = Except.ok (m', passes) →
      m' = replay H passes.flatten m ∧ passes ≠ [] := by
  induction fuel with
  | zero =>
    intro m m' passes h
    simp [dumpLoop] at h
  | succ fuel ih =>
    intro m m' passes h
    unfold dumpLoop at h
    cases hp : dumpPass H g object m with
    | error e => rw [hp] at h; simp at h
    | ok x =>
      obtain ⟨c, r⟩ := x
      rw [hp] at h
      have hrep := dumpPass_replay H g object m c r hp
      by_cases hc : c = CRASH_CATCHER_TRY_AGAIN
      · simp only [hc, if_true] at h
        cases hl : dumpLoop H g object fuel r.machine with
        | error e => rw [hl] at h; simp at h
        | ok y =>
          obtain ⟨m2, ps⟩ := y
          rw [hl] at h
          simp only [Except.ok.injEq, Prod.mk.injEq] at h
          obtain ⟨hm, hps⟩ := h
          subst hps
          subst hm
          obtain ⟨hrep2, -⟩ := ih r.machine m2 ps hl
          refine ⟨?_, by simp⟩
          rw [List.flatten_cons, replay_append, ← hrep]
          exact hrep2
      · simp only [hc, if_false, Except.ok.injEq, Prod.mk.injEq] at h
        obtain ⟨hm, hps⟩ := h
        subst hps
        subst hm
        refine ⟨?_, by simp⟩
        simp only [List.flatten_cons, List.flatten_nil, List.append_nil]
        exact hrep

theorem replay_inert_pass {β : Type} (H : Hooks β) (hI : H.Inert) (l : List DumpMemoryItem)
    (code : CrashCatcherReturnCodes) (m : Machine β) :
    replay H (Event.storeStack0 STACK_SENTINEL :: Event.DumpStart STACK_SENTINEL ::
      (l.map Event.DumpMemory ++ [Event.DumpEnd code])) m =
      { m with g_crashCatcherStack0 := STACK_SENTINEL } := by
  have hfeed : ∀ (l : List DumpMemoryItem) (m0 : Machine β), feed H l m0 = m0 := by
    intro l
    induction l with
    | nil => intro m0; rfl
    | cons x l ih => intro m0; simp [feed, hI.2.1, ih]
  simp [replay, replay_append, replay_map_DumpMemory, hfeed, hI.1, hI.2.2]

theorem replay_inert_passes {β : Type} (H : Hooks β) (hI : H.Inert)
    (passes : List (List Event))
    (hform : ∀ evs ∈ passes, ∃ (l : List DumpMemoryItem) (code : CrashCatcherReturnCodes),
      evs = Event.storeStack0 STACK_SENTINEL :: Event.DumpStart STACK_SENTINEL ::
        (l.map Event.DumpMemory ++ [Event.DumpEnd code]))
    (hne : passes ≠ []) (m : Machine β) :
    replay H passes.flatten m = { m with g_crashCatcherStack0 := STACK_SENTINEL } := by
  induction passes generalizing m with
  | nil => exact absurd rfl hne
  | cons x ps ih =>
    obtain ⟨l, code, hx⟩ := hform x (List.mem_cons_self _ _)
    rw [List.flatten_cons, replay_append, hx, replay_inert_pass H hI]
    by_cases hps : ps = []
    · subst hps
      rfl
    · rw [ih (fun e he => hform e (List.mem_cons_of_mem _ he)) hps]

/-- C28: `CrashCatcher_Entry` itself writes only to the first word of
`g_crashCatcherStack`.  The machine an invocation leaves behind is the one obtained from
the machine it started with by the logged steps alone: the stores of `0xACCE55ED` to that
word, one per pass, and the calls of the dump routines.  So when the dump routines leave
data memory alone, data memory (the exception registers, the hardware frame, the dumped
regions, the CPU ID and the fault status registers) is the same after any number of
passes as before; and when the dump routines change nothing at all, the machine left
behind differs from the one at the start in that word only. -/
theorem C28_entry_writes_only_stack0 {β : Type} (H : Hooks β) (g : Globals) (p : Nat)
    (m : Machine β) (fuel : Nat) (passes : List (List Event))
    (hentry : entryEvents (CrashCatcher_Entry H g fuel p m) = some passes) :
    entryMachine (CrashCatcher_Entry H g fuel p m) = some (replay H passes.flatten m) ∧
    (∀ v : Nat, Event.storeStack0 v ∈ passes.flatten → v = 0xACCE55ED) ∧
    (H.KeepsMemory → (replay H passes.flatten m).mem = m.mem) ∧
    (H.Inert → entryMachine (CrashCatcher_Entry H g fuel p m) =
      some { m with g_crashCatcherStack0 := 0xACCE55ED }) := by
  obtain ⟨m', hloop⟩ := entryEvents_eq_some H g fuel p m passes hentry
  obtain ⟨hrep, hne⟩ := dumpLoop_replay H g (entryObject g m.mem p) fuel m m' passes hloop
  have hany := dumpLoop_passes_any H g (entryObject g m.mem p) fuel m m' passes hloop
  have hform : ∀ evs ∈ passes, ∃ (l : List DumpMemoryItem) (code : CrashCatcherReturnCodes),
      evs = Event.storeStack0 STACK_SENTINEL :: Event.DumpStart STACK_SENTINEL ::
        (l.map Event.DumpMemory ++ [Event.DumpEnd code]) := by
    intro evs hevs
    obtain ⟨m0, hm0⟩ := hany evs hevs
    obtain ⟨l, code, hl, -⟩ := pass_events_form H g _ m0 evs hm0
    exact ⟨l, code, hl⟩
  have hmach : entryMachine (CrashCatcher_Entry H g fuel p m) = some m' := by
    unfold CrashCatcher_Entry
    rw [hloop]
    rfl
  refine ⟨by rw [hmach, hrep], ?_, fun hM => replay_mem H hM _ m, ?_⟩
  · intro v hv
    obtain ⟨evs, hevs, hin⟩ := List.mem_flatten.1 hv
    obtain ⟨l, code, hl⟩ := hform evs hevs
    rw [hl] at hin
    have h : v = STACK_SENTINEL := by simpa using hin
    exact h
  · intro hI
    rw [hmach, hrep, replay_inert_passes H hI passes hform hne m]
    rfl

/-- Witness of C28: with routines that change nothing, an invocation on the test fixture
with the regions of `DumpMultipleRegions` leaves the machine as it was but for the first
word of `g_crashCatcherStack`; with the mocks, which count and record their calls, data
memory is as it was. -/
theorem C28_entry_writes_only_stack0_witness :
    entryEvents (CrashCatcher_Entry (inertHooks (some (testRegions ++ [testSentinel])))
        targetGlobals 1 0x1000
        { mem := testMemory 0xFFFFFFF1 0, g_crashCatcherStack0 := 0, backend := () }) =
      some inertEntryPasses ∧
    (inertHooks (some (testRegions ++ [testSentinel]))).Inert ∧
    entryMachine (CrashCatcher_Entry (inertHooks (some (testRegions ++ [testSentinel])))
        targetGlobals 1 0x1000
        { mem := testMemory 0xFFFFFFF1 0, g_crashCatcherStack0 := 0, backend := () }) =
      some { mem := testMemory 0xFFFFFFF1 0, g_crashCatcherStack0 := 0xACCE55ED, backend := () } ∧
    (inertEntryPasses.map fun evs => (items evs).length) = [13] ∧
    entryEvents (CrashCatcher_Entry mockHooks targetGlobals 1 0x1000 mockRegionsMachine) =
      some mockEntryPasses ∧
    mockHooks.KeepsMemory ∧
    (replay mockHooks mockEntryPasses.flatten mockRegionsMachine).mem = mockRegionsMachine.mem :=
  ⟨by decide, ⟨fun _ => rfl, fun _ _ => rfl, fun _ => rfl⟩,
    (C28_entry_writes_only_stack0 (inertHooks (some (testRegions ++ [testSentinel])))
      targetGlobals 0x1000
      { mem := testMemory 0xFFFFFFF1 0, g_crashCatcherStack0 := 0, backend := () } 1
      inertEntryPasses (by decide)).2.2.2 ⟨fun _ => rfl, fun _ _ => rfl, fun _ => rfl⟩,
    by decide, by decide, mockHooks_keepsMemory,
    (C28_entry_writes_only_stack0 mockHooks targetGlobals 0x1000 mockRegionsMachine 1
      mockEntryPasses (by decide)).2.2.1 mockHooks_keepsMemory⟩

end CrashCatcher
